import Mathlib

/-! # GPIO core of the ESP8266 universal I/O bridge

A shallow embedding of `src/gpios.c`: the pin registry, the per-mode
initialisation handlers, the edge-counter interrupt handler, the periodic
scheduler with its PWM ramp, the trigger operation, the dump and the
`gpio-mode` / `gpio-set` / `gpio-get` commands; and of the commands of
`src/application.c` that work on the configuration store and the bus
(`i2c-read`, `i2c-sensor-calibrate`, the trigger set commands), with
`string_to_double` of `src/util.c`; followed by theorems about them.

Conventions.
* A C `int` is a Lean `Int`; where the source does arithmetic that can leave
  the 32-bit range the result goes through `wrap32` (two's complement).
  C division of ints is `Int.tdiv` (truncation towards zero).
* `unsigned int` values are `Nat`, reduced modulo `2 ^ 32` where they can grow.
* Hardware registers reached through the SDK (`gpio_output_set`,
  `gpio_input_get`, `pwm_set_duty`, ...) are fields of `hw_t`.
-/

namespace Gpios

/-! ## Machine integers -/

/-- Reduction of a mathematical integer to the value of a 32-bit C `int`. -/
def wrap32 (x : Int) : Int := (x + 2147483648) % 4294967296 - 2147483648

/-- Largest value of a C `int`. -/
def INT_MAX : Int := 2147483647

/-! ## Data model (`gpios.c` lines 16-64, the configuration entry it uses) -/

/-- The modes of `gpio_mode_t` that `gpios.c` names, with the error value
`gpio_mode_error` of `gpio_mode_from_string`. -/
inductive gpio_mode_t where
  | gpio_disabled
  | gpio_input
  | gpio_counter
  | gpio_output
  | gpio_timer
  | gpio_pwm
  | gpio_i2c
  | gpio_mode_error
  deriving DecidableEq, Repr, Inhabited

/-- The two values of `gpio_direction_t` that `gpios.c` names. -/
inductive gpio_direction_t where
  | gpio_up
  | gpio_down
  deriving DecidableEq, Repr, Inhabited

/-- The values of `gpio_i2c_t` that `gpios.c` names. -/
inductive gpio_i2c_t where
  | gpio_i2c_sda
  | gpio_i2c_scl
  | gpio_i2c_error
  deriving DecidableEq, Repr, Inhabited

open gpio_mode_t gpio_direction_t gpio_i2c_t

/-- The `counter` member of `gpio_t`. -/
structure gpio_counter_t where
  count : Int
  debounce : Int
  deriving DecidableEq, Repr, Inhabited

/-- The `timer` member of `gpio_t`. -/
structure gpio_timer_t where
  delay : Int
  deriving DecidableEq, Repr, Inhabited

/-- The `pwm` member of `gpio_t`. -/
structure gpio_pwm_t where
  channel : Int
  min_duty : Int
  max_duty : Int
  delay_current : Int
  delay_top : Int
  direction : gpio_direction_t
  deriving DecidableEq, Repr, Inhabited

/-- The pin record `gpio_t`: the constant descriptor (`id`, `name`, `index`,
`flags.rtc_gpio`) and the runtime state of the pin.  The multiplexer constants
`io_mux` / `io_func` only feed SDK calls and are left out. -/
structure gpio_t where
  id : Nat
  name : String
  index : Nat
  rtc_gpio : Bool
  counter : gpio_counter_t
  timer : gpio_timer_t
  pwm : gpio_pwm_t
  deriving DecidableEq, Repr, Inhabited

/-! ## PWM ramp (`gpios_periodic`, lines 461-497) -/

/-- One ramp step: the block of `gpios_periodic` between `pwm_get_duty` and
`pwm_set_duty`.  Input: the pin and the duty read from its channel; output:
the pin (its direction may flip) and the duty that is written back. -/
def pwm_ramp_step (gpio : gpio_t) (duty : Int) : gpio_t × Int :=
  if gpio.pwm.direction = gpio_up then
    let duty := if duty < gpio.pwm.min_duty then gpio.pwm.min_duty else duty
    let duty := if duty < 16 then 16 else duty
    let duty := wrap32 (duty * 115)
    let duty := Int.tdiv duty 100
    if duty ≥ gpio.pwm.max_duty then
      ({ gpio with pwm.direction := gpio_down }, gpio.pwm.max_duty)
    else
      (gpio, duty)
  else
    let duty := if duty > gpio.pwm.max_duty then gpio.pwm.max_duty else duty
    let duty := wrap32 (duty * 100)
    let duty := Int.tdiv duty 115
    let r : gpio_t × Int :=
      if duty ≤ gpio.pwm.min_duty then
        ({ gpio with pwm.direction := gpio_up }, gpio.pwm.min_duty)
      else
        (gpio, duty)
    if r.2 < 16 then
      ({ r.1 with pwm.direction := gpio_up }, 16)
    else
      r

/-- The pin and channel duty after `n` successive ramp steps, each step
reading the duty the previous one wrote. -/
def ramp_steps : Nat → gpio_t → Int → gpio_t × Int
  | 0, gpio, duty => (gpio, duty)
  | n + 1, gpio, duty =>
    let r := pwm_ramp_step gpio duty
    ramp_steps n r.1 r.2

/-- Admissible duty of a pwm pin: a 16-bit value that lies within the pin's
bounds or is the floor value 16. -/
def duty_ok (g : gpio_t) (d : Int) : Prop :=
  0 ≤ d ∧ d ≤ 65535 ∧ ((g.pwm.min_duty ≤ d ∧ d ≤ g.pwm.max_duty) ∨ d = 16)

/-! ## Persisted configuration

The headers that declare the configuration records are not part of the
sources at hand; the records below have the fields `gpios.c` reads and writes,
with the types of the persisted per-pin record of the specification. -/

/-- Modelled from the spec: the `counter` member of the missing declaration
of `gpio_config_entry_t`, counter{debounce:int, reset_on_get:bool}. -/
structure gpio_config_counter_t where
  debounce : Int
  reset_on_get : Bool
  deriving DecidableEq, Repr, Inhabited

/-- Modelled from the spec: the `output` member of the missing declaration
of `gpio_config_entry_t`, output{startup_state:bool}. -/
structure gpio_config_output_t where
  startup_state : Bool
  deriving DecidableEq, Repr, Inhabited

/-- Modelled from the spec: the `timer` member of the missing declaration
of `gpio_config_entry_t`, timer{direction, delay:uint32, repeat:bool,
autotrigger:bool}; `repeat_` is the field `repeat` of the source. -/
structure gpio_config_timer_t where
  direction : gpio_direction_t
  delay : Int
  repeat_ : Bool
  autotrigger : Bool
  deriving DecidableEq, Repr, Inhabited

/-- Modelled from the spec: the `pwm` member of the missing declaration of
`gpio_config_entry_t`, pwm{min_duty:uint16, max_duty:uint16, delay:uint8}. -/
structure gpio_config_pwm_t where
  min_duty : Int
  max_duty : Int
  delay : Int
  deriving DecidableEq, Repr, Inhabited

/-- Modelled from the spec: the `i2c` member of the missing declaration of
`gpio_config_entry_t`, the role (data or clock line) of a bus-reserved pin. -/
structure gpio_config_i2c_t where
  pin : gpio_i2c_t
  deriving DecidableEq, Repr, Inhabited

/-- Modelled from the spec: the missing declaration of `gpio_config_entry_t`,
the mode and one parameter block per mode. -/
structure gpio_config_entry_t where
  mode : gpio_mode_t
  counter : gpio_config_counter_t
  output : gpio_config_output_t
  timer : gpio_config_timer_t
  pwm : gpio_config_pwm_t
  i2c : gpio_config_i2c_t
  deriving DecidableEq, Repr, Inhabited

/-- Modelled from the spec: the missing declaration of `gpio_config_t`, one
entry per pin, indexed by the pin id. -/
structure gpio_config_t where
  entry : List gpio_config_entry_t
  deriving DecidableEq, Repr, Inhabited

/-- Modelled from the spec: the part of the missing declaration of `config_t`
that `gpios.c` uses. -/
structure config_t where
  gpios : gpio_config_t
  stat_trigger_gpio : Int
  i2c_delay : Int
  deriving DecidableEq, Repr, Inhabited

/-- The value `gpio_config_init` gives to an entry (lines 314-328). -/
def gpio_config_init : gpio_config_entry_t :=
  { mode := gpio_disabled,
    counter := { debounce := 100, reset_on_get := false },
    output := { startup_state := false },
    timer := { direction := gpio_up, delay := 0, repeat_ := false, autotrigger := false },
    pwm := { min_duty := 0, max_duty := 0, delay := 0 },
    i2c := { pin := gpio_i2c_sda } }

/-! ## Hardware reached through the SDK -/

/-- Registers behind the SDK calls of `gpios.c`.  `gpio_pad` / `rtc_pad` are
the levels applied to the pads from outside, which a pin reads back while its
output driver is disabled; `intr_state` has a bit for every pin whose edge
detection is armed and `intr_arm_log` lists the pins of all calls that armed
one, latest first; `pwm_duty` holds one duty per initialised channel. -/
structure hw_t where
  gpio_out : Nat
  gpio_enable : Nat
  gpio_pad : Nat
  rtc_out : Bool
  rtc_enable : Bool
  rtc_pad : Bool
  intr_state : Nat
  intr_arm_log : List Nat
  intr_status : Nat
  intr_handler : Bool
  open_drain : Nat
  pwm_duty : List Int
  pwm_period : Int
  pwm_starts : Nat
  i2c_pins : Option (Int × Int)
  deriving DecidableEq, Repr, Inhabited

/-- The bits of `x` outside the mask `m` (`x & ~m`). -/
def clear_bits (x m : Nat) : Nat := x ^^^ (x &&& m)

/-- SDK `gpio_output_set(set_mask, clear_mask, enable_mask, disable_mask)`. -/
def gpio_output_set (hw : hw_t) (set_mask clear_mask enable_mask disable_mask : Nat) : hw_t :=
  { hw with
    gpio_out := clear_bits (hw.gpio_out ||| set_mask) clear_mask,
    gpio_enable := clear_bits (hw.gpio_enable ||| enable_mask) disable_mask }

/-- SDK `gpio_input_get()`: a driven pin reads back its output latch, any
other pin the level on its pad. -/
def gpio_input_get (hw : hw_t) : Nat :=
  (hw.gpio_out &&& hw.gpio_enable) ||| clear_bits hw.gpio_pad hw.gpio_enable

/-- Lines 16-20. -/
inductive rtcgpio_setup_t where
  | rtcgpio_input
  | rtcgpio_output
  deriving DecidableEq, Repr

open rtcgpio_setup_t

/-- Lines 348-353; of the three registers only the enable bit is modelled. -/
def rtcgpio_config (hw : hw_t) (io : rtcgpio_setup_t) : hw_t :=
  { hw with rtc_enable := decide (io = rtcgpio_output) }

/-- Lines 355-358. -/
def rtcgpio_output_set (hw : hw_t) (value : Bool) : hw_t :=
  { hw with rtc_out := value }

/-- Lines 360-363. -/
def rtcgpio_input_get (hw : hw_t) : Bool :=
  if hw.rtc_enable then hw.rtc_out else hw.rtc_pad

/-- Lines 365-373. -/
def set_output (hw : hw_t) (gpio : gpio_t) (onoff : Bool) : hw_t :=
  if gpio.rtc_gpio then
    rtcgpio_output_set hw onoff
  else
    gpio_output_set hw (if onoff then 1 <<< gpio.index else 0)
      (if !onoff then 1 <<< gpio.index else 0) 0 0

/-- Lines 375-381. -/
def get_input (hw : hw_t) (gpio : gpio_t) : Bool :=
  if gpio.rtc_gpio then
    rtcgpio_input_get hw
  else
    decide (gpio_input_get hw &&& (1 <<< gpio.index) ≠ 0)

/-- Lines 383-389: `gpio_pin_intr_state_set(index, GPIO_PIN_INTR_ANYEDGE)`
arms edge detection for the pin. -/
def arm_counter (hw : hw_t) (gpio : gpio_t) : hw_t :=
  { hw with
    intr_state := hw.intr_state ||| (1 <<< gpio.index),
    intr_arm_log := gpio.index :: hw.intr_arm_log }

/-- SDK `pwm_get_duty(uint8 channel)`, result converted to `int`. -/
def pwm_get_duty (hw : hw_t) (channel : Int) : Int :=
  wrap32 (hw.pwm_duty.getD (channel % 256).toNat 0)

/-- SDK `pwm_set_duty(uint32 duty, uint8 channel)`; a channel that was not
initialised has no duty register. -/
def pwm_set_duty (hw : hw_t) (duty : Int) (channel : Int) : hw_t :=
  { hw with pwm_duty := hw.pwm_duty.set (channel % 256).toNat (duty % 4294967296) }

/-- SDK `pwm_start()`. -/
def pwm_start (hw : hw_t) : hw_t :=
  { hw with pwm_starts := hw.pwm_starts + 1 }

/-! ## Program state -/

/-- The flags `gpio_flags` (lines 77-81). -/
structure gpio_flags_t where
  pwm_subsystem_active : Bool
  counter_triggered : Bool
  deriving DecidableEq, Repr, Inhabited

/-- All mutable state of `gpios.c`: the live configuration `config`, the staged
snapshot `tmpconfig`, the persisted copy `flash` (with `flash_writable` telling
whether `config_write` can succeed), the pin table, the flags, the analog
sampler and the hardware. -/
structure state_t where
  config : config_t
  tmpconfig : config_t
  flash : config_t
  flash_writable : Bool
  gpios : List gpio_t
  gpio_flags : gpio_flags_t
  analog_sampling_current : Nat
  analog_sampling_total : Nat
  analog_sampling_value : Nat
  hw : hw_t
  deriving DecidableEq, Repr, Inhabited

/-- One row of the static table `gpios` (lines 94-204); runtime members start
zeroed.  The enumerators `gpio_0 .. gpio_16` of `gpio_id_t` number the rows. -/
def gpio_entry (id : Nat) (name : String) (index : Nat) (rtc_gpio : Bool) : gpio_t :=
  { id := id, name := name, index := index, rtc_gpio := rtc_gpio,
    counter := { count := 0, debounce := 0 },
    timer := { delay := 0 },
    pwm := { channel := 0, min_duty := 0, max_duty := 0, delay_current := 0,
             delay_top := 0, direction := gpio_up } }

/-- The static pin table (lines 94-204). -/
def gpios : List gpio_t :=
  [ gpio_entry 0 "gpio0" 0 false,
    gpio_entry 1 "gpio1" 1 false,
    gpio_entry 2 "gpio2" 2 false,
    gpio_entry 3 "gpio3" 3 false,
    gpio_entry 4 "gpio4" 4 false,
    gpio_entry 5 "gpio5" 5 false,
    gpio_entry 6 "gpio12" 12 false,
    gpio_entry 7 "gpio13" 13 false,
    gpio_entry 8 "gpio14" 14 false,
    gpio_entry 9 "gpio15" 15 false,
    gpio_entry 10 "gpio16" 16 true ]

/-- The constant part of a pin record. -/
def descriptor (g : gpio_t) : Nat × Nat × Bool :=
  (g.id, g.index, g.rtc_gpio)

/-- The pin table of a state still carries the constants of the static table. -/
def registry_ok (l : List gpio_t) : Prop :=
  l.map descriptor = gpios.map descriptor

instance registry_ok_decidable (l : List gpio_t) : Decidable (registry_ok l) :=
  inferInstanceAs (Decidable (l.map descriptor = gpios.map descriptor))

/-- Lines 210-213; an id beyond the stored entries reads as the initial entry. -/
def get_config (config : config_t) (gpio : gpio_t) : gpio_config_entry_t :=
  config.gpios.entry.getD gpio.id gpio_config_init

/-! ## Edge counter (lines 215-237) -/

/-- Body of the loop of `pc_int_handler` for one pin. -/
def pc_int_pin (config : config_t) (pc : Nat) (gpio : gpio_t) : gpio_t :=
  if pc &&& (1 <<< gpio.index) ≠ 0 then
    let cfg := get_config config gpio
    { gpio with
      counter.count := wrap32 (gpio.counter.count + 1),
      counter.debounce := cfg.counter.debounce }
  else
    gpio

/-- The interrupt handler: `pc` is the bitmask of pins that changed. -/
def pc_int_handler (s : state_t) (pc : Nat) : state_t :=
  { s with
    gpios := s.gpios.map (pc_int_pin s.config pc),
    hw := { s.hw with intr_status := clear_bits s.hw.intr_status pc },
    gpio_flags.counter_triggered := true }

/-! ## Timer trigger and pin lookup (lines 517-563) -/

/-- Lines 517-531; the `uint32` delay of the configuration is stored into the
`int` member `timer.delay`. -/
def trigger_timer (config : config_t) (gpio : gpio_t) (hw : hw_t) (onoff : Bool) :
    gpio_t × hw_t :=
  let cfg := get_config config gpio
  if onoff then
    ({ gpio with timer.delay := wrap32 cfg.timer.delay },
      set_output hw gpio (decide (cfg.timer.direction = gpio_up)))
  else
    ({ gpio with timer.delay := 0 },
      set_output hw gpio (!decide (cfg.timer.direction = gpio_up)))

/-- The loop of `find_gpio` from position `current` on. -/
def find_gpio_from (index : Int) : Nat → List gpio_t → Option (Nat × gpio_t)
  | _, [] => none
  | current, gpio :: rest =>
    if (gpio.index : Int) = index then some (current, gpio)
    else find_gpio_from index (current + 1) rest

/-- Lines 533-547: the position in the table and the record of the first pin
with the given index, `none` for the null pointer. -/
def find_gpio (table : List gpio_t) (index : Int) : Option (Nat × gpio_t) :=
  find_gpio_from index 0 table

/-- The table `gpio_mode_trait` (lines 83-92): mode and name. -/
def gpio_mode_trait : List (gpio_mode_t × String) :=
  [ (gpio_disabled, "disabled"),
    (gpio_input, "input"),
    (gpio_counter, "counter"),
    (gpio_output, "output"),
    (gpio_timer, "timer"),
    (gpio_pwm, "pwm"),
    (gpio_i2c, "i2c") ]

/-- The loop of `gpio_mode_from_string` over the trait table.  The helper
`string_match` is defined outside the files at hand; it is read as comparing
the whole argument with the name. -/
def gpio_mode_from_string_in (src : String) : List (gpio_mode_t × String) → gpio_mode_t
  | [] => gpio_mode_error
  | entry :: rest => if src = entry.2 then entry.1 else gpio_mode_from_string_in src rest

/-- Lines 549-563. -/
def gpio_mode_from_string (src : String) : gpio_mode_t :=
  gpio_mode_from_string_in src gpio_mode_trait

/-- Lines 565-573. -/
def gpio_i2c_pin_from_string (pin : String) : gpio_i2c_t :=
  if pin = "sda" then gpio_i2c_sda
  else if pin = "scl" then gpio_i2c_scl
  else gpio_i2c_error

/-! ## Mode initialisation handlers (lines 575-641) -/

def gpio_init_disabled (gpio : gpio_t) (hw : hw_t) : gpio_t × hw_t :=
  (gpio, hw)

def gpio_init_input (gpio : gpio_t) (hw : hw_t) : gpio_t × hw_t :=
  if gpio.rtc_gpio then
    (gpio, rtcgpio_config hw rtcgpio_input)
  else
    (gpio, gpio_output_set hw 0 0 0 (1 <<< gpio.index))

def gpio_init_counter (gpio : gpio_t) (hw : hw_t) : gpio_t × hw_t :=
  (gpio, arm_counter (gpio_output_set hw 0 0 0 (1 <<< gpio.index)) gpio)

def gpio_init_output (config : config_t) (gpio : gpio_t) (hw : hw_t) : gpio_t × hw_t :=
  let cfg := get_config config gpio
  let hw :=
    if gpio.rtc_gpio then rtcgpio_config hw rtcgpio_output
    else gpio_output_set hw 0 0 (1 <<< gpio.index) 0
  (gpio, set_output hw gpio cfg.output.startup_state)

def gpio_init_timer (config : config_t) (gpio : gpio_t) (hw : hw_t) : gpio_t × hw_t :=
  let cfg := get_config config gpio
  let gpio := { gpio with timer.delay := 0 }
  let r := gpio_init_output config gpio hw
  let hw :=
    if cfg.timer.direction = gpio_up then gpio_output_set r.2 0 (1 <<< gpio.index) 0 0
    else gpio_output_set r.2 (1 <<< gpio.index) 0 0 0
  if cfg.timer.autotrigger then trigger_timer config r.1 hw true
  else (r.1, hw)

def gpio_init_pwm (config : config_t) (gpio : gpio_t) (hw : hw_t) : gpio_t × hw_t :=
  let cfg := get_config config gpio
  ({ gpio with
      pwm.min_duty := cfg.pwm.min_duty,
      pwm.max_duty := cfg.pwm.max_duty,
      pwm.delay_top := cfg.pwm.delay,
      pwm.delay_current := 0,
      pwm.direction := gpio_up }, hw)

/-- Lines 633-641: open drain, then drive the line high. -/
def gpio_init_i2c (gpio : gpio_t) (hw : hw_t) : gpio_t × hw_t :=
  let hw := { hw with open_drain := hw.open_drain ||| (1 <<< gpio.index) }
  (gpio, gpio_output_set hw (1 <<< gpio.index) 0 (1 <<< gpio.index) 0)

/-- Dispatch through `gpio_mode_trait[mode].init_fn`; the table has no row
for `gpio_mode_error`. -/
def init_fn (config : config_t) (mode : gpio_mode_t) (gpio : gpio_t) (hw : hw_t) :
    gpio_t × hw_t :=
  match mode with
  | gpio_disabled => gpio_init_disabled gpio hw
  | gpio_input => gpio_init_input gpio hw
  | gpio_counter => gpio_init_counter gpio hw
  | gpio_output => gpio_init_output config gpio hw
  | gpio_timer => gpio_init_timer config gpio hw
  | gpio_pwm => gpio_init_pwm config gpio hw
  | gpio_i2c => gpio_init_i2c gpio hw
  | gpio_mode_error => (gpio, hw)

/-! ## Loops over the pin table -/

/-- A loop `for(current = 0; current < gpio_size; current++)` whose body
works on `gpios[current]` and on state shared by the iterations: the updated
table and the final shared state. -/
def for_each_gpio {σ : Type} (body : Nat → gpio_t → σ → gpio_t × σ) :
    Nat → List gpio_t → σ → List gpio_t × σ
  | _, [], a => ([], a)
  | current, gpio :: rest, a =>
    let r := body current gpio a
    let rs := for_each_gpio body (current + 1) rest r.2
    (r.1 :: rs.1, rs.2)

/-! ## Initialisation (lines 248-312) -/

/-- Locals of `gpios_init` that the first loop accumulates. -/
structure init_scan_t where
  pwmchannel : Nat
  pwm_duty_init : List Int
  state_change_mask : Nat
  sda : Int
  scl : Int
  deriving DecidableEq, Repr

/-- Body of the first loop of `gpios_init` (lines 267-293); `gpio_pwm_size`
is the channel budget.  `select_pin_function` only writes multiplexer
registers, which are not modelled. -/
def gpios_init_scan (config : config_t) (gpio_pwm_size : Nat) (gpio : gpio_t)
    (a : init_scan_t) : gpio_t × init_scan_t :=
  let cfg := get_config config gpio
  let a :=
    if cfg.mode = gpio_counter then
      { a with state_change_mask := a.state_change_mask ||| (1 <<< gpio.index) }
    else a
  let r : gpio_t × init_scan_t :=
    if cfg.mode = gpio_pwm ∧ a.pwmchannel < gpio_pwm_size then
      ({ gpio with pwm.channel := (a.pwmchannel : Int) },
        { a with
          pwm_duty_init := a.pwm_duty_init ++ [cfg.pwm.min_duty],
          pwmchannel := a.pwmchannel + 1 })
    else (gpio, a)
  let a := r.2
  let a :=
    if cfg.mode = gpio_i2c then
      let a := if cfg.i2c.pin = gpio_i2c_sda then { a with sda := (gpio.index : Int) } else a
      if cfg.i2c.pin = gpio_i2c_scl then { a with scl := (gpio.index : Int) } else a
    else a
  (r.1, a)

/-- SDK `pwm_init(period, duty, channels, io_info)`: one duty register per
initialised channel. -/
def pwm_init (hw : hw_t) (period : Int) (duty : List Int) : hw_t :=
  { hw with pwm_period := period, pwm_duty := duty }

/-- Modelled from the spec: the call `i2c_init(sda, scl, delay)` into the bus
driver, which is an external collaborator; only the reserved data and clock
lines are recorded. -/
def i2c_init (hw : hw_t) (sda scl : Int) : hw_t :=
  { hw with i2c_pins := some (sda, scl) }

/-- The locals of `gpios_init` before its first loop. -/
def init_scan_start : init_scan_t :=
  { pwmchannel := 0, pwm_duty_init := [], state_change_mask := 0, sda := -1, scl := -1 }

/-- Lines 296-303: register the interrupt handler if a counter pin exists,
start the PWM subsystem if a channel was assigned. -/
def gpios_init_subsystems (a : init_scan_t) (hw : hw_t) : hw_t :=
  let hw := if a.state_change_mask ≠ 0 then { hw with intr_handler := true } else hw
  if a.pwmchannel > 0 then pwm_init hw 3000 a.pwm_duty_init else hw

/-- Lines 308-309. -/
def gpios_init_i2c (a : init_scan_t) (hw : hw_t) : hw_t :=
  if a.sda ≥ 0 ∧ a.scl ≥ 0 then i2c_init hw a.sda a.scl else hw

/-- Lines 248-312. -/
def gpios_init (gpio_pwm_size : Nat) (s : state_t) : state_t :=
  let scan := for_each_gpio (fun _ => gpios_init_scan s.config gpio_pwm_size) 0 s.gpios
    init_scan_start
  let flags :=
    if scan.2.pwmchannel > 0 then { s.gpio_flags with pwm_subsystem_active := true }
    else s.gpio_flags
  let r := for_each_gpio
    (fun current gpio hw =>
      init_fn s.config (s.config.gpios.entry.getD current gpio_config_init).mode gpio hw)
    0 scan.1 (gpios_init_subsystems scan.2 s.hw)
  { s with
    gpios := r.1,
    hw := gpios_init_i2c scan.2 r.2,
    gpio_flags := { flags with counter_triggered := false } }

/-! ## Trigger (lines 830-869) -/

/-- Lines 830-869: the result and the state afterwards. -/
def gpios_trigger_output (s : state_t) (gpio_name : Int) : Bool × state_t :=
  match find_gpio s.gpios gpio_name with
  | none => (false, s)
  | some (current, gpio) =>
    match (get_config s.config gpio).mode with
    | gpio_output => (true, { s with hw := set_output s.hw gpio true })
    | gpio_timer =>
      let r := trigger_timer s.config gpio s.hw true
      (true, { s with gpios := s.gpios.set current r.1, hw := r.2 })
    | gpio_pwm => (true, { s with hw := pwm_start (pwm_set_duty s.hw 65535 gpio.pwm.channel) })
    | _ => (false, s)

/-! ## Periodic scheduler (lines 391-515) -/

/-- Lines 399-419: one analog sample `adc` as returned by `system_adc_read`. -/
def analog_sample (s : state_t) (adc : Nat) : state_t :=
  let current := if adc = 1023 then 1024 else adc
  let total := (s.analog_sampling_total + current) % 4294967296
  let count := (s.analog_sampling_current + 1) % 4294967296
  if count ≥ 256 then
    let current := total / 4
    let current := if current > 65535 then 65535 else current
    let current := if current < 256 then 0 else current
    { s with
      analog_sampling_current := 0,
      analog_sampling_total := 0,
      analog_sampling_value := current }
  else
    { s with analog_sampling_current := count, analog_sampling_total := total }

/-- Lines 426-435: debounce countdown of a counter pin. -/
def periodic_counter (cfg : gpio_config_entry_t) (gpio : gpio_t) (hw : hw_t) : gpio_t × hw_t :=
  if cfg.mode = gpio_counter ∧ gpio.counter.debounce ≠ 0 then
    let gpio :=
      if gpio.counter.debounce ≥ 10 then
        { gpio with counter.debounce := gpio.counter.debounce - 10 }
      else
        { gpio with counter.debounce := 0 }
    if gpio.counter.debounce = 0 then (gpio, arm_counter hw gpio) else (gpio, hw)
  else (gpio, hw)

/-- Lines 437-451: delay countdown of a timer pin. -/
def periodic_timer (cfg : gpio_config_entry_t) (gpio : gpio_t) (hw : hw_t) : gpio_t × hw_t :=
  if cfg.mode = gpio_timer ∧ gpio.timer.delay > 0 then
    let gpio :=
      if gpio.timer.delay ≥ 10 then
        { gpio with timer.delay := gpio.timer.delay - 10 }
      else
        { gpio with timer.delay := 0 }
    if gpio.timer.delay = 0 then
      let hw := set_output hw gpio (!get_input hw gpio)
      if cfg.timer.repeat_ then
        ({ gpio with timer.delay := wrap32 cfg.timer.delay }, hw)
      else (gpio, hw)
    else (gpio, hw)
  else (gpio, hw)

/-- Lines 453-502: ramp-delay counter and ramp step of a pwm pin; the `Bool`
is the local `pwm_changed`. -/
def periodic_pwm (cfg : gpio_config_entry_t) (gpio : gpio_t) (a : hw_t × Bool) :
    gpio_t × (hw_t × Bool) :=
  if cfg.mode = gpio_pwm ∧ gpio.pwm.delay_top > 0 then
    let gpio := { gpio with pwm.delay_current := wrap32 (gpio.pwm.delay_current + 1) }
    if gpio.pwm.delay_current > gpio.pwm.delay_top then
      let gpio := { gpio with pwm.delay_current := 0 }
      let duty := pwm_get_duty a.1 gpio.pwm.channel
      let r := pwm_ramp_step gpio duty
      (r.1, (pwm_set_duty a.1 r.2 r.1.pwm.channel, true))
    else (gpio, a)
  else (gpio, a)

/-- Body of the loop of `gpios_periodic` for one pin (lines 423-502). -/
def periodic_pin (config : config_t) (gpio : gpio_t) (a : hw_t × Bool) :
    gpio_t × (hw_t × Bool) :=
  let cfg := get_config config gpio
  let c := periodic_counter cfg gpio a.1
  let t := periodic_timer cfg c.1 c.2
  periodic_pwm cfg t.1 (t.2, a.2)

/-- Lines 421-506: the loop over the pin table, then `pwm_start` if a duty
was written. -/
def periodic_pins (s : state_t) : state_t :=
  let r := for_each_gpio (fun _ => periodic_pin s.config) 0 s.gpios (s.hw, false)
  { s with gpios := r.1, hw := if r.2.2 then pwm_start r.2.1 else r.2.1 }

/-- Lines 508-514: fire the status trigger pin after a counted edge. -/
def periodic_status_trigger (s : state_t) : state_t :=
  if s.gpio_flags.counter_triggered then
    let s := { s with gpio_flags.counter_triggered := false }
    if s.config.stat_trigger_gpio ≥ 0 then
      (gpios_trigger_output s s.config.stat_trigger_gpio).2
    else s
  else s

/-- Lines 391-515: one scheduler tick that samples the analog value `adc`. -/
def gpios_periodic (s : state_t) (adc : Nat) : state_t :=
  periodic_status_trigger (periodic_pins (analog_sample s adc))

/-- The state after the ticks that sample `adc 0`, `adc 1`, ..., `adc (n - 1)`. -/
def ticks (adc : Nat → Nat) : Nat → state_t → state_t
  | 0, s => s
  | n + 1, s => gpios_periodic (ticks adc n s) (adc n)

/-! ## Commands (lines 892-1305) -/

/-- Modelled from the spec: the result of a command, normal output, error
output or a protocol-level action, with the enumerators the sources use. -/
inductive app_action_t where
  | app_action_normal
  | app_action_error
  | app_action_empty
  | app_action_disconnect
  | app_action_reset
  deriving DecidableEq, Repr

open app_action_t

/-- Modelled from the spec: the parsed argument stream a command consumes.
The parser (`parse_int`, `parse_string`) is not part of the sources at hand;
an argument is its text together with its reading as an `int`, if it has one. -/
structure arg_t where
  text : String
  value : Option Int
  deriving DecidableEq, Repr

/-- Modelled from the spec: `parse_int(index, src, &dst, 0)`, `none` when the
result is not `parse_ok`. -/
def parse_int (index : Nat) (src : List arg_t) : Option Int :=
  match src[index]? with
  | some a => a.value
  | none => none

/-- Modelled from the spec: `parse_string(index, src, dst)`, `none` when the
result is not `parse_ok`. -/
def parse_string (index : Nat) (src : List arg_t) : Option String :=
  match src[index]? with
  | some a => some a.text
  | none => none

/-- Modelled from the spec: the call `config_read(&tmpconfig)` into the
configuration store, which loads the persisted configuration into the staged
snapshot. -/
def config_read (s : state_t) : state_t :=
  { s with tmpconfig := s.flash }

/-- Modelled from the spec: the call `config_write(&tmpconfig)` into the
configuration store, which persists the staged snapshot; a persistence
failure leaves the persisted configuration as it was. -/
def config_write (s : state_t) : state_t :=
  if s.flash_writable then { s with flash := s.tmpconfig } else s

/-- The staged snapshot with `tmpconfig.gpios.entry[gpio->id]` replaced. -/
def set_tmp_entry (s : state_t) (gpio : gpio_t) (e : gpio_config_entry_t) : state_t :=
  { s with tmpconfig.gpios.entry := s.tmpconfig.gpios.entry.set gpio.id e }

/-- The `switch(mode)` of `application_function_gpio_mode` (lines 929-1091):
the new entry, or `none` where the source returns `app_action_error`. -/
def gpio_mode_arguments (mode : gpio_mode_t) (gpio : gpio_t) (src : List arg_t)
    (new_gpio_config : gpio_config_entry_t) : Option gpio_config_entry_t :=
  match mode with
  | gpio_counter =>
    if gpio.rtc_gpio then none
    else
      match parse_int 3 src, parse_int 4 src with
      | some reset_on_get, some debounce =>
        some { new_gpio_config with
          counter.reset_on_get := decide (reset_on_get ≠ 0),
          counter.debounce := debounce }
      | _, _ => none
  | gpio_output =>
    match parse_int 3 src with
    | some startup_state =>
      some { new_gpio_config with output.startup_state := decide (startup_state ≠ 0) }
    | none => none
  | gpio_timer =>
    match parse_string 3 src with
    | none => none
    | some dir =>
      if dir = "up" ∨ dir = "down" then
        match parse_int 4 src, parse_int 5 src, parse_int 6 src with
        | some delay, some repeat_, some autotrigger =>
          if delay < 10 then none
          else
            some { new_gpio_config with
              timer.direction := if dir = "up" then gpio_up else gpio_down,
              timer.delay := delay % 4294967296,
              timer.repeat_ := decide (repeat_ ≠ 0),
              timer.autotrigger := decide (autotrigger ≠ 0) }
        | _, _, _ => none
      else none
  | gpio_pwm =>
    if gpio.rtc_gpio then none
    else
      let min_duty := (parse_int 3 src).getD 0
      let max_duty := (parse_int 4 src).getD 0
      let delay := (parse_int 5 src).getD 0
      if min_duty < 0 ∨ min_duty > 65535 then none
      else if min_duty < 0 ∨ max_duty > 65535 then none
      else if delay < 0 ∨ delay > 100 then none
      else
        some { new_gpio_config with
          pwm.min_duty := min_duty % 65536,
          pwm.max_duty := max_duty % 65536,
          pwm.delay := delay % 256 }
  | gpio_i2c =>
    if gpio.rtc_gpio then none
    else
      match parse_string 3 src with
      | none => none
      | some pin =>
        if gpio_i2c_pin_from_string pin = gpio_i2c_error then none
        else some { new_gpio_config with i2c.pin := gpio_i2c_pin_from_string pin }
  | _ => some new_gpio_config

/-- Lines 892-1100 (the text written to `dst` is not modelled). -/
def application_function_gpio_mode (s : state_t) (src : List arg_t) :
    app_action_t × state_t :=
  match parse_int 1 src with
  | none => (app_action_normal, s)
  | some gpio_index =>
    match find_gpio s.gpios gpio_index with
    | none => (app_action_error, s)
    | some (_, gpio) =>
      match parse_string 2 src with
      | none => (app_action_normal, s)
      | some name =>
        let mode := gpio_mode_from_string name
        if mode = gpio_mode_error then (app_action_error, s)
        else
          let s := config_read s
          let new_gpio_config := s.tmpconfig.gpios.entry.getD gpio.id gpio_config_init
          match gpio_mode_arguments mode gpio src new_gpio_config with
          | none => (app_action_error, s)
          | some e =>
            let s := set_tmp_entry s gpio { e with mode := mode }
            (app_action_normal, config_write s)

/-- Lines 1176-1305 (the text written to `dst` is not modelled). -/
def application_function_gpio_set (s : state_t) (src : List arg_t) :
    app_action_t × state_t :=
  match parse_int 1 src with
  | none => (app_action_error, s)
  | some gpio_index =>
    match find_gpio s.gpios gpio_index with
    | none => (app_action_error, s)
    | some (current, gpio) =>
      match (get_config s.config gpio).mode with
      | gpio_disabled => (app_action_error, s)
      | gpio_input => (app_action_error, s)
      | gpio_counter =>
        let counter := (parse_int 2 src).getD 0
        (app_action_normal,
          { s with gpios := s.gpios.set current { gpio with counter.count := counter } })
      | gpio_output =>
        match parse_int 2 src with
        | none => (app_action_error, s)
        | some value =>
          (app_action_normal, { s with hw := set_output s.hw gpio (decide (value ≠ 0)) })
      | gpio_timer =>
        let onoff :=
          match parse_int 2 src with
          | some value => decide (value ≠ 0)
          | none => decide (gpio.timer.delay = 0)
        let r := trigger_timer s.config gpio s.hw onoff
        (app_action_normal, { s with gpios := s.gpios.set current r.1, hw := r.2 })
      | gpio_pwm =>
        let min_duty := (parse_int 2 src).getD 0
        let max_duty := (parse_int 3 src).getD 0
        let delay := (parse_int 4 src).getD 0
        if min_duty < 0 ∨ min_duty > 65535 then (app_action_error, s)
        else if max_duty < 0 ∨ max_duty > 65535 then (app_action_error, s)
        else if delay < 0 ∨ delay > 100 then (app_action_error, s)
        else
          let gpio := { gpio with
            pwm.min_duty := min_duty,
            pwm.max_duty := max_duty,
            pwm.delay_top := delay,
            pwm.direction := gpio_up }
          (app_action_normal,
            { s with
              gpios := s.gpios.set current gpio,
              hw := pwm_start (pwm_set_duty s.hw min_duty gpio.pwm.channel) })
      | gpio_i2c => (app_action_error, s)
      | gpio_mode_error => (app_action_error, s)

/-! ## Observations on a pin -/

/-- The output driver of the pin is enabled. -/
def output_enabled (hw : hw_t) (gpio : gpio_t) : Bool :=
  if gpio.rtc_gpio then hw.rtc_enable else hw.gpio_enable.testBit gpio.index

/-- The level held in the output latch of the pin. -/
def output_latch (hw : hw_t) (gpio : gpio_t) : Bool :=
  if gpio.rtc_gpio then hw.rtc_out else hw.gpio_out.testBit gpio.index

/-- Edge detection of the pin is armed. -/
def counter_armed (hw : hw_t) (gpio : gpio_t) : Bool :=
  hw.intr_state.testBit gpio.index

/-- Number of calls so far that armed edge detection of the pin. -/
def arm_calls (hw : hw_t) (gpio : gpio_t) : Nat :=
  hw.intr_arm_log.count gpio.index

/-- Two pin records that use different register bits: different indices,
and not both on the special register. -/
def pins_apart (a b : gpio_t) : Prop :=
  a.index ≠ b.index ∧ (a.rtc_gpio = false ∨ b.rtc_gpio = false)

/-- Number of ticks a timer of `delay` ms runs: `delay / 10`, rounded up. -/
def timer_ticks (delay : Int) : Nat := ((delay + 9) / 10).toNat

/-- The countdown of `periodic_timer` seen on the pair (delay-remaining,
output latch) of a timer pin whose driver is enabled. -/
def timer_next (cfg : gpio_config_entry_t) (x : Int × Bool) : Int × Bool :=
  if x.1 ≤ 0 then x
  else if 10 < x.1 then (x.1 - 10, x.2)
  else (if cfg.timer.repeat_ then wrap32 cfg.timer.delay else 0, !x.2)

/-- The pair after `n` ticks. -/
def timer_run (cfg : gpio_config_entry_t) : Nat → Int × Bool → Int × Bool
  | 0, x => x
  | n + 1, x => timer_next cfg (timer_run cfg n x)

/-- The hardware `hw'` shows pin `g` the same output driver and latch as `hw`. -/
def same_output (g : gpio_t) (hw hw' : hw_t) : Prop :=
  output_enabled hw' g = output_enabled hw g ∧ output_latch hw' g = output_latch hw g

/-! ## Read command and configuration write command -/

/-- Lines 1102-1174 of `gpios.c` (the text written to `dst` is not modelled). -/
def application_function_gpio_get (s : state_t) (src : List arg_t) :
    app_action_t × state_t :=
  match parse_int 1 src with
  | none => (app_action_error, s)
  | some gpio_index =>
    match find_gpio s.gpios gpio_index with
    | none => (app_action_error, s)
    | some (current, gpio) =>
      let cfg := get_config s.config gpio
      match cfg.mode with
      | gpio_disabled => (app_action_error, s)
      | gpio_input => (app_action_normal, s)
      | gpio_counter =>
        let gpio := if cfg.counter.reset_on_get then { gpio with counter.count := 0 } else gpio
        let gpio := { gpio with counter.debounce := 0 }
        (app_action_normal, { s with gpios := s.gpios.set current gpio })
      | gpio_output => (app_action_error, s)
      | gpio_timer => (app_action_error, s)
      | gpio_pwm => (app_action_normal, s)
      | gpio_i2c => (app_action_error, s)
      | gpio_mode_error => (app_action_error, s)

/-- Whether the call `config_write(&tmpconfig)` in the given state persists
the staged snapshot. -/
def config_write_ok (s : state_t) : Bool := s.flash_writable

/-- Lines 78-90 of `application.c`: the `config-write` command, which reports
a failed write of the store as an error result. -/
def application_function_config_write (s : state_t) : app_action_t × state_t :=
  if config_write_ok s then (app_action_normal, config_write s)
  else (app_action_error, s)

/-! ## PWM channel assignment -/

/-- The pin is configured in pwm mode. -/
def is_pwm (config : config_t) (gpio : gpio_t) : Bool :=
  decide ((get_config config gpio).mode = gpio_pwm)

/-- The pwm-mode pins of a table, in table order. -/
def pwm_pins (config : config_t) (table : List gpio_t) : List gpio_t :=
  table.filter (is_pwm config)

/-- Number of pwm-mode pins in the rows before row `i`: the rank of row `i`
among the pwm-mode pins, counted from 0. -/
def pwm_rank (config : config_t) (table : List gpio_t) (i : Nat) : Nat :=
  (pwm_pins config (table.take i)).length


/-! ## Output text (`string_cat`, `string_format`) -/

/-- Modelled from the spec: one argument of a formatted append to the output
buffer, an integer or a string. -/
inductive format_arg_t where
  | int (v : Int)
  | str (s : String)
  deriving DecidableEq, Repr

/-- Modelled from the spec: the text of one conversion, `%d` / `%u` for an
integer argument and `%s` for a string argument. -/
def format_conversion (c : Char) (a : Option format_arg_t) : List Char :=
  match a with
  | some (format_arg_t.int v) => if c = 'd' ∨ c = 'u' then (toString v).data else []
  | some (format_arg_t.str t) => if c = 's' then t.data else []
  | none => []

/-- Modelled from the spec: expansion of a format, character by character;
the flag tells that the previous character was the conversion sign.
Arguments beyond the conversions of the format are ignored. -/
def format_expand : List Char → Bool → List format_arg_t → List Char
  | [], _, _ => []
  | c :: rest, false, args =>
    if c = '%' then format_expand rest true args else c :: format_expand rest false args
  | c :: rest, true, args =>
    format_conversion c args.head? ++ format_expand rest false args.tail

/-- Modelled from the spec: `string_cat(dst, text)` and `string_cat_ptr`, the
buffer after the append (the capacity of the buffer is not modelled). -/
def string_cat (dst : String) (text : String) : String := dst ++ text

/-- Modelled from the spec: `string_format(dst, fmt, ...)` and
`string_format_ptr`, the buffer after the formatted append. -/
def string_format (dst : String) (fmt : String) (args : List format_arg_t) : String :=
  dst ++ String.mk (format_expand fmt.data false args)

/-- Lines 85-91 of `util.c`. -/
def onoff (value : Bool) : String := if !value then "off" else "on"

/-! ## Dump (lines 643-828) -/

/-- The enumerators of `dump_string_id_t` (lines 643-664). -/
inductive dump_string_id_t where
  | ds_id_gpio
  | ds_id_disabled
  | ds_id_input
  | ds_id_counter
  | ds_id_output
  | ds_id_timer
  | ds_id_pwm_inactive
  | ds_id_pwm_active
  | ds_id_pwm_duty_default
  | ds_id_pwm_duty_current
  | ds_id_i2c
  | ds_id_unknown
  | ds_id_header
  | ds_id_footer
  | ds_id_preline
  | ds_id_postline
  deriving DecidableEq, Repr

open dump_string_id_t

/-- The table `dump_strings.strings.plain` (lines 680-698). -/
def dump_strings_plain : dump_string_id_t → String
  | ds_id_gpio => "> gpio: %d, name: %s, mode: "
  | ds_id_disabled => "disabled"
  | ds_id_input => "input, state: %s"
  | ds_id_counter => "counter, state: %s, counter: %d, debounce: %d/%d, reset on get: %s"
  | ds_id_output => "output, state: %s, startup: %s"
  | ds_id_timer =>
    "timer, direction: %s, delay: %d ms, repeat: %s, autotrigger: %s, active: %s, current state: %s"
  | ds_id_pwm_inactive => "pwm, inactive"
  | ds_id_pwm_active => "pwm, active, channel: %d, current frequency: %d Hz, current duty: %d"
  | ds_id_pwm_duty_default => "\ndefault min duty: %d, max duty: %d, delay: %d"
  | ds_id_pwm_duty_current => "\ncurrent min duty: %d, max duty: %d, delay: %d"
  | ds_id_i2c => "i2c, pin: %s"
  | ds_id_unknown => "unknown"
  | ds_id_header => ""
  | ds_id_footer => ""
  | ds_id_preline => ""
  | ds_id_postline => "\n"

/-- The table `dump_strings.strings.html` (lines 700-718), as written in the
source. -/
def dump_strings_html : dump_string_id_t → String
  | ds_id_gpio => "<td>%d</td><td>%s</td>"
  | ds_id_disabled => "<td>disabled</td>"
  | ds_id_input => "<td>input</td><td>state: %s</td>"
  | ds_id_counter =>
    "<td>counter</td><td>state: %s</td><td>counter: %d</td><td>debounce: %d/%d</td><td>reset on get: %s</td>"
  | ds_id_output => "<td>output</td><td>state: %s</td><td>startup: %s</td>"
  | ds_id_timer =>
    "<td>timer</td><td>direction: %s</td><td>delay: %d ms</td><td> repeat: %s</td><td>autotrigger: %s</td><td>active: %s</td><td>current state: %s</td>"
  | ds_id_pwm_inactive => "<td>pwm</<td><td>inactive</td>"
  | ds_id_pwm_active =>
    "<td>pwm</td><td>active</td><td>channel: %d</td><td>current frequency: %d Hz</td><td>current duty: %d</td>"
  | ds_id_pwm_duty_default => "<td>default min duty: %d, max duty: %d, delay: %d</td>"
  | ds_id_pwm_duty_current => "<td>current min duty: %d, max duty: %d, delay: %d</td>"
  | ds_id_i2c => "<td>i2c</td><td>pin %s</td>"
  | ds_id_unknown => "<td>unknown</td>"
  | ds_id_header =>
    "<table border=\"1\"><tr><th>index</th><th>name</th><th>mode</th><th colspan=\"8\"></th></tr>"
  | ds_id_footer => "</table>\n"
  | ds_id_preline => "<tr>"
  | ds_id_postline => "</trd>\n"

/-- Lines 727-730: the table selected by `html`. -/
def dump_strings (html : Bool) : dump_string_id_t → String :=
  if html then dump_strings_html else dump_strings_plain

/-- SDK `pwm_get_period()`, a `uint32`. -/
def pwm_get_period (hw : hw_t) : Nat := (hw.pwm_period % 4294967296).toNat

/-- The `switch(cfg->mode)` of `dump` (lines 744-804): the buffer after the
text for the mode, or `none` where the source divides by a period of 0. -/
def dump_mode (s : state_t) (cfg : gpio_config_entry_t) (gpio : gpio_t) (html : Bool)
    (dst : String) : Option String :=
  let strings := dump_strings html
  match cfg.mode with
  | gpio_disabled => some (string_cat dst (strings ds_id_disabled))
  | gpio_input =>
    some (string_format dst (strings ds_id_input)
      [format_arg_t.str (onoff (get_input s.hw gpio))])
  | gpio_counter =>
    some (string_format dst (strings ds_id_counter)
      [format_arg_t.str (onoff (get_input s.hw gpio)), format_arg_t.int gpio.counter.count,
        format_arg_t.int cfg.counter.debounce, format_arg_t.int gpio.counter.debounce,
        format_arg_t.str (onoff cfg.counter.reset_on_get)])
  | gpio_output =>
    some (string_format dst (strings ds_id_output)
      [format_arg_t.str (onoff (get_input s.hw gpio)),
        format_arg_t.str (onoff cfg.output.startup_state)])
  | gpio_timer =>
    some (string_format dst (strings ds_id_timer)
      [format_arg_t.str (if cfg.timer.direction = gpio_up then "up" else "down"),
        format_arg_t.int cfg.timer.delay, format_arg_t.str (onoff cfg.timer.repeat_),
        format_arg_t.str (onoff cfg.timer.autotrigger),
        format_arg_t.str (onoff (decide (gpio.timer.delay > 0))),
        format_arg_t.str (onoff (get_input s.hw gpio))])
  | gpio_pwm =>
    let active : Option String :=
      if s.gpio_flags.pwm_subsystem_active then
        if pwm_get_period s.hw = 0 then none
        else
          some (string_format dst (strings ds_id_pwm_active)
            [format_arg_t.int gpio.pwm.channel,
              format_arg_t.int ((1000000 / pwm_get_period s.hw : Nat) : Int),
              format_arg_t.int (pwm_get_duty s.hw gpio.pwm.channel)])
      else some (string_cat dst (strings ds_id_pwm_inactive))
    match active with
    | none => none
    | some dst =>
      let dst := string_format dst (strings ds_id_pwm_duty_default)
        [format_arg_t.int cfg.pwm.min_duty, format_arg_t.int cfg.pwm.max_duty,
          format_arg_t.int cfg.pwm.delay]
      some (string_format dst (strings ds_id_pwm_duty_current)
        [format_arg_t.int gpio.pwm.min_duty, format_arg_t.int gpio.pwm.max_duty,
          format_arg_t.int gpio.pwm.delay_top])
  | gpio_i2c =>
    some (string_format dst (strings ds_id_i2c)
      [format_arg_t.str (if cfg.i2c.pin = gpio_i2c_sda then "sda" else "scl")])
  | gpio_mode_error => some (string_cat dst "unknown mode")

/-- Body of the loop of `dump` (lines 734-809) for the pin in row `current`;
the shared state of the iterations is the output buffer, `none` once the
source has divided by 0.  The pin is read through a pointer to `const` and
comes back as it was. -/
def dump_pin (s : state_t) (cfgs : gpio_config_t) (gpio_in : Option gpio_t) (html : Bool)
    (current : Nat) (gpio : gpio_t) (dst : Option String) : gpio_t × Option String :=
  match dst with
  | none => (gpio, none)
  | some dst =>
    let strings := dump_strings html
    let cfg := cfgs.entry.getD current gpio_config_init
    if gpio_in.isNone ∨ gpio_in.map gpio_t.id = some gpio.id then
      let dst := string_format dst (strings ds_id_preline)
        [format_arg_t.int (gpio.index : Int), format_arg_t.str gpio.name]
      let dst := string_format dst (strings ds_id_gpio)
        [format_arg_t.int (gpio.index : Int), format_arg_t.str gpio.name]
      match dump_mode s cfg gpio html dst with
      | none => (gpio, none)
      | some dst => (gpio, some (string_cat dst (strings ds_id_postline)))
    else (gpio, some dst)

/-- Lines 720-818: the output buffer after `dump(dst, cfgs, gpio_in, html)` in
state `s`, or `none` if the source divides by 0 on the way. -/
def dump (s : state_t) (dst : String) (cfgs : gpio_config_t) (gpio_in : Option gpio_t)
    (html : Bool) : Option String :=
  let dst := string_cat dst (dump_strings html ds_id_header)
  let r := for_each_gpio (dump_pin s cfgs gpio_in html) 0 s.gpios (some dst)
  match r.2 with
  | none => none
  | some dst => some (string_cat dst (dump_strings html ds_id_footer))

/-- Lines 820-823. -/
def gpios_dump_string (s : state_t) (dst : String) (cfgs : gpio_config_t) : Option String :=
  dump s dst cfgs none false

/-- Lines 825-828. -/
def gpios_dump_html (s : state_t) (dst : String) (cfgs : gpio_config_t) : Option String :=
  dump s dst cfgs none true

/-- Lines 1307-1311: the `gpio-dump` command; result, state afterwards and
output buffer afterwards. -/
def application_function_gpio_dump (s : state_t) (_src : List arg_t) (dst : String) :
    app_action_t × state_t × Option String :=
  (app_action_normal, s, dump s dst s.config.gpios none false)

/-- The text that `application_function_gpio_get` (lines 1102-1174) leaves in
the output buffer, read off the state before the command; `none` where `dump`
divides by 0. -/
def gpio_get_dst (s : state_t) (src : List arg_t) (dst : String) : Option String :=
  match parse_int 1 src with
  | none => some (string_cat dst "gpio-get: too few arguments\n")
  | some gpio_index =>
    match find_gpio s.gpios gpio_index with
    | none =>
      some (string_format dst "gpio-get: invalid gpio %d\n" [format_arg_t.int gpio_index])
    | some (_, gpio) =>
      let cfg := get_config s.config gpio
      match cfg.mode with
      | gpio_disabled =>
        some (string_format dst "gpio-get: gpio %s is disabled\n" [format_arg_t.str gpio.name])
      | gpio_input =>
        some (string_format dst "gpio-get: gpio %s is %s\n"
          [format_arg_t.str gpio.name, format_arg_t.str (onoff (get_input s.hw gpio))])
      | gpio_counter =>
        some (string_format dst "gpio-get: gpio %s is %d (state: %s)\n"
          [format_arg_t.str gpio.name, format_arg_t.int gpio.counter.count,
            format_arg_t.str (onoff (get_input s.hw gpio))])
      | gpio_output =>
        some (string_format dst "gpio-get: gpio %s is output\n" [format_arg_t.str gpio.name])
      | gpio_timer =>
        some (string_format dst "gpio-get: gpio %s is output\n" [format_arg_t.str gpio.name])
      | gpio_pwm => dump s dst s.config.gpios (some gpio) false
      | gpio_i2c =>
        some (string_format dst "gpio-get: gpio %s is reserved for i2c\n"
          [format_arg_t.str gpio.name])
      | gpio_mode_error =>
        some (string_format dst "gpio-get: invalid mode %d\n" [format_arg_t.int 7])

/-! ## Reference definition of the ramp step -/

/-- The ramp step in the words of the specification, for a direction, the
current duty `c` and the bounds `lo`, `hi`: the new direction and the duty
written.  Up leg: `u = floor(115 * max(c, lo, 16) / 100)`, clamped to `hi`
with a flip to down once `u >= hi`.  Down leg: `v = floor(100 * min(c, hi)
/ 115)`, and a flip to up with duty `max(lo, 16)` once `v <= lo` or
`v < 16`.  (`/` on `Int` rounds down for a positive divisor.) -/
def ramp_reference (direction : gpio_direction_t) (c lo hi : Int) : gpio_direction_t × Int :=
  match direction with
  | gpio_up =>
    let u := 115 * max (max c lo) 16 / 100
    if u ≥ hi then (gpio_down, hi) else (gpio_up, u)
  | gpio_down =>
    let v := 100 * min c hi / 115
    if v ≤ lo ∨ v < 16 then (gpio_up, max lo 16) else (gpio_down, v)

/-! ## Commands of `application.c` on the configuration store and the bus

`application.c` reaches the configuration through `config_get_int`,
`config_set_int` and `config_delete` and the bus through `i2c_receive`; these
collaborators are not among the files at hand. -/

/-- Modelled from the spec: a key of the configuration store, a dotted path
(with its `%u` places as written) and the two numeric indices that fill them,
`-1` for an index that is not used. -/
structure config_key_t where
  path : String
  index1 : Int
  index2 : Int
  deriving DecidableEq, Repr

/-- Modelled from the spec: the configuration store, integer values by key;
`writable` tells whether `config_set_int` can succeed. -/
structure config_store_t where
  entries : List (config_key_t × Int)
  writable : Bool
  deriving DecidableEq, Repr

/-- Modelled from the spec: `config_get_int(path, index1, index2, &value)`,
`none` when it returns false. -/
def config_get_int (store : config_store_t) (path : String) (index1 index2 : Int) :
    Option Int :=
  (store.entries.find? (fun e => e.1 = { path := path, index1 := index1, index2 := index2 })).map
    Prod.snd

/-- Modelled from the spec: `config_delete(path, index1, index2, wildcard)`;
with `wildcard` every key of these indices whose path starts with `path` is
removed, without it the one key. -/
def config_delete (store : config_store_t) (path : String) (index1 index2 : Int)
    (wildcard : Bool) : config_store_t :=
  { store with
    entries := store.entries.filter (fun e =>
      !(decide (e.1.index1 = index1 ∧ e.1.index2 = index2) &&
        (if wildcard then path.data.isPrefixOf e.1.path.data else decide (e.1.path = path)))) }

/-- Modelled from the spec: `config_set_int(path, index1, index2, value)`,
its result and the store afterwards; a failed call leaves the store as it
was. -/
def config_set_int (store : config_store_t) (path : String) (index1 index2 : Int)
    (value : Int) : Bool × config_store_t :=
  if store.writable then
    (true,
      { store with
        entries :=
          ({ path := path, index1 := index1, index2 := index2 }, value) ::
            (config_delete store path index1 index2 false).entries })
  else (false, store)

/-- The enumerator `io_id_size` of `io.h` (lines 21-28): the number of
backends `io_id_gpio`, `io_id_aux`, `io_id_mcp_20`, `io_id_pcf_3a`. -/
def io_id_size : Int := 4

/-- Lines 1161-1197 of `application.c`: the result and the store afterwards
(the text written to `dst` is not modelled). -/
def application_function_gpio_status_set (store : config_store_t) (src : List arg_t) :
    app_action_t × config_store_t :=
  match parse_int 1 src, parse_int 2 src with
  | some trigger_io, some trigger_pin =>
    if trigger_io < -1 ∨ trigger_io > io_id_size then (app_action_error, store)
    else if trigger_io < 0 ∨ trigger_pin < 0 then
      (app_action_normal,
        config_delete (config_delete store "trigger.status.io" (-1) (-1) false)
          "trigger.status.pin" (-1) (-1) false)
    else
      let r1 := config_set_int store "trigger.status.io" (-1) (-1) trigger_io
      if !r1.1 then (app_action_error, r1.2)
      else
        let r2 := config_set_int r1.2 "trigger.status.pin" (-1) (-1) trigger_pin
        if !r2.1 then (app_action_error, r2.2) else (app_action_normal, r2.2)
  | _, _ => (app_action_normal, store)

/-- Lines 1199-1235 of `application.c`: the result and the store afterwards
(the text written to `dst` is not modelled). -/
def application_function_gpio_assoc_set (store : config_store_t) (src : List arg_t) :
    app_action_t × config_store_t :=
  match parse_int 1 src, parse_int 2 src with
  | some trigger_io, some trigger_pin =>
    if trigger_io < -1 ∨ trigger_io > io_id_size then (app_action_error, store)
    else if trigger_io < 0 ∨ trigger_pin < 0 then
      (app_action_normal,
        config_delete (config_delete store "trigger.assoc.io" (-1) (-1) false)
          "trigger.assoc.pin" (-1) (-1) false)
    else
      let r1 := config_set_int store "trigger.assoc.io" (-1) (-1) trigger_io
      if !r1.1 then (app_action_error, r1.2)
      else
        let r2 := config_set_int r1.2 "trigger.assoc.pin" (-1) (-1) trigger_pin
        if !r2.1 then (app_action_error, r2.2) else (app_action_normal, r2.2)
  | _, _ => (app_action_normal, store)

/-- What `application_function_i2c_read` does: its result, the calls
`i2c_receive(address, size, bytes)` it makes, the positions of `bytes[]` that
its print loop reads, and whether the timing report divides by 0. -/
structure i2c_read_t where
  action : app_action_t
  transfers : List (Int × Int)
  indexed : List Nat
  divides_by_zero : Bool
  deriving DecidableEq, Repr

/-- Lines 525-571 of `application.c`.  `i2c_address` is the static of that
name, `i2c_receive address size` tells whether the bus transfer of the
collaborator returns `i2c_error_ok`, `start` and `stop` are the two readings
of `system_get_time`; the buffer `bytes` has 32 elements. -/
def application_function_i2c_read (i2c_address : Int) (i2c_receive : Int → Int → Bool)
    (start stop : Nat) (src : List arg_t) : i2c_read_t :=
  match parse_int 1 src with
  | none => { action := app_action_error, transfers := [], indexed := [],
              divides_by_zero := false }
  | some size =>
    if size > 32 then
      { action := app_action_error, transfers := [], indexed := [], divides_by_zero := false }
    else if !(i2c_receive i2c_address size) then
      { action := app_action_error, transfers := [(i2c_address, size)], indexed := [],
        divides_by_zero := false }
    else
      let clocks := (((size + 1) * 9 + 4) % 4294967296).toNat
      let spent := ((stop + 4294967296 - start % 4294967296) * 1000) % 4294967296
      { action := app_action_normal,
        transfers := [(i2c_address, size)],
        indexed := List.range size.toNat,
        divides_by_zero := decide (clocks = 0 ∨ spent / clocks = 0) }

/-- Lines 211-258 of `util.c`, the loop over the characters: `result` so far
and `decimal`, the power of ten of the last fractional digit (0 before the
decimal sign).  A `double` is read as the exact rational. -/
def string_to_double_from : List Char → ℚ → Nat → ℚ
  | [], result, _ => result
  | c :: rest, result, decimal =>
    if c = '.' ∨ c = ',' then
      if decimal = 0 then string_to_double_from rest result 1 else result
    else if c < '0' ∨ c > '9' then result
    else if decimal > 0 then
      string_to_double_from rest
        (result + ((c.toNat - 48 : Nat) : ℚ) / ((decimal * 10 % 4294967296 : Nat) : ℚ))
        (decimal * 10 % 4294967296)
    else string_to_double_from rest (result * 10 + ((c.toNat - 48 : Nat) : ℚ)) decimal

/-- Lines 211-258 of `util.c`. -/
def string_to_double (src : String) : ℚ :=
  match src.data with
  | '-' :: rest => 0 - string_to_double_from rest 0 0
  | text => string_to_double_from text 0 0

/-- Modelled from the spec: `parse_float(index, src, &dst)`, `none` when the
result is not `parse_ok`: the argument at `index`, read by
`string_to_double`. -/
def parse_float (index : Nat) (src : List arg_t) : Option ℚ :=
  match src[index]? with
  | some a => some (string_to_double a.text)
  | none => none

/-- The conversion `(int)x` of a `double`: truncation towards zero, reduced
to 32 bits. -/
def double_to_int (x : ℚ) : Int := wrap32 (Int.tdiv x.num (x.den : Int))

/-- Lines 670-736 of `application.c`: the result, the store afterwards and
the two integers of the report (the reported factor and offset are these
divided by 1000), `none` where nothing is reported.  `i2c_busses` and
`i2c_sensor_size` are the constants of the bus and sensor headers, `offset0`
is the value the local `offset` holds when `parse_float` has not set it. -/
def application_function_i2c_sensor_calibrate (i2c_busses i2c_sensor_size : Nat) (offset0 : ℚ)
    (store : config_store_t) (src : List arg_t) :
    app_action_t × config_store_t × Option (Int × Int) :=
  match parse_int 1 src with
  | none => (app_action_error, store, none)
  | some bus_in =>
    match parse_int 2 src with
    | none => (app_action_error, store, none)
    | some intin_in =>
      let bus := (bus_in % 4294967296).toNat
      let intin := (intin_in % 4294967296).toNat
      if bus ≥ i2c_busses then (app_action_error, store, none)
      else if intin ≥ i2c_sensor_size then (app_action_error, store, none)
      else
        let sensor : Int := intin
        let report (store : config_store_t) : app_action_t × config_store_t × Option (Int × Int) :=
          let int_factor := (config_get_int store "i2s.%u.%u.factor" bus sensor).getD 1000
          let int_offset := (config_get_int store "i2s.%u.%u.factor" bus sensor).getD 0
          (app_action_normal, store, some (int_factor, int_offset))
        match parse_float 3 src, parse_float 4 src with
        | some factor, none =>
          let int_factor := double_to_int (factor * 1000)
          let int_offset := double_to_int (offset0 * 1000)
          let store := config_delete store "i2s.%u.%u." bus sensor true
          let r1 :=
            if int_factor ≠ 1000 then config_set_int store "i2s.%u.%u.factor" bus sensor int_factor
            else (true, store)
          if !r1.1 then (app_action_error, r1.2, none)
          else
            let r2 :=
              if int_offset ≠ 0 then
                config_set_int r1.2 "i2s.%u.%u.offset" bus sensor int_offset
              else (true, r1.2)
            if !r2.1 then (app_action_error, r2.2, none)
            else report r2.2
        | _, _ => report store

/-! ## Concrete states used to instantiate the theorems -/

/-- Every pin disabled, default parameters. -/
def config_default : config_t :=
  { gpios := { entry := List.replicate 11 gpio_config_init },
    stat_trigger_gpio := -1, i2c_delay := 0 }

/-- All registers cleared. -/
def hw_reset : hw_t :=
  { gpio_out := 0, gpio_enable := 0, gpio_pad := 0, rtc_out := false, rtc_enable := false,
    rtc_pad := false, intr_state := 0, intr_arm_log := [], intr_status := 0, intr_handler := false,
    open_drain := 0, pwm_duty := [], pwm_period := 0, pwm_starts := 0, i2c_pins := none }

/-- The state at power-up for a given configuration. -/
def state_boot (config : config_t) : state_t :=
  { config := config, tmpconfig := config, flash := config, flash_writable := true,
    gpios := gpios, gpio_flags := { pwm_subsystem_active := false, counter_triggered := false },
    analog_sampling_current := 0, analog_sampling_total := 0, analog_sampling_value := 0,
    hw := hw_reset }

/-- The configuration `config` with the entry of table row `id` replaced. -/
def config_with (config : config_t) (id : Nat) (e : gpio_config_entry_t) : config_t :=
  { config with gpios.entry := config.gpios.entry.set id e }

/-- Sum of the first `n` samples as the sampler accumulates them (the
saturated reading 1023 counts as 1024). -/
def sample_sum (adc : Nat → Nat) : Nat → Nat
  | 0 => 0
  | n + 1 => sample_sum adc n + (if adc n = 1023 then 1024 else adc n)

/-- Pin gpio2 with 41 edges counted and 30 ms of debounce left. -/
def pin_counting : gpio_t :=
  { gpio_entry 2 "gpio2" 2 false with counter := { count := 41, debounce := 30 } }

/-- A state in which gpio2 (row 2) is a counter pin in the middle of a
debounce window. -/
def state_counting : state_t :=
  { state_boot (config_with config_default 2 { gpio_config_init with mode := gpio_counter }) with
    gpios := gpios.set 2 pin_counting }

/-- A pwm pin on channel 0 with bounds [100, 1000], ramping up. -/
def example_pwm_pin : gpio_t :=
  { id := 0, name := "gpio0", index := 0, rtc_gpio := false,
    counter := ⟨0, 0⟩, timer := ⟨0⟩, pwm := ⟨0, 100, 1000, 0, 1, gpio_up⟩ }


/-- Row 4 of the static table: gpio4. -/
def pin_gpio4 : gpio_t := gpio_entry 4 "gpio4" 4 false

/-- Configuration entry: timer, direction up, 500 ms, with the given repeat
flag, autotrigger on. -/
def entry_timer (repeat_ : Bool) : gpio_config_entry_t :=
  { gpio_config_init with
    mode := gpio_timer,
    timer := { direction := gpio_up, delay := 500, repeat_ := repeat_, autotrigger := true } }

/-- Power-up state in which gpio4 is a repeating 500 ms timer. -/
def state_timer_repeat : state_t :=
  state_boot (config_with config_default 4 (entry_timer true))

/-- Power-up state in which gpio4 is a one-shot 500 ms timer. -/
def state_timer_once : state_t :=
  state_boot (config_with config_default 4 (entry_timer false))

/-- Row 5 of the static table: gpio5. -/
def pin_gpio5 : gpio_t := gpio_entry 5 "gpio5" 5 false

/-- Power-up state in which gpio5 is a pwm pin. -/
def state_pwm : state_t :=
  state_boot (config_with config_default 5 { gpio_config_init with mode := gpio_pwm })

/-- The command line `gpio-mode 5 pwm 70000 100 1`. -/
def args_mode_pwm : List arg_t :=
  [ { text := "gpio-mode", value := none }, { text := "5", value := some 5 },
    { text := "pwm", value := none }, { text := "70000", value := some 70000 },
    { text := "100", value := some 100 }, { text := "1", value := some 1 } ]

/-- The command line `gpio-set 5 70000 100 1`. -/
def args_set_pwm : List arg_t :=
  [ { text := "gpio-set", value := none }, { text := "5", value := some 5 },
    { text := "70000", value := some 70000 }, { text := "100", value := some 100 },
    { text := "1", value := some 1 } ]

/-- Row 4 as `gpios_init` leaves it for `entry_timer`: delay-remaining 500. -/
def pin_timer_started : gpio_t := { pin_gpio4 with timer.delay := 500 }

/-- An argument that reads as the integer `v`. -/
def arg_int (v : Int) : arg_t := { text := toString v, value := some v }

/-- An argument that is a word without an integer reading. -/
def arg_word (text : String) : arg_t := { text := text, value := none }

/-- The command line `gpio-mode 5 pwm 100 1000 1`. -/
def args_mode_pwm_valid : List arg_t :=
  [arg_word "gpio-mode", arg_int 5, arg_word "pwm", arg_int 100, arg_int 1000, arg_int 1]

/-- The command line `gpio-mode 5 pwm 0 -1 0`: a negative `max_duty`. -/
def args_mode_pwm_negative_max : List arg_t :=
  [arg_word "gpio-mode", arg_int 5, arg_word "pwm", arg_int 0, arg_int (-1), arg_int 0]

/-- The command line `gpio-set 5 0 -1 0`: a negative `max_duty`. -/
def args_set_pwm_negative_max : List arg_t :=
  [arg_word "gpio-set", arg_int 5, arg_int 0, arg_int (-1), arg_int 0]

/-- The command line `gpio-mode 16 timer up 500 1 1`. -/
def args_mode_timer_gpio16 : List arg_t :=
  [arg_word "gpio-mode", arg_int 16, arg_word "timer", arg_word "up", arg_int 500, arg_int 1,
    arg_int 1]

/-- The command line `gpio-mode 16 counter 0 100`. -/
def args_mode_counter_gpio16 : List arg_t :=
  [arg_word "gpio-mode", arg_int 16, arg_word "counter", arg_int 0, arg_int 100]

/-- Row 10 of the static table: gpio16, the pin on the special register. -/
def pin_gpio16 : gpio_t := gpio_entry 10 "gpio16" 16 true

/-- The power-up state of `state_pwm` with a configuration store that cannot
be written. -/
def state_pwm_write_fails : state_t := { state_pwm with flash_writable := false }

/-- The command line `gpio-set 4 1`. -/
def args_set_gpio4 : List arg_t := [arg_word "gpio-set", arg_int 4, arg_int 1]

/-- The command line `gpio-get 7`, `gpio-set 7 1` or `gpio-mode 7 input`: pin
index 7 is not in the registry. -/
def args_gpio7 : List arg_t := [arg_word "gpio", arg_int 7, arg_word "input"]

/-- The command line `gpio-mode 5 servo`. -/
def args_mode_servo : List arg_t := [arg_word "gpio-mode", arg_int 5, arg_word "servo"]

/-- Configuration entry: pwm with duty bounds [`min_duty`, `max_duty`] and
ramp delay `delay`. -/
def entry_pwm (min_duty max_duty delay : Int) : gpio_config_entry_t :=
  { gpio_config_init with
    mode := gpio_pwm,
    pwm := { min_duty := min_duty, max_duty := max_duty, delay := delay } }

/-- The state after `gpios_init` with a budget of 4 channels when gpio5 is a
pwm pin with bounds [100, 1000] and ramp delay 5. -/
def state_ramping : state_t :=
  gpios_init 4 (state_boot (config_with config_default 5 (entry_pwm 100 1000 5)))

/-- A configuration with two pwm pins: gpio4 with bounds [200, 2000] and no
ramp, gpio5 with bounds [100, 1000] and ramp delay 1. -/
def config_two_pwm : config_t :=
  config_with (config_with config_default 4 (entry_pwm 200 2000 0)) 5 (entry_pwm 100 1000 1)

/-- The state after `gpios_init` with a budget of one channel for
`config_two_pwm`: gpio4 owns channel 0, the budget is exhausted at gpio5. -/
def state_two_pwm : state_t := gpios_init 1 (state_boot config_two_pwm)

/-- The state after `gpios_init` with a budget of one channel when gpio4 is
the only pwm pin, with the parameters it has in `config_two_pwm`. -/
def state_one_pwm : state_t :=
  gpios_init 1 (state_boot (config_with config_default 4 (entry_pwm 200 2000 0)))

/-- The line that the plain dump prints for the pin `pin_counting` in
`state_counting`. -/
def text_counting : String :=
  "> gpio: 2, name: gpio2, mode: counter, state: off, counter: 41, debounce: 100/30, reset on get: off\n"

/-- The command line `gpio-get 2`. -/
def args_get_gpio2 : List arg_t := [arg_word "gpio-get", arg_int 2]

/-- The state after `gpios_init` with a budget of 4 channels when gpio5 is a
pwm pin with bounds [100, 1000] and ramp delay 1. -/
def state_ramp_one : state_t :=
  gpios_init 4 (state_boot (config_with config_default 5 (entry_pwm 100 1000 1)))

/-- Row 5 of `state_ramp_one`: gpio5 as `gpio_init_pwm` leaves it. -/
def pin_ramp_one : gpio_t :=
  { pin_gpio5 with pwm.min_duty := 100, pwm.max_duty := 1000, pwm.delay_top := 1 }

/-- A bus whose transfers all succeed. -/
def i2c_receive_ok : Int → Int → Bool := fun _ _ => true

/-- The command line `i2c-read -1`. -/
def args_i2c_read_negative : List arg_t := [arg_word "i2c-read", arg_int (-1)]

/-- The command line `i2c-read 33`. -/
def args_i2c_read_33 : List arg_t := [arg_word "i2c-read", arg_int 33]

/-- An empty configuration store that accepts writes. -/
def store_empty : config_store_t := { entries := [], writable := true }

/-- The command line `gpio-status-set 4 2` (also used for `gpio-assoc-set`):
io 4 is `io_id_size`, one past the last backend. -/
def args_trigger_io4 : List arg_t := [arg_word "gpio-status-set", arg_int 4, arg_int 2]

/-- The command line `gpio-status-set 5 2`. -/
def args_trigger_io5 : List arg_t := [arg_word "gpio-status-set", arg_int 5, arg_int 2]

/-- A store that holds factor 2000 and offset 500 for sensor 1 on bus 0. -/
def store_calibrated : config_store_t :=
  { entries :=
      [ ({ path := "i2s.%u.%u.factor", index1 := 0, index2 := 1 }, 2000),
        ({ path := "i2s.%u.%u.offset", index1 := 0, index2 := 1 }, 500) ],
    writable := true }

/-- The command line `i2c-sensor-calibrate 0 1`. -/
def args_calibrate_query : List arg_t := [arg_word "isc", arg_int 0, arg_int 1]

/-- The command line `i2c-sensor-calibrate 0 1 2.0 0.5`. -/
def args_calibrate_set : List arg_t :=
  [arg_word "isc", arg_int 0, arg_int 1, arg_word "2.0", arg_word "0.5"]

/-! # Theorems -/

/-! ## Arithmetic helpers -/

theorem wrap32_of_range (x : Int) (h0 : -2147483648 ≤ x) (h1 : x ≤ 2147483647) :
    wrap32 x = x := by
  unfold wrap32
  omega

theorem testBit_clear_bits (x m i : Nat) :
    (clear_bits x m).testBit i = (x.testBit i && !m.testBit i) := by
  simp only [clear_bits, Nat.testBit_xor, Nat.testBit_and]
  cases x.testBit i <;> cases m.testBit i <;> rfl

theorem testBit_one_shiftLeft (i j : Nat) : (1 <<< i).testBit j = decide (i = j) := by
  rw [Nat.one_shiftLeft, Nat.testBit_two_pow]

theorem and_bit_ne_zero (x i : Nat) : x &&& (1 <<< i) ≠ 0 ↔ x.testBit i = true := by
  rw [Nat.one_shiftLeft, Nat.and_two_pow]
  cases x.testBit i <;> simp

/-! ## Edge counter -/

theorem pc_int_pin_set (config : config_t) (pc : Nat) (g : gpio_t)
    (h : pc.testBit g.index = true) :
    pc_int_pin config pc g =
      { g with
        counter.count := wrap32 (g.counter.count + 1),
        counter.debounce := (get_config config g).counter.debounce } := by
  unfold pc_int_pin
  rw [if_pos ((and_bit_ne_zero pc g.index).2 h)]

theorem pc_int_pin_clear (config : config_t) (pc : Nat) (g : gpio_t)
    (h : pc.testBit g.index = false) : pc_int_pin config pc g = g := by
  unfold pc_int_pin
  rw [if_neg]
  rw [and_bit_ne_zero, h]
  simp


/-- C5: for every change bitmask `pc` and every prior state, `pc_int_handler`
leaves the table row `i` a pin whose count is one higher and whose
debounce-remaining is the configured debounce when bit `index` of `pc` is set
(for any count that is a C `int` below `INT_MAX`, whatever the
debounce-remaining was), and leaves the pin unchanged when the bit is clear. -/
theorem pc_int_handler_counts (s : state_t) (pc i : Nat) (g : gpio_t)
    (hg : s.gpios[i]? = some g) :
    ∃ g', (pc_int_handler s pc).gpios[i]? = some g' ∧
      (pc.testBit g.index = true → -2147483648 ≤ g.counter.count →
        g.counter.count < INT_MAX →
        g'.counter.count = g.counter.count + 1 ∧
        g'.counter.debounce = (get_config s.config g).counter.debounce) ∧
      (pc.testBit g.index = false → g' = g) := by
  refine ⟨pc_int_pin s.config pc g, ?_, ?_, ?_⟩
  · simp [pc_int_handler, List.getElem?_map, hg]
  · intro hb hlo hhi
    unfold INT_MAX at hhi
    rw [pc_int_pin_set _ _ _ hb]
    exact ⟨wrap32_of_range _ (by omega) (by omega), rfl⟩
  · intro hb
    exact pc_int_pin_clear _ _ _ hb

theorem pc_int_handler_counts_witness :
    ∃ g', (pc_int_handler state_counting 4).gpios[2]? = some g' ∧
      g'.counter.count = 42 ∧ g'.counter.debounce = 100 := by
  obtain ⟨g', h1, h2, _⟩ :=
    pc_int_handler_counts state_counting 4 2 pin_counting (by decide)
  exact ⟨g', h1, h2 (by decide) (by decide) (by decide)⟩

/-! ## PWM ramp -/

theorem scale_up_eq (x : Int) (h0 : 0 ≤ x) (h1 : x ≤ 65535) :
    Int.tdiv (wrap32 (x * 115)) 100 = x * 115 / 100 := by
  rw [wrap32_of_range _ (by omega) (by omega)]
  exact Int.tdiv_eq_ediv (by omega) (by omega)

theorem scale_down_eq (x : Int) (h0 : 0 ≤ x) (h1 : x ≤ 65535) :
    Int.tdiv (wrap32 (x * 100)) 115 = x * 100 / 115 := by
  rw [wrap32_of_range _ (by omega) (by omega)]
  exact Int.tdiv_eq_ediv (by omega) (by omega)

/-- The up leg in closed form, for duties and bounds in the 16-bit range. -/
theorem pwm_ramp_step_up (g : gpio_t) (d : Int) (hdir : g.pwm.direction = gpio_up)
    (hd0 : 0 ≤ d) (hd1 : d ≤ 65535)
    (hm0 : 0 ≤ g.pwm.min_duty) (hm1 : g.pwm.min_duty ≤ 65535) :
    pwm_ramp_step g d =
      if g.pwm.max_duty ≤ max d (max g.pwm.min_duty 16) * 115 / 100 then
        ({ g with pwm.direction := gpio_down }, g.pwm.max_duty)
      else (g, max d (max g.pwm.min_duty 16) * 115 / 100) := by
  have e : (if (if d < g.pwm.min_duty then g.pwm.min_duty else d) < 16 then 16
      else (if d < g.pwm.min_duty then g.pwm.min_duty else d))
      = max d (max g.pwm.min_duty 16) := by
    split_ifs <;> omega
  simp only [pwm_ramp_step, hdir, if_true, e, ge_iff_le]
  rw [scale_up_eq _ (by omega) (by omega)]

/-- The down leg in closed form, for duties and bounds in the 16-bit range. -/
theorem pwm_ramp_step_down (g : gpio_t) (d : Int) (hdir : g.pwm.direction = gpio_down)
    (hd0 : 0 ≤ d) (hd1 : d ≤ 65535)
    (hm0 : 0 ≤ g.pwm.max_duty) (hm1 : g.pwm.max_duty ≤ 65535) :
    pwm_ramp_step g d =
      if min d g.pwm.max_duty * 100 / 115 ≤ g.pwm.min_duty
          ∨ min d g.pwm.max_duty * 100 / 115 < 16 then
        ({ g with pwm.direction := gpio_up }, max g.pwm.min_duty 16)
      else (g, min d g.pwm.max_duty * 100 / 115) := by
  have e : (if d > g.pwm.max_duty then g.pwm.max_duty else d) = min d g.pwm.max_duty := by
    split_ifs <;> omega
  simp only [pwm_ramp_step, hdir, e]
  rw [scale_down_eq _ (by omega) (by omega)]
  simp only [reduceCtorEq, if_false]
  by_cases h1 : min d g.pwm.max_duty * 100 / 115 ≤ g.pwm.min_duty
  · by_cases h2 : g.pwm.min_duty < 16
    · simp [h1, h2]
      omega
    · simp [h1, h2]
      omega
  · by_cases h2 : min d g.pwm.max_duty * 100 / 115 < 16
    · simp [h1, h2]
      omega
    · simp [h1, h2]

theorem pwm_ramp_step_min_duty (g : gpio_t) (d : Int) :
    (pwm_ramp_step g d).1.pwm.min_duty = g.pwm.min_duty := by
  simp only [pwm_ramp_step]
  split_ifs <;> rfl

theorem pwm_ramp_step_max_duty (g : gpio_t) (d : Int) :
    (pwm_ramp_step g d).1.pwm.max_duty = g.pwm.max_duty := by
  simp only [pwm_ramp_step]
  split_ifs <;> rfl

theorem pwm_ramp_step_duty_ok (g : gpio_t) (d : Int)
    (h0 : 0 ≤ g.pwm.min_duty) (hle : g.pwm.min_duty ≤ g.pwm.max_duty)
    (h1 : g.pwm.max_duty ≤ 65535) (hd : duty_ok g d) :
    duty_ok g (pwm_ramp_step g d).2 := by
  obtain ⟨hd0, hd1, _⟩ := hd
  unfold duty_ok
  cases hdir : g.pwm.direction with
  | gpio_up =>
    rw [pwm_ramp_step_up g d hdir hd0 hd1 h0 (by omega)]
    split_ifs with hc
    · simp only
      omega
    · simp only
      omega
  | gpio_down =>
    rw [pwm_ramp_step_down g d hdir hd0 hd1 (by omega) h1]
    split_ifs with hc
    · simp only
      omega
    · simp only
      omega

theorem ramp_steps_duty_ok (n : Nat) : ∀ (g : gpio_t) (d : Int),
    0 ≤ g.pwm.min_duty → g.pwm.min_duty ≤ g.pwm.max_duty → g.pwm.max_duty ≤ 65535 →
    duty_ok g d → duty_ok g (ramp_steps n g d).2 := by
  induction n with
  | zero => intro g d _ _ _ hd; exact hd
  | succ n ih =>
    intro g d h0 hle h1 hd
    have hs := pwm_ramp_step_duty_ok g d h0 hle h1 hd
    have hmin := pwm_ramp_step_min_duty g d
    have hmax := pwm_ramp_step_max_duty g d
    have := ih (pwm_ramp_step g d).1 (pwm_ramp_step g d).2 (by rw [hmin]; exact h0)
      (by rw [hmin, hmax]; exact hle) (by rw [hmax]; exact h1)
      (by unfold duty_ok at hs ⊢; rw [hmin, hmax]; exact hs)
    unfold duty_ok at this ⊢
    rw [hmin, hmax] at this
    exact this

theorem ramp_steps_add (a : Nat) : ∀ (b : Nat) (g : gpio_t) (d : Int),
    ramp_steps (a + b) g d = ramp_steps b (ramp_steps a g d).1 (ramp_steps a g d).2 := by
  induction a with
  | zero => intro b g d; simp [ramp_steps]
  | succ a ih =>
    intro b g d
    have e : a + 1 + b = (a + b) + 1 := by omega
    rw [e]
    simp only [ramp_steps]
    exact ih b _ _

/-- Up leg: from any admissible duty the ramp reaches `max_duty` and flips to
down after finitely many steps, the pin record being untouched before. -/
theorem ramp_up_leg (m : Nat) : ∀ (g : gpio_t) (d : Int),
    g.pwm.direction = gpio_up → 0 ≤ g.pwm.min_duty → g.pwm.min_duty ≤ 65535 →
    g.pwm.max_duty ≤ 65535 → 0 ≤ d → d ≤ 65535 → g.pwm.max_duty - d ≤ m →
    ∃ n, 1 ≤ n ∧ ramp_steps n g d = ({ g with pwm.direction := gpio_down }, g.pwm.max_duty)
      ∧ ∀ k, k < n → (ramp_steps k g d).1 = g := by
  induction m with
  | zero =>
    intro g d hdir h0 h0' h1 hd0 hd1 hm
    refine ⟨1, le_refl _, ?_, ?_⟩
    · simp only [ramp_steps]
      rw [pwm_ramp_step_up g d hdir hd0 hd1 h0 h0', if_pos (by omega)]
    · intro k hk
      have : k = 0 := by omega
      subst this
      rfl
  | succ m ih =>
    intro g d hdir h0 h0' h1 hd0 hd1 hm
    by_cases hc : g.pwm.max_duty ≤ max d (max g.pwm.min_duty 16) * 115 / 100
    · refine ⟨1, le_refl _, ?_, ?_⟩
      · simp only [ramp_steps]
        rw [pwm_ramp_step_up g d hdir hd0 hd1 h0 h0', if_pos hc]
      · intro k hk
        have : k = 0 := by omega
        subst this
        rfl
    · have hstep : pwm_ramp_step g d = (g, max d (max g.pwm.min_duty 16) * 115 / 100) := by
        rw [pwm_ramp_step_up g d hdir hd0 hd1 h0 h0', if_neg hc]
      obtain ⟨n, hn1, hn, hk⟩ := ih g (max d (max g.pwm.min_duty 16) * 115 / 100) hdir h0 h0' h1
        (by omega) (by omega) (by omega)
      refine ⟨n + 1, by omega, ?_, ?_⟩
      · simp only [ramp_steps, hstep]
        exact hn
      · intro k hlt
        cases k with
        | zero => rfl
        | succ k =>
          simp only [ramp_steps, hstep]
          exact hk k (by omega)

/-- Down leg: from any 16-bit duty the ramp comes back to `max min_duty 16`
and flips to up after finitely many steps. -/
theorem ramp_down_leg (m : Nat) : ∀ (g : gpio_t) (d : Int),
    g.pwm.direction = gpio_down → 0 ≤ g.pwm.min_duty → 0 ≤ g.pwm.max_duty →
    g.pwm.max_duty ≤ 65535 → 0 ≤ d → d ≤ 65535 → d ≤ m →
    ∃ n, 1 ≤ n ∧ ramp_steps n g d = ({ g with pwm.direction := gpio_up }, max g.pwm.min_duty 16)
      ∧ ∀ k, k < n → (ramp_steps k g d).1 = g := by
  induction m with
  | zero =>
    intro g d hdir h0 h0' h1 hd0 hd1 hm
    refine ⟨1, le_refl _, ?_, ?_⟩
    · simp only [ramp_steps]
      rw [pwm_ramp_step_down g d hdir hd0 hd1 h0' h1, if_pos (by omega)]
    · intro k hk
      have : k = 0 := by omega
      subst this
      rfl
  | succ m ih =>
    intro g d hdir h0 h0' h1 hd0 hd1 hm
    by_cases hc : min d g.pwm.max_duty * 100 / 115 ≤ g.pwm.min_duty
          ∨ min d g.pwm.max_duty * 100 / 115 < 16
    · refine ⟨1, le_refl _, ?_, ?_⟩
      · simp only [ramp_steps]
        rw [pwm_ramp_step_down g d hdir hd0 hd1 h0' h1, if_pos hc]
      · intro k hk
        have : k = 0 := by omega
        subst this
        rfl
    · have hstep : pwm_ramp_step g d = (g, min d g.pwm.max_duty * 100 / 115) := by
        rw [pwm_ramp_step_down g d hdir hd0 hd1 h0' h1, if_neg hc]
      obtain ⟨n, hn1, hn, hk⟩ := ih g (min d g.pwm.max_duty * 100 / 115) hdir h0 h0' h1
        (by omega) (by omega) (by omega)
      refine ⟨n + 1, by omega, ?_, ?_⟩
      · simp only [ramp_steps, hstep]
        exact hn
      · intro k hlt
        cases k with
        | zero => rfl
        | succ k =>
          simp only [ramp_steps, hstep]
          exact hk k (by omega)

/-- C1: for a pwm pin with `0 ≤ min_duty < max_duty ≤ 65535`, started at
`duty = min_duty`, the duty written by any number of successive ramp steps
lies in `[min_duty, max_duty]` or is the floor value 16 (the starting
direction is immaterial, so in particular when it is up). -/
theorem pwm_ramp_duty_in_bounds (g : gpio_t) (n : Nat)
    (h0 : 0 ≤ g.pwm.min_duty) (hlt : g.pwm.min_duty < g.pwm.max_duty)
    (h1 : g.pwm.max_duty ≤ 65535) :
    (g.pwm.min_duty ≤ (ramp_steps n g g.pwm.min_duty).2 ∧
      (ramp_steps n g g.pwm.min_duty).2 ≤ g.pwm.max_duty) ∨
    (ramp_steps n g g.pwm.min_duty).2 = 16 :=
  (ramp_steps_duty_ok n g g.pwm.min_duty h0 (le_of_lt hlt) h1
    ⟨h0, by omega, Or.inl ⟨le_refl _, le_of_lt hlt⟩⟩).2.2

theorem pwm_ramp_duty_in_bounds_witness :
    ((0 : Int) ≤ example_pwm_pin.pwm.min_duty ∧
      example_pwm_pin.pwm.min_duty < example_pwm_pin.pwm.max_duty ∧
      example_pwm_pin.pwm.max_duty ≤ 65535) ∧
    ((example_pwm_pin.pwm.min_duty ≤ (ramp_steps 20 example_pwm_pin example_pwm_pin.pwm.min_duty).2 ∧
      (ramp_steps 20 example_pwm_pin example_pwm_pin.pwm.min_duty).2 ≤ example_pwm_pin.pwm.max_duty) ∨
    (ramp_steps 20 example_pwm_pin example_pwm_pin.pwm.min_duty).2 = 16) :=
  ⟨by decide, pwm_ramp_duty_in_bounds example_pwm_pin 20 (by decide) (by decide) (by decide)⟩

/-- C2: for a pwm pin with `0 ≤ min_duty < max_duty ≤ 65535`, started at
`duty = min_duty` with direction up, there is a step count `n1 ≥ 1` after
which the duty is `max_duty` and the direction is down (it was up at every
earlier step), and a larger step count `n2` after which the direction is up
again (it was down from `n1` on) and the duty is `min_duty` or the floor 16. -/
theorem pwm_ramp_triangle (g : gpio_t)
    (h0 : 0 ≤ g.pwm.min_duty) (hlt : g.pwm.min_duty < g.pwm.max_duty)
    (h1 : g.pwm.max_duty ≤ 65535) (hdir : g.pwm.direction = gpio_up) :
    ∃ n1 n2, 1 ≤ n1 ∧ n1 < n2 ∧
      (ramp_steps n1 g g.pwm.min_duty).2 = g.pwm.max_duty ∧
      (ramp_steps n1 g g.pwm.min_duty).1.pwm.direction = gpio_down ∧
      (∀ k, k < n1 → (ramp_steps k g g.pwm.min_duty).1.pwm.direction = gpio_up) ∧
      (∀ k, n1 ≤ k → k < n2 → (ramp_steps k g g.pwm.min_duty).1.pwm.direction = gpio_down) ∧
      (ramp_steps n2 g g.pwm.min_duty).1.pwm.direction = gpio_up ∧
      ((ramp_steps n2 g g.pwm.min_duty).2 = g.pwm.min_duty ∨
        (ramp_steps n2 g g.pwm.min_duty).2 = 16) := by
  obtain ⟨n1, hn1, hup, hupk⟩ := ramp_up_leg (g.pwm.max_duty - g.pwm.min_duty).toNat g
    g.pwm.min_duty hdir h0 (by omega) h1 h0 (by omega) (by omega)
  obtain ⟨n, hn, hdown, hdownk⟩ := ramp_down_leg g.pwm.max_duty.toNat
    { g with pwm.direction := gpio_down } g.pwm.max_duty rfl h0 (by show 0 ≤ g.pwm.max_duty; omega)
    h1 (by omega) h1 (by omega)
  have hsplit : ∀ j, ramp_steps (n1 + j) g g.pwm.min_duty
      = ramp_steps j { g with pwm.direction := gpio_down } g.pwm.max_duty := by
    intro j
    rw [ramp_steps_add, hup]
  refine ⟨n1, n1 + n, hn1, by omega, ?_, ?_, ?_, ?_, ?_, ?_⟩
  · rw [hup]
  · rw [hup]
  · intro k hk
    rw [hupk k hk]
    exact hdir
  · intro k hk1 hk2
    obtain ⟨j, rfl⟩ := Nat.exists_eq_add_of_le hk1
    rw [hsplit j, hdownk j (by omega)]
  · rw [hsplit n, hdown]
  · rw [hsplit n, hdown]
    show max g.pwm.min_duty 16 = g.pwm.min_duty ∨ max g.pwm.min_duty 16 = 16
    omega

theorem pwm_ramp_triangle_witness :
    ((0 : Int) ≤ example_pwm_pin.pwm.min_duty ∧
      example_pwm_pin.pwm.min_duty < example_pwm_pin.pwm.max_duty ∧
      example_pwm_pin.pwm.max_duty ≤ 65535 ∧
      example_pwm_pin.pwm.direction = gpio_up) ∧
    ∃ n1 n2, 1 ≤ n1 ∧ n1 < n2 ∧
      (ramp_steps n1 example_pwm_pin example_pwm_pin.pwm.min_duty).2
        = example_pwm_pin.pwm.max_duty ∧
      (ramp_steps n1 example_pwm_pin example_pwm_pin.pwm.min_duty).1.pwm.direction = gpio_down ∧
      (∀ k, k < n1 →
        (ramp_steps k example_pwm_pin example_pwm_pin.pwm.min_duty).1.pwm.direction = gpio_up) ∧
      (∀ k, n1 ≤ k → k < n2 →
        (ramp_steps k example_pwm_pin example_pwm_pin.pwm.min_duty).1.pwm.direction = gpio_down) ∧
      (ramp_steps n2 example_pwm_pin example_pwm_pin.pwm.min_duty).1.pwm.direction = gpio_up ∧
      ((ramp_steps n2 example_pwm_pin example_pwm_pin.pwm.min_duty).2
          = example_pwm_pin.pwm.min_duty ∨
        (ramp_steps n2 example_pwm_pin example_pwm_pin.pwm.min_duty).2 = 16) :=
  ⟨by decide, pwm_ramp_triangle example_pwm_pin (by decide) (by decide) (by decide) (by decide)⟩


/-! ## Frame of the trigger operation -/

theorem gpios_trigger_output_frame (s : state_t) (gpio_name : Int) :
    ∃ table hw, (gpios_trigger_output s gpio_name).2 = { s with gpios := table, hw := hw } := by
  unfold gpios_trigger_output
  cases find_gpio s.gpios gpio_name with
  | none => exact ⟨s.gpios, s.hw, rfl⟩
  | some p =>
    obtain ⟨current, gpio⟩ := p
    cases hm : (get_config s.config gpio).mode <;> simp only [hm]
    all_goals first
      | exact ⟨s.gpios, s.hw, rfl⟩
      | exact ⟨_, _, rfl⟩

/-! ## Analog sampler -/

theorem periodic_status_trigger_frame (s : state_t) :
    ∃ table hw flags, periodic_status_trigger s =
      { s with gpios := table, hw := hw, gpio_flags := flags } := by
  unfold periodic_status_trigger
  by_cases h1 : s.gpio_flags.counter_triggered = true
  · by_cases h2 : s.config.stat_trigger_gpio ≥ 0
    · simp only [h1, h2, if_true]
      obtain ⟨table, hw, e⟩ := gpios_trigger_output_frame
        { s with gpio_flags.counter_triggered := false } s.config.stat_trigger_gpio
      rw [e]
      exact ⟨_, _, _, rfl⟩
    · simp only [h1, h2, if_true, if_false]
      exact ⟨s.gpios, s.hw, _, rfl⟩
  · simp only [h1]
    exact ⟨s.gpios, s.hw, s.gpio_flags, rfl⟩

/-- A tick changes the sampler fields as `analog_sample` does. -/
theorem gpios_periodic_sampler (s : state_t) (adc : Nat) :
    (gpios_periodic s adc).analog_sampling_current = (analog_sample s adc).analog_sampling_current ∧
    (gpios_periodic s adc).analog_sampling_total = (analog_sample s adc).analog_sampling_total ∧
    (gpios_periodic s adc).analog_sampling_value = (analog_sample s adc).analog_sampling_value := by
  unfold gpios_periodic
  obtain ⟨table, hw, flags, e⟩ := periodic_status_trigger_frame (periodic_pins (analog_sample s adc))
  rw [e]
  exact ⟨rfl, rfl, rfl⟩

/-- Within a window that starts with an empty accumulator the sampler counts
the samples and adds them up, and publishes nothing. -/
theorem ticks_accumulate (adc : Nat → Nat) (s : state_t)
    (hc : s.analog_sampling_current = 0) (ht : s.analog_sampling_total = 0)
    (hb : ∀ i, i < 256 → adc i ≤ 65535) (n : Nat) (hn : n ≤ 255) :
    (ticks adc n s).analog_sampling_current = n ∧
    (ticks adc n s).analog_sampling_total = sample_sum adc n ∧
    (ticks adc n s).analog_sampling_value = s.analog_sampling_value ∧
    sample_sum adc n ≤ 65535 * n := by
  induction n with
  | zero => exact ⟨hc, ht, rfl, le_refl _⟩
  | succ n ih =>
    obtain ⟨ic, it, iv, ib⟩ := ih (by omega)
    obtain ⟨pc, pt, pv⟩ := gpios_periodic_sampler (ticks adc n s) (adc n)
    have hb' := hb n (by omega)
    have hs : sample_sum adc (n + 1) = sample_sum adc n + (if adc n = 1023 then 1024 else adc n) :=
      rfl
    have hlt : ¬ (n + 1) % 4294967296 ≥ 256 := by omega
    simp only [ticks]
    rw [pc, pt, pv]
    simp only [analog_sample, ic, it, if_neg hlt]
    refine ⟨by omega, ?_, iv, ?_⟩
    · rw [hs]
      split_ifs <;> omega
    · rw [hs]
      split_ifs <;> omega

/-- The value published by the tick that completes a window of 256 samples
started with an empty accumulator: the sum of the samples divided by 4,
limited to 65535 and replaced by 0 when below 256. -/
theorem ticks_publish (adc : Nat → Nat) (s : state_t)
    (hc : s.analog_sampling_current = 0) (ht : s.analog_sampling_total = 0)
    (hb : ∀ i, i < 256 → adc i ≤ 65535) :
    (ticks adc 256 s).analog_sampling_value =
      (if (if sample_sum adc 256 / 4 > 65535 then 65535 else sample_sum adc 256 / 4) < 256 then 0
       else (if sample_sum adc 256 / 4 > 65535 then 65535 else sample_sum adc 256 / 4)) := by
  obtain ⟨ic, it, _, ib⟩ := ticks_accumulate adc s hc ht hb 255 (le_refl _)
  obtain ⟨_, _, pv⟩ := gpios_periodic_sampler (ticks adc 255 s) (adc 255)
  have hb' := hb 255 (by omega)
  have hs : sample_sum adc 256 = sample_sum adc 255 + (if adc 255 = 1023 then 1024 else adc 255) :=
    rfl
  have hge : (255 + 1) % 4294967296 ≥ 256 := by omega
  have hmod : (sample_sum adc 255 + (if adc 255 = 1023 then 1024 else adc 255)) % 4294967296
      = sample_sum adc 256 := by
    rw [hs]
    split_ifs <;> omega
  show (gpios_periodic (ticks adc 255 s) (adc 255)).analog_sampling_value = _
  rw [pv]
  simp only [analog_sample, ic, it, if_pos hge, hmod]

theorem sample_sum_const (v : Nat) (hv : v ≠ 1023) (n : Nat) :
    sample_sum (fun _ => v) n = n * v := by
  induction n with
  | zero => simp [sample_sum]
  | succ n ih =>
    simp only [sample_sum, ih, if_neg hv]
    ring

theorem sample_sum_small (adc : Nat → Nat) (h : ∀ i, i < 256 → adc i < 4) (n : Nat)
    (hn : n ≤ 256) : sample_sum adc n ≤ 3 * n := by
  induction n with
  | zero => simp [sample_sum]
  | succ n ih =>
    have h1 := ih (by omega)
    have h2 := h n (by omega)
    simp only [sample_sum]
    split_ifs <;> omega

/-- C7 (as stated, refuted): from the power-up state, 256 ticks that each
sample 512 publish 32768, not 512. -/
theorem analog_512_counterexample :
    (ticks (fun _ => 512) 256 (state_boot config_default)).analog_sampling_value = 32768 ∧
    (ticks (fun _ => 512) 256 (state_boot config_default)).analog_sampling_value ≠ 512 := by
  have h := ticks_publish (fun _ => 512) (state_boot config_default) rfl rfl
    (fun _ _ => (by decide : (512 : Nat) ≤ 65535))
  rw [sample_sum_const 512 (by omega)] at h
  rw [h]
  decide

/-- C7 (amended): starting from an empty accumulator, 256 consecutive ticks
that each sample the analog value 512 publish 32768, the sum of the 256
samples divided by 4 (64 times the sample). -/
theorem analog_512_publishes_scaled (s : state_t)
    (hc : s.analog_sampling_current = 0) (ht : s.analog_sampling_total = 0) :
    (ticks (fun _ => 512) 256 s).analog_sampling_value = 32768 := by
  have h := ticks_publish (fun _ => 512) s hc ht (fun _ _ => (by decide : (512 : Nat) ≤ 65535))
  rw [sample_sum_const 512 (by omega)] at h
  rw [h]
  decide

theorem analog_512_publishes_scaled_witness :
    ((state_boot config_default).analog_sampling_current = 0 ∧
      (state_boot config_default).analog_sampling_total = 0) ∧
    (ticks (fun _ => 512) 256 (state_boot config_default)).analog_sampling_value = 32768 :=
  ⟨by decide, analog_512_publishes_scaled (state_boot config_default) (by decide) (by decide)⟩

/-- C8 (as stated, refuted): from the power-up state, 256 ticks that each
sample 255, a value below the threshold 256, publish 16320, not 0. -/
theorem analog_below_floor_counterexample :
    (255 : Nat) < 256 ∧
    (ticks (fun _ => 255) 256 (state_boot config_default)).analog_sampling_value = 16320 ∧
    (ticks (fun _ => 255) 256 (state_boot config_default)).analog_sampling_value ≠ 0 := by
  have h := ticks_publish (fun _ => 255) (state_boot config_default) rfl rfl
    (fun _ _ => (by decide : (255 : Nat) ≤ 65535))
  rw [sample_sum_const 255 (by omega)] at h
  rw [h]
  decide

/-- C8 (amended): starting from an empty accumulator, 256 consecutive ticks
whose samples are all below 4 publish an analog reading of 0: the sum of the
samples divided by 4 is then below the threshold 256 of the sampler. -/
theorem analog_below_floor_publishes_zero (adc : Nat → Nat) (s : state_t)
    (hc : s.analog_sampling_current = 0) (ht : s.analog_sampling_total = 0)
    (hlow : ∀ i, i < 256 → adc i < 4) :
    (ticks adc 256 s).analog_sampling_value = 0 := by
  have h := ticks_publish adc s hc ht (fun i hi => by have := hlow i hi; omega)
  have hs := sample_sum_small adc hlow 256 (le_refl _)
  rw [h]
  split_ifs <;> omega

theorem analog_below_floor_publishes_zero_witness :
    ((state_boot config_default).analog_sampling_current = 0 ∧
      (state_boot config_default).analog_sampling_total = 0 ∧
      ∀ i, i < 256 → (fun _ : Nat => 3) i < 4) ∧
    (ticks (fun _ => 3) 256 (state_boot config_default)).analog_sampling_value = 0 :=
  ⟨⟨by decide, by decide, fun _ _ => (by decide : (3 : Nat) < 4)⟩,
    analog_below_floor_publishes_zero (fun _ => 3) (state_boot config_default)
      (by decide) (by decide) (fun _ _ => (by decide : (3 : Nat) < 4))⟩

/-! ## Trigger -/

/-- C10: `gpios_trigger_output` returns true exactly when `find_gpio` finds the
pin and its configured mode is output, timer or pwm; whenever it returns false
(pin not found, or mode disabled, input, counter or i2c) the whole state,
runtime members and hardware registers included, is unchanged. -/
theorem gpios_trigger_output_accepts (s : state_t) (gpio_name : Int) :
    ((gpios_trigger_output s gpio_name).1 = true ↔
      ∃ current gpio, find_gpio s.gpios gpio_name = some (current, gpio) ∧
        ((get_config s.config gpio).mode = gpio_output ∨
          (get_config s.config gpio).mode = gpio_timer ∨
          (get_config s.config gpio).mode = gpio_pwm)) ∧
    ((gpios_trigger_output s gpio_name).1 = false →
      (gpios_trigger_output s gpio_name).2 = s) := by
  unfold gpios_trigger_output
  cases hf : find_gpio s.gpios gpio_name with
  | none => simp
  | some p =>
    obtain ⟨current, gpio⟩ := p
    cases hm : (get_config s.config gpio).mode <;> simp [hm]
    all_goals exact ⟨_, _, ⟨rfl, rfl⟩, by simp [hm]⟩

/-! ## Rejected duty bounds -/

theorem gpio_mode_from_string_pwm : gpio_mode_from_string "pwm" = gpio_pwm := by
  decide

/-- C9: for every `min_duty` outside `[0, 65535]`, the command
`gpio-mode <pin> pwm <min_duty> ...` returns an error result and changes
nothing but the staged snapshot `tmpconfig` (so neither the live
configuration, nor the persisted one, nor any pin's runtime state), and
`gpio-set <pin> <min_duty> ...` on a pwm pin returns an error result and
leaves the whole state unchanged. -/
theorem pwm_min_duty_rejected (s : state_t) (src : List arg_t) (gpio_index min_duty : Int)
    (hpin : parse_int 1 src = some gpio_index)
    (hrange : min_duty < 0 ∨ 65535 < min_duty) :
    (parse_string 2 src = some "pwm" → parse_int 3 src = some min_duty →
      (application_function_gpio_mode s src).1 = app_action_error ∧
      ∃ staged, (application_function_gpio_mode s src).2 = { s with tmpconfig := staged }) ∧
    (∀ current gpio, find_gpio s.gpios gpio_index = some (current, gpio) →
      (get_config s.config gpio).mode = gpio_pwm → parse_int 2 src = some min_duty →
      application_function_gpio_set s src = (app_action_error, s)) := by
  constructor
  · intro hname hmin
    unfold application_function_gpio_mode
    simp only [hpin, hname, gpio_mode_from_string_pwm]
    cases hf : find_gpio s.gpios gpio_index with
    | none => exact ⟨rfl, s.tmpconfig, rfl⟩
    | some p =>
      obtain ⟨current, gpio⟩ := p
      have hargs : ∀ e, gpio_mode_arguments gpio_pwm gpio src e = none := by
        intro e
        simp only [gpio_mode_arguments, hmin, Option.getD_some]
        by_cases hr : gpio.rtc_gpio = true
        · simp [hr]
        · have : (min_duty < 0 ∨ min_duty > 65535) := by omega
          simp [hr, this]
      simp only [reduceCtorEq, if_false, hargs]
      exact ⟨trivial, s.flash, rfl⟩
  · intro current gpio hf hmode hmin
    unfold application_function_gpio_set
    have : (min_duty < 0 ∨ min_duty > 65535) := by omega
    simp [hpin, hf, hmode, hmin, this]

/-! ## Hardware lemmas -/

theorem get_input_of_enabled (hw : hw_t) (g : gpio_t) (h : output_enabled hw g = true) :
    get_input hw g = output_latch hw g := by
  unfold get_input output_latch
  unfold output_enabled at h
  by_cases hr : g.rtc_gpio = true
  · simp only [hr, if_true] at h ⊢
    simp [rtcgpio_input_get, h]
  · simp only [hr, if_false] at h ⊢
    simp only [Bool.false_eq_true, if_false] at h ⊢
    have e : (gpio_input_get hw).testBit g.index = hw.gpio_out.testBit g.index := by
      simp [gpio_input_get, Nat.testBit_or, Nat.testBit_and, testBit_clear_bits, h]
    rw [← e]
    cases hb : (gpio_input_get hw).testBit g.index
    · have := (and_bit_ne_zero (gpio_input_get hw) g.index).not.2 (by simp [hb])
      simp [this]
    · have := (and_bit_ne_zero (gpio_input_get hw) g.index).2 hb
      simp [this]

theorem mask_testBit (b : Bool) (i j : Nat) :
    (if b = true then 1 <<< i else 0).testBit j = (b && decide (i = j)) := by
  cases b with
  | false => simp
  | true =>
    simp only [if_true]
    rw [testBit_one_shiftLeft]
    simp

theorem gpio_output_set_out_bit (hw : hw_t) (s c e d i : Nat) :
    (gpio_output_set hw s c e d).gpio_out.testBit i
      = ((hw.gpio_out.testBit i || s.testBit i) && !c.testBit i) := by
  simp [gpio_output_set, testBit_clear_bits, Nat.testBit_or]

theorem gpio_output_set_enable_bit (hw : hw_t) (s c e d i : Nat) :
    (gpio_output_set hw s c e d).gpio_enable.testBit i
      = ((hw.gpio_enable.testBit i || e.testBit i) && !d.testBit i) := by
  simp [gpio_output_set, testBit_clear_bits, Nat.testBit_or]

theorem output_latch_set_output (hw : hw_t) (g : gpio_t) (b : Bool) :
    output_latch (set_output hw g b) g = b := by
  unfold output_latch set_output
  by_cases hr : g.rtc_gpio = true
  · simp [hr, rtcgpio_output_set]
  · simp only [hr, if_false, Bool.false_eq_true]
    rw [gpio_output_set_out_bit, mask_testBit, mask_testBit]
    cases b <;> simp

theorem output_enabled_set_output (hw : hw_t) (g g' : gpio_t) (b : Bool) :
    output_enabled (set_output hw g' b) g = output_enabled hw g := by
  unfold output_enabled set_output
  by_cases hr : g'.rtc_gpio = true
  · simp [hr, rtcgpio_output_set]
  · simp only [hr, if_false, Bool.false_eq_true]
    by_cases hg : g.rtc_gpio = true
    · simp [hg, gpio_output_set]
    · simp only [hg, if_false, Bool.false_eq_true]
      rw [gpio_output_set_enable_bit]
      simp

theorem output_latch_set_output_apart (hw : hw_t) (g g' : gpio_t) (b : Bool)
    (h : pins_apart g g') : output_latch (set_output hw g' b) g = output_latch hw g := by
  obtain ⟨hi, hr⟩ := h
  unfold output_latch set_output
  by_cases hr' : g'.rtc_gpio = true
  · have hg : g.rtc_gpio = false := by
      cases hr with
      | inl h => exact h
      | inr h => rw [hr'] at h; cases h
    simp [hr', hg, rtcgpio_output_set]
  · simp only [hr', if_false, Bool.false_eq_true]
    by_cases hg : g.rtc_gpio = true
    · simp [hg, gpio_output_set]
    · simp only [hg, if_false, Bool.false_eq_true]
      rw [gpio_output_set_out_bit, mask_testBit, mask_testBit]
      have hne : ¬ g'.index = g.index := fun e => hi e.symm
      simp [hne]

theorem output_latch_congr (hw : hw_t) (g g' : gpio_t) (h : descriptor g = descriptor g') :
    output_latch hw g = output_latch hw g' := by
  simp only [descriptor, Prod.mk.injEq] at h
  unfold output_latch
  rw [h.2.1, h.2.2]

theorem output_enabled_congr (hw : hw_t) (g g' : gpio_t) (h : descriptor g = descriptor g') :
    output_enabled hw g = output_enabled hw g' := by
  simp only [descriptor, Prod.mk.injEq] at h
  unfold output_enabled
  rw [h.2.1, h.2.2]

theorem get_config_congr (config : config_t) (g g' : gpio_t) (h : descriptor g = descriptor g') :
    get_config config g = get_config config g' := by
  simp only [descriptor, Prod.mk.injEq] at h
  unfold get_config
  rw [h.1]

theorem pins_apart_congr (g g' a : gpio_t) (h : descriptor g = descriptor g')
    (hp : pins_apart a g) : pins_apart a g' := by
  simp only [descriptor, Prod.mk.injEq] at h
  unfold pins_apart at hp ⊢
  rw [← h.2.1, ← h.2.2]
  exact hp

/-! ## Loops over the pin table -/

theorem for_each_gpio_descriptor {σ : Type} (body : Nat → gpio_t → σ → gpio_t × σ)
    (hd : ∀ c g a, descriptor (body c g a).1 = descriptor g) (l : List gpio_t) :
    ∀ c a, (for_each_gpio body c l a).1.map descriptor = l.map descriptor := by
  induction l with
  | nil => intro c a; rfl
  | cons x xs ih =>
    intro c a
    simp only [for_each_gpio, List.map_cons, hd, ih]

/-- A property of the shared state that every iteration preserves survives
the loop. -/
theorem for_each_gpio_preserve {σ α : Type} (body : Nat → gpio_t → σ → gpio_t × σ)
    (V : σ → α) (l : List gpio_t)
    (h : ∀ (j : Nat) (g' : gpio_t), l[j]? = some g' → ∀ c a, V (body c g' a).2 = V a) :
    ∀ c a, V (for_each_gpio body c l a).2 = V a := by
  induction l with
  | nil => intro c a; rfl
  | cons x xs ih =>
    intro c a
    simp only [for_each_gpio]
    rw [ih (fun j g' hj => h (j + 1) g' (by simpa using hj))]
    exact h 0 x (by simp) c a

/-- Locality: if every other iteration preserves the observation `V`, row `i`
of the result is the body applied to row `i` in a shared state that is
observed like the initial one, and the final observation is the one that
iteration leaves. -/
theorem for_each_gpio_at {σ α : Type} (body : Nat → gpio_t → σ → gpio_t × σ)
    (V : σ → α) (l : List gpio_t) :
    ∀ (i : Nat) (g : gpio_t), l[i]? = some g →
    (∀ (j : Nat) (g' : gpio_t), l[j]? = some g' → j ≠ i → ∀ c a, V (body c g' a).2 = V a) →
    ∀ c a, ∃ a', V a' = V a ∧
      (for_each_gpio body c l a).1[i]? = some (body (c + i) g a').1 ∧
      V (for_each_gpio body c l a).2 = V (body (c + i) g a').2 := by
  induction l with
  | nil => intro i g hg; simp at hg
  | cons x xs ih =>
    intro i g hg hother c a
    cases i with
    | zero =>
      simp only [List.getElem?_cons_zero, Option.some.injEq] at hg
      subst hg
      refine ⟨a, rfl, by simp [for_each_gpio], ?_⟩
      simp only [for_each_gpio, Nat.add_zero]
      exact for_each_gpio_preserve body V xs
        (fun j g' hj => hother (j + 1) g' (by simpa using hj) (by omega)) _ _
    | succ i =>
      have hx : V (body c x a).2 = V a := hother 0 x (by simp) (by omega) c a
      obtain ⟨a', ha', hrow, hfin⟩ := ih i g (by simpa using hg)
        (fun j g' hj hji => hother (j + 1) g' (by simpa using hj) (by omega))
        (c + 1) (body c x a).2
      refine ⟨a', ha'.trans hx, ?_, ?_⟩
      · simp only [for_each_gpio, List.getElem?_cons_succ]
        rw [hrow]
        congr 3
        omega
      · simp only [for_each_gpio]
        rw [hfin]
        congr 3
        omega

/-! ## The registry -/

theorem registry_apart_table :
    (gpios.map descriptor).Pairwise
      (fun a b => a.2.1 ≠ b.2.1 ∧ (a.2.2 = false ∨ b.2.2 = false)) := by
  decide

theorem registry_ok_gpios : registry_ok gpios := rfl

/-- Different rows of a table that carries the registry constants use
different register bits. -/
theorem registry_apart (l : List gpio_t) (h : registry_ok l) (i j : Nat) (g g' : gpio_t)
    (hi : l[i]? = some g) (hj : l[j]? = some g') (hij : i ≠ j) : pins_apart g g' := by
  have hp := registry_apart_table
  rw [← h, List.pairwise_map, List.pairwise_iff_getElem] at hp
  obtain ⟨hi', ei⟩ := List.getElem?_eq_some.1 hi
  obtain ⟨hj', ej⟩ := List.getElem?_eq_some.1 hj
  rcases Nat.lt_or_gt_of_ne hij with hlt | hgt
  · have := hp i j hi' hj' hlt
    rw [ei, ej] at this
    exact this
  · have := hp j i hj' hi' hgt
    rw [ei, ej] at this
    exact ⟨fun e => this.1 e.symm, this.2.symm⟩

/-- Row `i` of a table that carries the registry constants has id `i`. -/
theorem registry_id (l : List gpio_t) (h : registry_ok l) (i : Nat) (g : gpio_t)
    (hi : l[i]? = some g) : g.id = i := by
  have h1 : (l.map descriptor)[i]? = some (descriptor g) := by
    rw [List.getElem?_map, hi]
    rfl
  rw [h] at h1
  have hlt : i < 11 := by
    obtain ⟨hl, _⟩ := List.getElem?_eq_some.1 h1
    simpa [gpios] using hl
  interval_cases i <;>
    · simp only [gpios, gpio_entry, descriptor, List.map_cons, List.getElem?_cons_zero,
        List.getElem?_cons_succ, Option.some.injEq, Prod.mk.injEq] at h1
      omega

/-! ## Effects of the scheduler blocks -/

theorem periodic_counter_effect (cfg : gpio_config_entry_t) (g : gpio_t) (hw : hw_t) :
    descriptor (periodic_counter cfg g hw).1 = descriptor g ∧
    (periodic_counter cfg g hw).1.timer = g.timer ∧
    (periodic_counter cfg g hw).1.pwm = g.pwm ∧
    ((periodic_counter cfg g hw).2 = hw ∨ (periodic_counter cfg g hw).2 = arm_counter hw g) := by
  simp only [periodic_counter]
  split_ifs <;> first
    | exact ⟨rfl, rfl, rfl, Or.inl rfl⟩
    | exact ⟨rfl, rfl, rfl, Or.inr rfl⟩

theorem periodic_timer_effect (cfg : gpio_config_entry_t) (g : gpio_t) (hw : hw_t) :
    descriptor (periodic_timer cfg g hw).1 = descriptor g ∧
    (periodic_timer cfg g hw).1.counter = g.counter ∧
    (periodic_timer cfg g hw).1.pwm = g.pwm ∧
    ((periodic_timer cfg g hw).2 = hw ∨ ∃ b, (periodic_timer cfg g hw).2 = set_output hw g b) := by
  simp only [periodic_timer]
  split_ifs <;> first
    | exact ⟨rfl, rfl, rfl, Or.inl rfl⟩
    | exact ⟨rfl, rfl, rfl, Or.inr ⟨_, rfl⟩⟩

theorem pwm_ramp_step_effect (g : gpio_t) (d : Int) :
    descriptor (pwm_ramp_step g d).1 = descriptor g ∧
    (pwm_ramp_step g d).1.counter = g.counter ∧
    (pwm_ramp_step g d).1.timer = g.timer := by
  simp only [pwm_ramp_step]
  split_ifs <;> exact ⟨rfl, rfl, rfl⟩

theorem periodic_pwm_effect (cfg : gpio_config_entry_t) (g : gpio_t) (a : hw_t × Bool) :
    descriptor (periodic_pwm cfg g a).1 = descriptor g ∧
    (periodic_pwm cfg g a).1.counter = g.counter ∧
    (periodic_pwm cfg g a).1.timer = g.timer ∧
    ((periodic_pwm cfg g a).2.1 = a.1 ∨
      ∃ d ch, (periodic_pwm cfg g a).2.1 = pwm_set_duty a.1 d ch) := by
  simp only [periodic_pwm]
  split_ifs
  · obtain ⟨h1, h2, h3⟩ := pwm_ramp_step_effect
      { g with pwm.delay_current := 0 }
      (pwm_get_duty a.1 g.pwm.channel)
    exact ⟨h1, h2, h3, Or.inr ⟨_, _, rfl⟩⟩
  · exact ⟨rfl, rfl, rfl, Or.inl rfl⟩
  · exact ⟨rfl, rfl, rfl, Or.inl rfl⟩

theorem periodic_pin_descriptor (config : config_t) (g : gpio_t) (a : hw_t × Bool) :
    descriptor (periodic_pin config g a).1 = descriptor g := by
  unfold periodic_pin
  simp only []
  rw [(periodic_pwm_effect _ _ _).1, (periodic_timer_effect _ _ _).1,
    (periodic_counter_effect _ _ _).1]

/-- The loop body of another pin leaves the output driver and latch of pin
`g` alone. -/
theorem periodic_pin_output_apart (config : config_t) (g g' : gpio_t) (a : hw_t × Bool)
    (h : pins_apart g g') :
    output_enabled (periodic_pin config g' a).2.1 g = output_enabled a.1 g ∧
    output_latch (periodic_pin config g' a).2.1 g = output_latch a.1 g := by
  unfold periodic_pin
  simp only []
  obtain ⟨dc, _, _, hc⟩ := periodic_counter_effect (get_config config g') g' a.1
  obtain ⟨_, _, _, ht⟩ := periodic_timer_effect (get_config config g')
    (periodic_counter (get_config config g') g' a.1).1
    (periodic_counter (get_config config g') g' a.1).2
  obtain ⟨_, _, _, hp⟩ := periodic_pwm_effect (get_config config g')
    (periodic_timer (get_config config g') (periodic_counter (get_config config g') g' a.1).1
      (periodic_counter (get_config config g') g' a.1).2).1
    ((periodic_timer (get_config config g') (periodic_counter (get_config config g') g' a.1).1
      (periodic_counter (get_config config g') g' a.1).2).2, a.2)
  have e1 : output_enabled (periodic_counter (get_config config g') g' a.1).2 g
        = output_enabled a.1 g ∧
      output_latch (periodic_counter (get_config config g') g' a.1).2 g = output_latch a.1 g := by
    rcases hc with e | e <;> rw [e]
    · exact ⟨rfl, rfl⟩
    · exact ⟨rfl, rfl⟩
  have hap : pins_apart g (periodic_counter (get_config config g') g' a.1).1 :=
    pins_apart_congr _ _ _ dc.symm h
  have e2 : output_enabled (periodic_timer (get_config config g')
        (periodic_counter (get_config config g') g' a.1).1
        (periodic_counter (get_config config g') g' a.1).2).2 g = output_enabled a.1 g ∧
      output_latch (periodic_timer (get_config config g')
        (periodic_counter (get_config config g') g' a.1).1
        (periodic_counter (get_config config g') g' a.1).2).2 g = output_latch a.1 g := by
    rcases ht with e | ⟨b, e⟩ <;> rw [e]
    · exact e1
    · rw [output_enabled_set_output, output_latch_set_output_apart _ _ _ _ hap]
      exact e1
  rcases hp with e | ⟨d, ch, e⟩ <;> rw [e]
  · exact e2
  · exact e2

/-- The loop body of a pin with another index leaves the armed bit of pin `g`
alone and makes no call that arms it. -/
theorem periodic_pin_armed_apart (config : config_t) (g g' : gpio_t) (a : hw_t × Bool)
    (h : g.index ≠ g'.index) :
    counter_armed (periodic_pin config g' a).2.1 g = counter_armed a.1 g ∧
    arm_calls (periodic_pin config g' a).2.1 g = arm_calls a.1 g := by
  unfold periodic_pin
  simp only []
  obtain ⟨_, _, _, hc⟩ := periodic_counter_effect (get_config config g') g' a.1
  obtain ⟨_, _, _, ht⟩ := periodic_timer_effect (get_config config g')
    (periodic_counter (get_config config g') g' a.1).1
    (periodic_counter (get_config config g') g' a.1).2
  obtain ⟨_, _, _, hp⟩ := periodic_pwm_effect (get_config config g')
    (periodic_timer (get_config config g') (periodic_counter (get_config config g') g' a.1).1
      (periodic_counter (get_config config g') g' a.1).2).1
    ((periodic_timer (get_config config g') (periodic_counter (get_config config g') g' a.1).1
      (periodic_counter (get_config config g') g' a.1).2).2, a.2)
  have hne : ¬ g'.index = g.index := fun e => h e.symm
  have e1 : counter_armed (periodic_counter (get_config config g') g' a.1).2 g
        = counter_armed a.1 g ∧
      arm_calls (periodic_counter (get_config config g') g' a.1).2 g = arm_calls a.1 g := by
    rcases hc with e | e <;> rw [e]
    · exact ⟨rfl, rfl⟩
    · constructor
      · unfold counter_armed arm_counter
        simp only [Nat.testBit_or]
        rw [testBit_one_shiftLeft]
        simp [hne]
      · unfold arm_calls arm_counter
        simp only []
        rw [List.count_cons_of_ne h]
  have e2 : counter_armed (periodic_timer (get_config config g')
        (periodic_counter (get_config config g') g' a.1).1
        (periodic_counter (get_config config g') g' a.1).2).2 g = counter_armed a.1 g ∧
      arm_calls (periodic_timer (get_config config g')
        (periodic_counter (get_config config g') g' a.1).1
        (periodic_counter (get_config config g') g' a.1).2).2 g = arm_calls a.1 g := by
    rcases ht with e | ⟨b, e⟩ <;> rw [e]
    · exact e1
    · rw [← e1.1, ← e1.2]
      unfold counter_armed arm_calls set_output
      split_ifs <;> exact ⟨rfl, rfl⟩
  rcases hp with e | ⟨d, ch, e⟩ <;> rw [e]
  · exact e2
  · exact e2

theorem periodic_pin_counter (config : config_t) (g : gpio_t) (a : hw_t × Bool)
    (h : (get_config config g).mode = gpio_counter) :
    periodic_pin config g a =
      ((periodic_counter (get_config config g) g a.1).1,
        ((periodic_counter (get_config config g) g a.1).2, a.2)) := by
  simp [periodic_pin, periodic_timer, periodic_pwm, h]

theorem periodic_pin_timer (config : config_t) (g : gpio_t) (a : hw_t × Bool)
    (h : (get_config config g).mode = gpio_timer) :
    periodic_pin config g a =
      ((periodic_timer (get_config config g) g a.1).1,
        ((periodic_timer (get_config config g) g a.1).2, a.2)) := by
  simp [periodic_pin, periodic_counter, periodic_pwm, h]

/-- What the scheduler loop does to row `i` of a table that carries the
registry constants: the loop body runs on that row with hardware in which the
pin's driver, latch, armed bit and arming calls are as before the tick, and
these are afterwards as that one iteration leaves them. -/
theorem periodic_pins_row (s : state_t) (i : Nat) (g : gpio_t) (hreg : registry_ok s.gpios)
    (hg : s.gpios[i]? = some g) :
    ∃ a' : hw_t × Bool,
      (output_enabled a'.1 g = output_enabled s.hw g ∧
        output_latch a'.1 g = output_latch s.hw g ∧
        counter_armed a'.1 g = counter_armed s.hw g ∧
        arm_calls a'.1 g = arm_calls s.hw g) ∧
      (periodic_pins s).gpios[i]? = some (periodic_pin s.config g a').1 ∧
      output_enabled (periodic_pins s).hw g = output_enabled (periodic_pin s.config g a').2.1 g ∧
      output_latch (periodic_pins s).hw g = output_latch (periodic_pin s.config g a').2.1 g ∧
      counter_armed (periodic_pins s).hw g = counter_armed (periodic_pin s.config g a').2.1 g ∧
      arm_calls (periodic_pins s).hw g = arm_calls (periodic_pin s.config g a').2.1 g := by
  obtain ⟨a', hv, hrow, hfin⟩ := for_each_gpio_at (fun _ => periodic_pin s.config)
    (fun a : hw_t × Bool =>
      (output_enabled a.1 g, output_latch a.1 g, counter_armed a.1 g, arm_calls a.1 g))
    s.gpios i g hg
    (fun j g' hj hji c a => by
      have hap := registry_apart s.gpios hreg i j g g' hg hj (fun e => hji e.symm)
      obtain ⟨h1, h2⟩ := periodic_pin_output_apart s.config g g' a hap
      obtain ⟨h3, h4⟩ := periodic_pin_armed_apart s.config g g' a hap.1
      simp only [h1, h2, h3, h4])
    0 (s.hw, false)
  simp only [Prod.mk.injEq] at hv hfin
  refine ⟨a', hv, ?_, ?_⟩
  · simpa [periodic_pins] using hrow
  · simp only [periodic_pins]
    split_ifs
    · exact hfin
    · exact hfin

theorem periodic_pins_frame (s : state_t) :
    (periodic_pins s).config = s.config ∧ (periodic_pins s).gpio_flags = s.gpio_flags ∧
    (registry_ok s.gpios → registry_ok (periodic_pins s).gpios) := by
  refine ⟨rfl, rfl, fun h => ?_⟩
  unfold registry_ok at h ⊢
  rw [← h]
  exact for_each_gpio_descriptor _ (fun _ g a => periodic_pin_descriptor s.config g a) _ _ _

theorem analog_sample_frame (s : state_t) (adc : Nat) :
    (analog_sample s adc).config = s.config ∧ (analog_sample s adc).gpio_flags = s.gpio_flags ∧
    (analog_sample s adc).gpios = s.gpios ∧ (analog_sample s adc).hw = s.hw := by
  simp only [analog_sample]
  split_ifs <;> exact ⟨rfl, rfl, rfl, rfl⟩

/-! ## Pin lookup and the trigger stage -/

theorem find_gpio_from_some (index : Int) (l : List gpio_t) :
    ∀ (c0 c : Nat) (g : gpio_t), find_gpio_from index c0 l = some (c, g) →
      ∃ k, c = c0 + k ∧ l[k]? = some g ∧ (g.index : Int) = index := by
  induction l with
  | nil => intro c0 c g h; simp [find_gpio_from] at h
  | cons x xs ih =>
    intro c0 c g h
    simp only [find_gpio_from] at h
    split_ifs at h with hx
    · simp only [Option.some.injEq, Prod.mk.injEq] at h
      obtain ⟨rfl, rfl⟩ := h
      exact ⟨0, rfl, by simp, hx⟩
    · obtain ⟨k, hk, hrow, hidx⟩ := ih (c0 + 1) c g h
      exact ⟨k + 1, by omega, by simpa using hrow, hidx⟩

theorem find_gpio_some (l : List gpio_t) (index : Int) (c : Nat) (g : gpio_t)
    (h : find_gpio l index = some (c, g)) : l[c]? = some g ∧ (g.index : Int) = index := by
  obtain ⟨k, hk, hrow, hidx⟩ := find_gpio_from_some index l 0 c g h
  have : c = k := by omega
  subst this
  exact ⟨hrow, hidx⟩

theorem trigger_timer_effect (config : config_t) (g : gpio_t) (hw : hw_t) (b : Bool) :
    descriptor (trigger_timer config g hw b).1 = descriptor g ∧
    (trigger_timer config g hw b).1.counter = g.counter ∧
    (trigger_timer config g hw b).1.pwm = g.pwm ∧
    ∃ v, (trigger_timer config g hw b).2 = set_output hw g v := by
  simp only [trigger_timer]
  split_ifs <;> exact ⟨rfl, rfl, rfl, _, rfl⟩

theorem counter_armed_set_output (hw : hw_t) (g g' : gpio_t) (b : Bool) :
    counter_armed (set_output hw g' b) g = counter_armed hw g ∧
    arm_calls (set_output hw g' b) g = arm_calls hw g := by
  unfold counter_armed arm_calls set_output
  split_ifs <;> exact ⟨rfl, rfl⟩

/-- The trigger operation keeps every row's constants, counter and pwm
members, and the armed bits, and arms no pin. -/
theorem gpios_trigger_output_rows (s : state_t) (gpio_name : Int) :
    (∀ (i : Nat) (g : gpio_t), s.gpios[i]? = some g →
      ∃ g', (gpios_trigger_output s gpio_name).2.gpios[i]? = some g' ∧
        descriptor g' = descriptor g ∧ g'.counter = g.counter ∧ g'.pwm = g.pwm) ∧
    (∀ g, counter_armed (gpios_trigger_output s gpio_name).2.hw g = counter_armed s.hw g ∧
      arm_calls (gpios_trigger_output s gpio_name).2.hw g = arm_calls s.hw g) := by
  unfold gpios_trigger_output
  cases hf : find_gpio s.gpios gpio_name with
  | none => exact ⟨fun i g hg => ⟨g, hg, rfl, rfl, rfl⟩, fun g => ⟨rfl, rfl⟩⟩
  | some p =>
    obtain ⟨current, gpio⟩ := p
    obtain ⟨hrow, _⟩ := find_gpio_some _ _ _ _ hf
    cases hm : (get_config s.config gpio).mode <;> simp only [hm]
    case gpio_timer =>
      obtain ⟨hd, hc, hp, v, hv⟩ := trigger_timer_effect s.config gpio s.hw true
      refine ⟨fun i g hg => ?_, fun g => ?_⟩
      · by_cases hi : current = i
        · subst hi
          rw [hrow] at hg
          simp only [Option.some.injEq] at hg
          subst hg
          have hlt : current < s.gpios.length := (List.getElem?_eq_some.1 hrow).1
          exact ⟨_, by simp [List.getElem?_set, hlt], hd, hc, hp⟩
        · exact ⟨g, by simp [List.getElem?_set, hi, hg], rfl, rfl, rfl⟩
      · show counter_armed (trigger_timer s.config gpio s.hw true).2 g = _ ∧
          arm_calls (trigger_timer s.config gpio s.hw true).2 g = _
        rw [hv]
        exact counter_armed_set_output _ _ _ _
    case gpio_output =>
      exact ⟨fun i g hg => ⟨g, hg, rfl, rfl, rfl⟩, fun g => counter_armed_set_output _ _ _ _⟩
    all_goals first
      | exact ⟨fun i g hg => ⟨g, hg, rfl, rfl, rfl⟩, fun g => ⟨trivial, trivial⟩⟩
      | exact ⟨fun i g hg => ⟨g, hg, rfl, rfl, rfl⟩, fun g => ⟨rfl, rfl⟩⟩

theorem periodic_status_trigger_rows (s : state_t) :
    (∀ (i : Nat) (g : gpio_t), s.gpios[i]? = some g →
      ∃ g', (periodic_status_trigger s).gpios[i]? = some g' ∧
        descriptor g' = descriptor g ∧ g'.counter = g.counter ∧ g'.pwm = g.pwm) ∧
    (∀ g, counter_armed (periodic_status_trigger s).hw g = counter_armed s.hw g ∧
      arm_calls (periodic_status_trigger s).hw g = arm_calls s.hw g) := by
  unfold periodic_status_trigger
  by_cases h1 : s.gpio_flags.counter_triggered = true
  · by_cases h2 : s.config.stat_trigger_gpio ≥ 0
    · simp only [h1, h2, if_true]
      exact gpios_trigger_output_rows
        { s with gpio_flags.counter_triggered := false } s.config.stat_trigger_gpio
    · simp only [h1, h2, if_true, if_false]
      exact ⟨fun i g hg => ⟨g, hg, rfl, rfl, rfl⟩, fun g => ⟨trivial, trivial⟩⟩
  · simp only [h1]
    exact ⟨fun i g hg => ⟨g, hg, rfl, rfl, rfl⟩, fun g => ⟨rfl, rfl⟩⟩

theorem periodic_status_trigger_idle (s : state_t)
    (h : s.gpio_flags.counter_triggered = false) : periodic_status_trigger s = s := by
  unfold periodic_status_trigger
  simp [h]

/-! ## Debounce countdown -/

theorem counter_armed_arm_counter (hw : hw_t) (g : gpio_t) :
    counter_armed (arm_counter hw g) g = true ∧
    arm_calls (arm_counter hw g) g = arm_calls hw g + 1 := by
  constructor
  · unfold counter_armed arm_counter
    simp only [Nat.testBit_or]
    rw [testBit_one_shiftLeft]
    simp
  · unfold arm_calls arm_counter
    simp

theorem periodic_counter_step (cfg : gpio_config_entry_t) (g : gpio_t) (hw : hw_t)
    (hmode : cfg.mode = gpio_counter) (hr : 0 < g.counter.debounce) :
    (periodic_counter cfg g hw).1 =
      { g with counter.debounce := max (g.counter.debounce - 10) 0 } ∧
    counter_armed (periodic_counter cfg g hw).2 g =
      (counter_armed hw g || decide (max (g.counter.debounce - 10) 0 = 0)) ∧
    arm_calls (periodic_counter cfg g hw).2 g =
      arm_calls hw g + (if max (g.counter.debounce - 10) 0 = 0 then 1 else 0) := by
  have hne : g.counter.debounce ≠ 0 := by omega
  obtain ⟨ha, hc⟩ := counter_armed_arm_counter hw g
  by_cases h10 : g.counter.debounce ≥ 10
  · have hmax : max (g.counter.debounce - 10) 0 = g.counter.debounce - 10 := by omega
    rw [hmax]
    by_cases hz : g.counter.debounce - 10 = 0
    · simp only [periodic_counter, hmode, hne, h10, hz, ne_eq, not_false_eq_true, and_self,
        if_true, decide_True, Bool.or_true]
      exact ⟨trivial, ha, hc⟩
    · simp [periodic_counter, hmode, hne, h10, hz]
  · have hmax : max (g.counter.debounce - 10) 0 = 0 := by omega
    rw [hmax]
    simp only [periodic_counter, hmode, hne, h10, ne_eq, not_false_eq_true, and_self,
      if_true, if_false, decide_True, Bool.or_true]
    exact ⟨trivial, ha, hc⟩

/-- C6: in one scheduler tick, a counter-mode pin (row `i` of a table that
carries the registry constants) with debounce-remaining `r > 0` gets
debounce-remaining `max (r - 10) 0` and keeps its count; the tick makes
exactly one call that arms its edge detection if the new debounce-remaining
is 0 and none if it is still positive, and accordingly the pin is armed
after the tick exactly if it was armed before or the new value is 0. -/
theorem periodic_debounce (s : state_t) (adc i : Nat) (g : gpio_t)
    (hreg : registry_ok s.gpios) (hg : s.gpios[i]? = some g)
    (hmode : (get_config s.config g).mode = gpio_counter)
    (hr : 0 < g.counter.debounce) :
    ∃ g', (gpios_periodic s adc).gpios[i]? = some g' ∧
      g'.counter.debounce = max (g.counter.debounce - 10) 0 ∧
      g'.counter.count = g.counter.count ∧
      arm_calls (gpios_periodic s adc).hw g =
        arm_calls s.hw g + (if g'.counter.debounce = 0 then 1 else 0) ∧
      counter_armed (gpios_periodic s adc).hw g =
        (counter_armed s.hw g || decide (g'.counter.debounce = 0)) := by
  obtain ⟨fc, ff, fg, fh⟩ := analog_sample_frame s adc
  obtain ⟨a', ⟨_, _, harm, hcalls⟩, hrow, _, _, hfin, hfinc⟩ :=
    periodic_pins_row (analog_sample s adc) i g (by rw [fg]; exact hreg) (by rw [fg]; exact hg)
  rw [fc, periodic_pin_counter s.config g a' hmode] at hrow hfin hfinc
  obtain ⟨hstep, harmed, hcalled⟩ :=
    periodic_counter_step (get_config s.config g) g a'.1 hmode hr
  simp only [hstep] at hrow
  simp only [harmed, harm, fh] at hfin
  simp only [hcalled, hcalls, fh] at hfinc
  obtain ⟨hrows, harms⟩ := periodic_status_trigger_rows (periodic_pins (analog_sample s adc))
  obtain ⟨g', hg', _, hc, _⟩ := hrows i _ hrow
  refine ⟨g', hg', ?_, ?_, ?_, ?_⟩
  · rw [hc]
  · rw [hc]
  · show arm_calls (periodic_status_trigger (periodic_pins (analog_sample s adc))).hw g = _
    rw [(harms g).2, hfinc, hc]
  · show counter_armed (periodic_status_trigger (periodic_pins (analog_sample s adc))).hw g = _
    rw [(harms g).1, hfin, hc]

/-! ## Timer countdown -/

theorem periodic_timer_step (cfg : gpio_config_entry_t) (g : gpio_t) (hw : hw_t)
    (hmode : cfg.mode = gpio_timer) (hen : output_enabled hw g = true) :
    (periodic_timer cfg g hw).1 =
      { g with timer.delay := (timer_next cfg (g.timer.delay, output_latch hw g)).1 } ∧
    output_enabled (periodic_timer cfg g hw).2 g = true ∧
    output_latch (periodic_timer cfg g hw).2 g
      = (timer_next cfg (g.timer.delay, output_latch hw g)).2 := by
  have hin := get_input_of_enabled hw g hen
  by_cases h0 : g.timer.delay ≤ 0
  · have : ¬ g.timer.delay > 0 := by omega
    simp [periodic_timer, timer_next, hmode, h0, this, hen]
  · have hpos : g.timer.delay > 0 := by omega
    by_cases h10 : 10 < g.timer.delay
    · have hge : g.timer.delay ≥ 10 := by omega
      have hnz : ¬ g.timer.delay - 10 = 0 := by omega
      simp [periodic_timer, timer_next, hmode, h0, hpos, h10, hge, hnz, hen]
    · have hz : (if g.timer.delay ≥ 10 then
            { g with timer.delay := g.timer.delay - 10 }
          else { g with timer.delay := 0 }) = { g with timer.delay := 0 } := by
        split_ifs with hge
        · have : g.timer.delay - 10 = 0 := by omega
          rw [this]
        · rfl
      have hset : ∀ b, set_output hw { g with timer.delay := 0 } b = set_output hw g b :=
        fun _ => rfl
      have hget : get_input hw { g with timer.delay := 0 } = get_input hw g := rfl
      simp only [periodic_timer, timer_next, hmode, hpos, and_self, if_true, hz, h0, h10,
        if_false, hset, hget, hin]
      cases hrep : cfg.timer.repeat_ with
      | true =>
        simp only [if_true]
        refine ⟨by first | rfl | trivial, ?_, output_latch_set_output _ _ _⟩
        rw [output_enabled_set_output]
        exact hen
      | false =>
        simp only [Bool.false_eq_true, if_false]
        refine ⟨by first | rfl | trivial, ?_, output_latch_set_output _ _ _⟩
        rw [output_enabled_set_output]
        exact hen

/-- One tick on a timer row whose driver is enabled, when no counted edge is
pending: the row's delay-remaining and latch advance by `timer_next`. -/
theorem tick_timer_row (s : state_t) (adc i : Nat) (g : gpio_t)
    (hreg : registry_ok s.gpios) (hg : s.gpios[i]? = some g)
    (hmode : (get_config s.config g).mode = gpio_timer)
    (hflag : s.gpio_flags.counter_triggered = false)
    (hen : output_enabled s.hw g = true) :
    registry_ok (gpios_periodic s adc).gpios ∧
    (gpios_periodic s adc).config = s.config ∧
    (gpios_periodic s adc).gpio_flags.counter_triggered = false ∧
    output_enabled (gpios_periodic s adc).hw g = true ∧
    ∃ g', (gpios_periodic s adc).gpios[i]? = some g' ∧ descriptor g' = descriptor g ∧
      (g'.timer.delay, output_latch (gpios_periodic s adc).hw g)
        = timer_next (get_config s.config g) (g.timer.delay, output_latch s.hw g) := by
  obtain ⟨fc, ff, fg, fh⟩ := analog_sample_frame s adc
  obtain ⟨pc, pf, pr⟩ := periodic_pins_frame (analog_sample s adc)
  obtain ⟨a', ⟨hen', hlatch', _, _⟩, hrow, hfe, hfl, _, _⟩ :=
    periodic_pins_row (analog_sample s adc) i g (by rw [fg]; exact hreg) (by rw [fg]; exact hg)
  rw [fh] at hen' hlatch'
  rw [fc, periodic_pin_timer s.config g a' hmode] at hrow hfe hfl
  obtain ⟨hstep, hsen, hslatch⟩ :=
    periodic_timer_step (get_config s.config g) g a'.1 hmode (by rw [hen']; exact hen)
  rw [hlatch'] at hstep hslatch
  simp only [hstep] at hrow
  simp only [hsen] at hfe
  simp only [hslatch] at hfl
  have hidle : gpios_periodic s adc = periodic_pins (analog_sample s adc) := by
    unfold gpios_periodic
    exact periodic_status_trigger_idle _ (by rw [pf, ff]; exact hflag)
  rw [hidle]
  refine ⟨pr (by rw [fg]; exact hreg), by rw [pc, fc], by rw [pf, ff]; exact hflag, hfe,
    _, hrow, rfl, ?_⟩
  rw [hfl]

/-- The same over `n` ticks. -/
theorem ticks_timer_row (s : state_t) (adc : Nat → Nat) (i : Nat) (g : gpio_t)
    (hreg : registry_ok s.gpios) (hg : s.gpios[i]? = some g)
    (hmode : (get_config s.config g).mode = gpio_timer)
    (hflag : s.gpio_flags.counter_triggered = false)
    (hen : output_enabled s.hw g = true) (n : Nat) :
    registry_ok (ticks adc n s).gpios ∧
    (ticks adc n s).config = s.config ∧
    (ticks adc n s).gpio_flags.counter_triggered = false ∧
    output_enabled (ticks adc n s).hw g = true ∧
    ∃ g', (ticks adc n s).gpios[i]? = some g' ∧ descriptor g' = descriptor g ∧
      (g'.timer.delay, output_latch (ticks adc n s).hw g)
        = timer_run (get_config s.config g) n (g.timer.delay, output_latch s.hw g) := by
  induction n with
  | zero => exact ⟨hreg, rfl, hflag, hen, g, hg, rfl, rfl⟩
  | succ n ih =>
    obtain ⟨ireg, icfg, iflag, ien, g', hg', hd, hrun⟩ := ih
    have hcfg : get_config (ticks adc n s).config g' = get_config s.config g := by
      rw [icfg]
      exact get_config_congr _ _ _ hd
    obtain ⟨treg, tcfg, tflag, ten, g'', hg'', hd', hnext⟩ :=
      tick_timer_row (ticks adc n s) (adc n) i g' ireg hg' (by rw [hcfg]; exact hmode) iflag
        (by rw [output_enabled_congr _ g' g hd]; exact ien)
    simp only [ticks]
    refine ⟨treg, by rw [tcfg, icfg], tflag, ?_, g'', hg'', hd'.trans hd, ?_⟩
    · rw [output_enabled_congr _ g g' hd.symm]
      exact ten
    · rw [output_latch_congr _ g g' hd.symm, hnext, hcfg, output_latch_congr _ g' g hd, hrun]
      rfl

theorem succ_div_mod (n k : Nat) (hk : 0 < k) :
    (n % k + 1 < k → (n + 1) / k = n / k ∧ (n + 1) % k = n % k + 1) ∧
    (n % k + 1 = k → (n + 1) / k = n / k + 1 ∧ (n + 1) % k = 0) := by
  have h := Nat.mod_add_div n k
  constructor
  · intro hlt
    exact (Nat.div_mod_unique hk).2 ⟨by omega, hlt⟩
  · intro heq
    refine (Nat.div_mod_unique hk).2 ⟨?_, hk⟩
    rw [Nat.mul_add, Nat.mul_one]
    omega

theorem parity_succ (A : Bool) (q : Nat) :
    (!(A != decide (q % 2 = 1))) = (A != decide ((q + 1) % 2 = 1)) := by
  rcases Nat.mod_two_eq_zero_or_one q with h | h
  · have h' : (q + 1) % 2 = 1 := by omega
    cases A <;> simp [h, h']
  · have h' : (q + 1) % 2 = 0 := by omega
    cases A <;> simp [h, h']

/-- Closed form of the countdown of a repeating timer started with the
configured delay. -/
theorem timer_run_repeat (cfg : gpio_config_entry_t) (A : Bool)
    (hD : 10 ≤ cfg.timer.delay) (hD' : cfg.timer.delay ≤ INT_MAX)
    (hrep : cfg.timer.repeat_ = true) (n : Nat) :
    timer_run cfg n (cfg.timer.delay, A) =
      (cfg.timer.delay - 10 * ((n % timer_ticks cfg.timer.delay : Nat) : Int),
        A != decide ((n / timer_ticks cfg.timer.delay) % 2 = 1)) := by
  unfold INT_MAX at hD'
  have hk : 0 < timer_ticks cfg.timer.delay := by
    unfold timer_ticks
    omega
  have hK : ((timer_ticks cfg.timer.delay : Nat) : Int) = (cfg.timer.delay + 9) / 10 := by
    unfold timer_ticks
    omega
  induction n with
  | zero => simp [timer_run]
  | succ n ih =>
    have hm := Nat.mod_lt n hk
    obtain ⟨hs1, hs2⟩ := succ_div_mod n (timer_ticks cfg.timer.delay) hk
    simp only [timer_run, ih, timer_next]
    have hpos : ¬ cfg.timer.delay - 10 * ((n % timer_ticks cfg.timer.delay : Nat) : Int) ≤ 0 := by
      omega
    rw [if_neg hpos]
    by_cases h10 : 10 < cfg.timer.delay - 10 * ((n % timer_ticks cfg.timer.delay : Nat) : Int)
    · obtain ⟨e1, e2⟩ := hs1 (by omega)
      rw [if_pos h10, e1, e2]
      congr 1
      push_cast
      ring
    · obtain ⟨e1, e2⟩ := hs2 (by omega)
      rw [if_neg h10, e1, e2, hrep, wrap32_of_range _ (by omega) (by omega), parity_succ]
      simp

/-- Closed form of the countdown of a one-shot timer started with the
configured delay. -/
theorem timer_run_one_shot (cfg : gpio_config_entry_t) (A : Bool)
    (hD : 10 ≤ cfg.timer.delay) (hrep : cfg.timer.repeat_ = false) (n : Nat) :
    timer_run cfg n (cfg.timer.delay, A) =
      if n < timer_ticks cfg.timer.delay then (cfg.timer.delay - 10 * (n : Int), A)
      else (0, !A) := by
  have hK : ((timer_ticks cfg.timer.delay : Nat) : Int) = (cfg.timer.delay + 9) / 10 := by
    unfold timer_ticks
    omega
  induction n with
  | zero =>
    have : 0 < timer_ticks cfg.timer.delay := by omega
    simp [timer_run, this]
  | succ n ih =>
    simp only [timer_run, ih]
    by_cases hlt : n < timer_ticks cfg.timer.delay
    · rw [if_pos hlt]
      simp only [timer_next]
      have hpos : ¬ cfg.timer.delay - 10 * (n : Int) ≤ 0 := by omega
      rw [if_neg hpos]
      by_cases h10 : 10 < cfg.timer.delay - 10 * (n : Int)
      · rw [if_pos h10, if_pos (by omega)]
        congr 1
        push_cast
        ring
      · have hge : ¬ n + 1 < timer_ticks cfg.timer.delay := by omega
        rw [if_neg h10, hrep, if_neg hge]
        simp
    · rw [if_neg hlt, if_neg (by omega)]
      simp [timer_next]

theorem find_gpio_from_first (index : Int) (l : List gpio_t) :
    ∀ (c0 i : Nat) (g : gpio_t), l[i]? = some g → (g.index : Int) = index →
      (∀ (j : Nat) (g' : gpio_t), j < i → l[j]? = some g' → (g'.index : Int) ≠ index) →
      find_gpio_from index c0 l = some (c0 + i, g) := by
  induction l with
  | nil => intro c0 i g h; simp at h
  | cons x xs ih =>
    intro c0 i g hg hidx hfirst
    cases i with
    | zero =>
      simp only [List.getElem?_cons_zero, Option.some.injEq] at hg
      subst hg
      simp [find_gpio_from, hidx]
    | succ i =>
      have hx : ¬ (x.index : Int) = index := hfirst 0 x (by omega) (by simp)
      simp only [find_gpio_from, hx, if_false]
      rw [ih (c0 + 1) i g (by simpa using hg) hidx
        (fun j g' hj hj' => hfirst (j + 1) g' (by omega) (by simpa using hj'))]
      congr 2
      omega

/-- In a table that carries the registry constants, `find_gpio` finds every
row by its index. -/
theorem find_gpio_registry (l : List gpio_t) (hreg : registry_ok l) (i : Nat) (g : gpio_t)
    (hg : l[i]? = some g) : find_gpio l (g.index : Int) = some (i, g) := by
  have h := find_gpio_from_first (g.index : Int) l 0 i g hg rfl
    (fun j g' hj hj' => by
      have hap := registry_apart l hreg i j g g' hg hj' (by omega)
      intro e
      exact hap.1 (by exact_mod_cast e.symm))
  simpa [find_gpio] using h

theorem registry_ok_set (l : List gpio_t) (hreg : registry_ok l) (i : Nat) (g g' : gpio_t)
    (hg : l[i]? = some g) (hd : descriptor g' = descriptor g) : registry_ok (l.set i g') := by
  unfold registry_ok at hreg ⊢
  rw [← hreg]
  apply List.ext_getElem?
  intro j
  simp only [List.getElem?_map, List.getElem?_set]
  by_cases hij : i = j
  · subst hij
    have hlt : i < l.length := (List.getElem?_eq_some.1 hg).1
    simp [hlt, hg, hd]
  · simp [hij]

/-- Triggering a timer row: accepted, the row's delay-remaining becomes the
configured delay and its latch the active level, everything else that the
timer countdown depends on is kept. -/
theorem gpios_trigger_output_timer (s : state_t) (i : Nat) (g : gpio_t)
    (hreg : registry_ok s.gpios) (hg : s.gpios[i]? = some g)
    (hmode : (get_config s.config g).mode = gpio_timer) :
    (gpios_trigger_output s (g.index : Int)).1 = true ∧
    registry_ok (gpios_trigger_output s (g.index : Int)).2.gpios ∧
    (gpios_trigger_output s (g.index : Int)).2.config = s.config ∧
    (gpios_trigger_output s (g.index : Int)).2.gpio_flags = s.gpio_flags ∧
    output_enabled (gpios_trigger_output s (g.index : Int)).2.hw g = output_enabled s.hw g ∧
    output_latch (gpios_trigger_output s (g.index : Int)).2.hw g
      = decide ((get_config s.config g).timer.direction = gpio_up) ∧
    (gpios_trigger_output s (g.index : Int)).2.gpios[i]?
      = some { g with timer.delay := wrap32 (get_config s.config g).timer.delay } := by
  have hlt : i < s.gpios.length := (List.getElem?_eq_some.1 hg).1
  simp only [gpios_trigger_output, find_gpio_registry s.gpios hreg i g hg, hmode, trigger_timer,
    if_true]
  refine ⟨trivial, registry_ok_set _ hreg i g _ hg rfl, trivial, trivial, ?_, ?_, ?_⟩
  · exact output_enabled_set_output _ _ _ _
  · exact output_latch_set_output _ _ _
  · simp [List.getElem?_set, hlt]

/-- C4: for a timer pin (row `i` of a table that carries the registry
constants) whose configured delay `D` is an `int` with `D ≥ 10`, with
repeat off, whose output driver is enabled (as initialisation leaves it) and
with no counted edge pending for the status trigger: `gpios_trigger_output`
accepts, and after `n` further ticks the latch is still at the configured
level and delay-remaining is `D - 10 n` as long as `n` is below
`timer_ticks D` (the number of 10 ms ticks that complete `D` ms); from tick
`timer_ticks D` on, for every `n`, the latch is the flipped level and
delay-remaining is 0, so the output flips exactly once. -/
theorem timer_one_shot (s : state_t) (adc : Nat → Nat) (i : Nat) (g : gpio_t) (n : Nat)
    (hreg : registry_ok s.gpios) (hg : s.gpios[i]? = some g)
    (hmode : (get_config s.config g).mode = gpio_timer)
    (hD : 10 ≤ (get_config s.config g).timer.delay)
    (hD' : (get_config s.config g).timer.delay ≤ INT_MAX)
    (hrep : (get_config s.config g).timer.repeat_ = false)
    (hflag : s.gpio_flags.counter_triggered = false)
    (hen : output_enabled s.hw g = true) :
    (gpios_trigger_output s (g.index : Int)).1 = true ∧
    output_enabled (ticks adc n (gpios_trigger_output s (g.index : Int)).2).hw g = true ∧
    ∃ g', (ticks adc n (gpios_trigger_output s (g.index : Int)).2).gpios[i]? = some g' ∧
      g'.timer.delay =
        (if n < timer_ticks (get_config s.config g).timer.delay
          then (get_config s.config g).timer.delay - 10 * (n : Int) else 0) ∧
      output_latch (ticks adc n (gpios_trigger_output s (g.index : Int)).2).hw g =
        (if n < timer_ticks (get_config s.config g).timer.delay
          then decide ((get_config s.config g).timer.direction = gpio_up)
          else !decide ((get_config s.config g).timer.direction = gpio_up)) := by
  obtain ⟨hacc, treg, tcfg, tflag, ten, tlatch, trow⟩ :=
    gpios_trigger_output_timer s i g hreg hg hmode
  unfold INT_MAX at hD'
  rw [wrap32_of_range _ (by omega) (by omega)] at trow
  obtain ⟨_, _, _, ren, g', hg', _, hrun⟩ :=
    ticks_timer_row (gpios_trigger_output s (g.index : Int)).2 adc i
      { g with timer.delay := (get_config s.config g).timer.delay } treg trow
      (by rw [tcfg]; exact hmode) (by rw [tflag]; exact hflag)
      (by rw [← hen, ← ten]; rfl) n
  have hcfg : get_config (gpios_trigger_output s (g.index : Int)).2.config
      { g with timer.delay := (get_config s.config g).timer.delay } = get_config s.config g := by
    rw [tcfg]
    rfl
  have hl : output_latch (gpios_trigger_output s (g.index : Int)).2.hw
      { g with timer.delay := (get_config s.config g).timer.delay }
      = decide ((get_config s.config g).timer.direction = gpio_up) := by
    rw [← tlatch]
    rfl
  rw [hcfg, hl] at hrun
  have hrun' : (g'.timer.delay,
      output_latch (ticks adc n (gpios_trigger_output s (g.index : Int)).2).hw g)
      = timer_run (get_config s.config g) n ((get_config s.config g).timer.delay,
          decide ((get_config s.config g).timer.direction = gpio_up)) := hrun
  rw [timer_run_one_shot _ _ hD hrep] at hrun'
  refine ⟨hacc, ren, g', hg', ?_, ?_⟩
  · have := congrArg Prod.fst hrun'
    simp only at this
    rw [this]
    split_ifs <;> rfl
  · have := congrArg Prod.snd hrun'
    simp only at this
    rw [this]
    split_ifs <;> rfl

/-! ## Initialisation -/

theorem same_output_refl (g : gpio_t) (hw : hw_t) : same_output g hw hw := ⟨rfl, rfl⟩

theorem same_output_trans (g : gpio_t) (a b c : hw_t) (h1 : same_output g a b)
    (h2 : same_output g b c) : same_output g a c :=
  ⟨h2.1.trans h1.1, h2.2.trans h1.2⟩

theorem bit_apart (g g' : gpio_t) (h : pins_apart g g') :
    (1 <<< g'.index).testBit g.index = false := by
  rw [testBit_one_shiftLeft]
  have : ¬ g'.index = g.index := fun e => h.1 e.symm
  simp [this]

theorem same_output_gpio_output_set (g : gpio_t) (hw : hw_t) (s c e d : Nat)
    (hs : s.testBit g.index = false) (hc : c.testBit g.index = false)
    (he : e.testBit g.index = false) (hd : d.testBit g.index = false) :
    same_output g hw (gpio_output_set hw s c e d) := by
  unfold same_output output_enabled output_latch
  by_cases hr : g.rtc_gpio = true
  · simp [hr, gpio_output_set]
  · simp only [hr, if_false, Bool.false_eq_true]
    rw [gpio_output_set_enable_bit, gpio_output_set_out_bit, hs, hc, he, hd]
    simp

theorem same_output_rtcgpio_config (g : gpio_t) (hw : hw_t) (io : rtcgpio_setup_t)
    (h : g.rtc_gpio = false) : same_output g hw (rtcgpio_config hw io) := by
  unfold same_output output_enabled output_latch
  simp [h, rtcgpio_config]

theorem same_output_set_output (g g' : gpio_t) (hw : hw_t) (b : Bool) (h : pins_apart g g') :
    same_output g hw (set_output hw g' b) :=
  ⟨output_enabled_set_output _ _ _ _, output_latch_set_output_apart _ _ _ _ h⟩

theorem rtc_of_apart (g g' : gpio_t) (h : pins_apart g g') (hr : g'.rtc_gpio = true) :
    g.rtc_gpio = false := by
  rcases h.2 with e | e
  · exact e
  · rw [hr] at e
    cases e

theorem gpio_init_output_apart (config : config_t) (g g' : gpio_t) (hw : hw_t)
    (h : pins_apart g g') : same_output g hw (gpio_init_output config g' hw).2 := by
  simp only [gpio_init_output]
  refine same_output_trans g hw _ _ ?_ (same_output_set_output g g' _ _ h)
  split_ifs with hr
  · exact same_output_rtcgpio_config g hw _ (rtc_of_apart g g' h hr)
  · exact same_output_gpio_output_set g hw _ _ _ _ (Nat.zero_testBit _) (Nat.zero_testBit _)
      (bit_apart g g' h) (Nat.zero_testBit _)

theorem gpio_init_output_row (config : config_t) (g' : gpio_t) (hw : hw_t) :
    (gpio_init_output config g' hw).1 = g' := rfl

/-- Initialising another pin, in whatever mode, leaves the output driver and
latch of pin `g` alone and keeps the constants of the initialised row. -/
theorem init_fn_apart (config : config_t) (mode : gpio_mode_t) (g g' : gpio_t) (hw : hw_t)
    (h : pins_apart g g') :
    same_output g hw (init_fn config mode g' hw).2 ∧
    descriptor (init_fn config mode g' hw).1 = descriptor g' := by
  have z := Nat.zero_testBit g.index
  have b := bit_apart g g' h
  cases mode
  case gpio_disabled => exact ⟨same_output_refl g hw, rfl⟩
  case gpio_mode_error => exact ⟨same_output_refl g hw, rfl⟩
  case gpio_pwm => exact ⟨same_output_refl g hw, rfl⟩
  case gpio_input =>
    simp only [init_fn, gpio_init_input]
    split_ifs with hr
    · exact ⟨same_output_rtcgpio_config g hw _ (rtc_of_apart g g' h hr), rfl⟩
    · exact ⟨same_output_gpio_output_set g hw _ _ _ _ z z z b, rfl⟩
  case gpio_counter =>
    simp only [init_fn, gpio_init_counter]
    exact ⟨same_output_gpio_output_set g hw _ _ _ _ z z z b, by first | rfl | trivial⟩
  case gpio_output =>
    exact ⟨gpio_init_output_apart config g g' hw h, rfl⟩
  case gpio_i2c =>
    simp only [init_fn, gpio_init_i2c]
    exact ⟨same_output_gpio_output_set g _ _ _ _ _ b z b z, by first | rfl | trivial⟩
  case gpio_timer =>
    have h0 : pins_apart g { g' with timer.delay := 0 } := h
    have ho := gpio_init_output_apart config g { g' with timer.delay := 0 } hw h0
    have hc : get_config config { g' with timer.delay := 0 } = get_config config g' := rfl
    have up := same_output_gpio_output_set g
      (gpio_init_output config { g' with timer.delay := 0 } hw).2 0 (1 <<< g'.index) 0 0 z b z z
    have dn := same_output_gpio_output_set g
      (gpio_init_output config { g' with timer.delay := 0 } hw).2 (1 <<< g'.index) 0 0 0 b z z z
    cases hdir : (get_config config g').timer.direction <;>
      cases ha : (get_config config g').timer.autotrigger <;>
      simp only [init_fn, gpio_init_timer, gpio_init_output_row, hc, hdir, ha, trigger_timer,
        if_true, if_false, reduceCtorEq, Bool.false_eq_true] <;>
      refine ⟨?_, rfl⟩
    · exact same_output_trans g _ _ _ ho up
    · exact same_output_trans g _ _ _ (same_output_trans g _ _ _ ho up)
        (same_output_set_output g _ _ _ h0)
    · exact same_output_trans g _ _ _ ho dn
    · exact same_output_trans g _ _ _ (same_output_trans g _ _ _ ho dn)
        (same_output_set_output g _ _ _ h0)

theorem init_fn_descriptor (config : config_t) (mode : gpio_mode_t) (g : gpio_t) (hw : hw_t) :
    descriptor (init_fn config mode g hw).1 = descriptor g := by
  cases mode <;>
    simp only [init_fn, gpio_init_disabled, gpio_init_input, gpio_init_counter, gpio_init_output,
      gpio_init_timer, gpio_init_pwm, gpio_init_i2c, trigger_timer] <;>
    (try split_ifs) <;> rfl

theorem gpios_init_scan_descriptor (config : config_t) (B : Nat) (g : gpio_t)
    (a : init_scan_t) : descriptor (gpios_init_scan config B g a).1 = descriptor g := by
  simp only [gpios_init_scan]
  split_ifs <;> rfl

theorem output_enabled_levels (hw : hw_t) (g : gpio_t) (s c : Nat) :
    output_enabled (gpio_output_set hw s c 0 0) g = output_enabled hw g := by
  unfold output_enabled
  by_cases hr : g.rtc_gpio = true
  · simp [hr, gpio_output_set]
  · simp only [hr, if_false, Bool.false_eq_true]
    rw [gpio_output_set_enable_bit]
    simp

theorem output_enabled_driver (hw : hw_t) (g : gpio_t) :
    output_enabled (if g.rtc_gpio = true then rtcgpio_config hw rtcgpio_output
      else gpio_output_set hw 0 0 (1 <<< g.index) 0) g = true := by
  unfold output_enabled
  by_cases hr : g.rtc_gpio = true
  · simp [hr, rtcgpio_config]
  · simp only [hr, if_false, Bool.false_eq_true]
    rw [gpio_output_set_enable_bit, testBit_one_shiftLeft]
    simp

/-- What `gpio_init_timer` leaves on its own pin when autotrigger is set. -/
theorem gpio_init_timer_own (config : config_t) (g : gpio_t) (hw : hw_t)
    (hauto : (get_config config g).timer.autotrigger = true) :
    (gpio_init_timer config g hw).1
      = { g with timer.delay := wrap32 (get_config config g).timer.delay } ∧
    output_enabled (gpio_init_timer config g hw).2 g = true ∧
    output_latch (gpio_init_timer config g hw).2 g
      = decide ((get_config config g).timer.direction = gpio_up) := by
  have hc : get_config config { g with timer.delay := 0 } = get_config config g := rfl
  have hs : ∀ (x : hw_t) (b : Bool),
      set_output x { g with timer.delay := 0 } b = set_output x g b := fun _ _ => rfl
  cases hdir : (get_config config g).timer.direction <;>
    simp only [gpio_init_timer, gpio_init_output, hc, hs, hdir, hauto, trigger_timer, if_true,
      if_false, reduceCtorEq] <;>
    refine ⟨trivial, ?_, output_latch_set_output _ _ _⟩ <;>
    rw [output_enabled_set_output, output_enabled_levels, output_enabled_set_output] <;>
    exact output_enabled_driver hw g

/-- The second loop of `gpios_init` on a timer row with autotrigger. -/
theorem gpios_init_modes_row (config : config_t) (table : List gpio_t) (i : Nat) (g : gpio_t)
    (hreg : registry_ok table) (hg : table[i]? = some g)
    (hmode : (get_config config g).mode = gpio_timer)
    (hauto : (get_config config g).timer.autotrigger = true) (hw0 : hw_t) :
    registry_ok (for_each_gpio (fun current gpio hw =>
      init_fn config (config.gpios.entry.getD current gpio_config_init).mode gpio hw)
      0 table hw0).1 ∧
    output_enabled (for_each_gpio (fun current gpio hw =>
      init_fn config (config.gpios.entry.getD current gpio_config_init).mode gpio hw)
      0 table hw0).2 g = true ∧
    output_latch (for_each_gpio (fun current gpio hw =>
      init_fn config (config.gpios.entry.getD current gpio_config_init).mode gpio hw)
      0 table hw0).2 g = decide ((get_config config g).timer.direction = gpio_up) ∧
    (for_each_gpio (fun current gpio hw =>
      init_fn config (config.gpios.entry.getD current gpio_config_init).mode gpio hw)
      0 table hw0).1[i]? = some { g with timer.delay := wrap32 (get_config config g).timer.delay } := by
  obtain ⟨a', _, hrow, hfin⟩ := for_each_gpio_at
    (fun current gpio hw =>
      init_fn config (config.gpios.entry.getD current gpio_config_init).mode gpio hw)
    (fun hw : hw_t => (output_enabled hw g, output_latch hw g))
    table i g hg
    (fun j g' hj hji c a => by
      have hap := registry_apart table hreg i j g g' hg hj (fun e => hji e.symm)
      obtain ⟨⟨h1, h2⟩, _⟩ := init_fn_apart config
        (config.gpios.entry.getD c gpio_config_init).mode g g' a hap
      simp only [h1, h2])
    0 hw0
  have hid : g.id = i := registry_id table hreg i g hg
  have hm : (config.gpios.entry.getD (0 + i) gpio_config_init).mode = gpio_timer := by
    rw [Nat.zero_add, ← hid]
    exact hmode
  simp only [hm] at hrow hfin
  obtain ⟨o1, o2, o3⟩ := gpio_init_timer_own config g a' hauto
  have hinit : init_fn config gpio_timer g a' = gpio_init_timer config g a' := rfl
  rw [hinit] at hrow hfin
  simp only [Prod.mk.injEq] at hfin
  refine ⟨?_, ?_, ?_, ?_⟩
  · unfold registry_ok at hreg ⊢
    rw [← hreg]
    exact for_each_gpio_descriptor _ (fun c g a => init_fn_descriptor config _ g a) _ _ _
  · rw [hfin.1, o2]
  · rw [hfin.2, o3]
  · rw [hrow, o1]

theorem gpios_init_i2c_output (a : init_scan_t) (hw : hw_t) (g : gpio_t) :
    output_enabled (gpios_init_i2c a hw) g = output_enabled hw g ∧
    output_latch (gpios_init_i2c a hw) g = output_latch hw g := by
  unfold gpios_init_i2c
  split_ifs
  · exact ⟨rfl, rfl⟩
  · exact ⟨rfl, rfl⟩

/-- The state `gpios_init` leaves for a timer row with autotrigger. -/
theorem gpios_init_timer_row (B : Nat) (s : state_t) (i : Nat) (g : gpio_t)
    (hreg : registry_ok s.gpios) (hg : s.gpios[i]? = some g)
    (hmode : (get_config s.config g).mode = gpio_timer)
    (hauto : (get_config s.config g).timer.autotrigger = true) :
    registry_ok (gpios_init B s).gpios ∧
    (gpios_init B s).config = s.config ∧
    (gpios_init B s).gpio_flags.counter_triggered = false ∧
    output_enabled (gpios_init B s).hw g = true ∧
    output_latch (gpios_init B s).hw g
      = decide ((get_config s.config g).timer.direction = gpio_up) ∧
    ∃ g', (gpios_init B s).gpios[i]? = some g' ∧ descriptor g' = descriptor g ∧
      g'.timer.delay = wrap32 (get_config s.config g).timer.delay := by
  obtain ⟨a1, _, hrow1, _⟩ := for_each_gpio_at (fun _ => gpios_init_scan s.config B)
    (fun _ : init_scan_t => ()) s.gpios i g hg (fun _ _ _ _ _ _ => rfl) 0 init_scan_start
  have hd1 := gpios_init_scan_descriptor s.config B g a1
  have hreg1 : registry_ok (for_each_gpio (fun _ => gpios_init_scan s.config B) 0 s.gpios
      init_scan_start).1 := by
    unfold registry_ok at hreg ⊢
    rw [← hreg]
    exact for_each_gpio_descriptor _ (fun _ g a => gpios_init_scan_descriptor s.config B g a) _ _ _
  have hc1 : get_config s.config (gpios_init_scan s.config B g a1).1 = get_config s.config g :=
    get_config_congr _ _ _ hd1
  obtain ⟨m1, m2, m3, m4⟩ := gpios_init_modes_row s.config _ i _ hreg1 hrow1
    (by rw [hc1]; exact hmode) (by rw [hc1]; exact hauto)
    (gpios_init_subsystems (for_each_gpio (fun _ => gpios_init_scan s.config B) 0 s.gpios
      init_scan_start).2 s.hw)
  rw [hc1] at m3 m4
  rw [output_enabled_congr _ _ g hd1] at m2
  rw [output_latch_congr _ _ g hd1] at m3
  simp only [gpios_init]
  refine ⟨m1, trivial, trivial, ?_, ?_, _, m4, hd1, rfl⟩
  · rw [(gpios_init_i2c_output _ _ g).1]
    exact m2
  · rw [(gpios_init_i2c_output _ _ g).2]
    exact m3

/-- C3: for a timer pin (row `i` of a table that carries the registry
constants) configured with direction `d`, a delay `D` that is an `int` with
`D ≥ 10`, repeat and autotrigger: after `gpios_init` and `n` further ticks
the output driver is enabled, the latch is at the active level (high iff
`d` is up) if `n / timer_ticks D` is even and at the opposite level if it is
odd, and delay-remaining is `D - 10 (n mod timer_ticks D)`, where
`timer_ticks D` is the number of 10 ms ticks that complete `D` ms.  So the
output is active with delay-remaining `D` right after initialisation
(`n = 0`), flips on tick `timer_ticks D` with delay-remaining reloaded to `D`
on that tick, and flips again every `timer_ticks D` ticks, indefinitely. -/
theorem timer_repeat_autotrigger (B : Nat) (s : state_t) (adc : Nat → Nat) (i : Nat)
    (g : gpio_t) (n : Nat)
    (hreg : registry_ok s.gpios) (hg : s.gpios[i]? = some g)
    (hmode : (get_config s.config g).mode = gpio_timer)
    (hD : 10 ≤ (get_config s.config g).timer.delay)
    (hD' : (get_config s.config g).timer.delay ≤ INT_MAX)
    (hrep : (get_config s.config g).timer.repeat_ = true)
    (hauto : (get_config s.config g).timer.autotrigger = true) :
    output_enabled (ticks adc n (gpios_init B s)).hw g = true ∧
    output_latch (ticks adc n (gpios_init B s)).hw g =
      (decide ((get_config s.config g).timer.direction = gpio_up)
        != decide ((n / timer_ticks (get_config s.config g).timer.delay) % 2 = 1)) ∧
    ∃ g', (ticks adc n (gpios_init B s)).gpios[i]? = some g' ∧
      g'.timer.delay = (get_config s.config g).timer.delay
        - 10 * ((n % timer_ticks (get_config s.config g).timer.delay : Nat) : Int) := by
  obtain ⟨ireg, icfg, iflag, ien, ilatch, g1, hg1, hd1, hdelay⟩ :=
    gpios_init_timer_row B s i g hreg hg hmode hauto
  have hmax := hD'
  unfold INT_MAX at hmax
  rw [wrap32_of_range _ (by omega) (by omega)] at hdelay
  have hcfg : get_config (gpios_init B s).config g1 = get_config s.config g := by
    rw [icfg]
    exact get_config_congr _ _ _ hd1
  obtain ⟨_, _, _, ren, g', hg', _, hrun⟩ :=
    ticks_timer_row (gpios_init B s) adc i g1 ireg hg1 (by rw [hcfg]; exact hmode) iflag
      (by rw [output_enabled_congr _ g1 g hd1]; exact ien) n
  rw [hcfg, hdelay, output_latch_congr _ g1 g hd1, output_latch_congr _ g1 g hd1, ilatch,
    timer_run_repeat _ _ hD hD' hrep] at hrun
  rw [output_enabled_congr _ g1 g hd1] at ren
  simp only [Prod.mk.injEq] at hrun
  exact ⟨ren, hrun.2, g', hg', hrun.1⟩

theorem timer_repeat_autotrigger_witness :
    (output_latch (gpios_init 4 state_timer_repeat).hw pin_gpio4 = true ∧
      ∃ g', (gpios_init 4 state_timer_repeat).gpios[4]? = some g' ∧ g'.timer.delay = 500) ∧
    (output_latch (ticks (fun _ => 0) 50 (gpios_init 4 state_timer_repeat)).hw pin_gpio4 = false ∧
      ∃ g', (ticks (fun _ => 0) 50 (gpios_init 4 state_timer_repeat)).gpios[4]? = some g' ∧
        g'.timer.delay = 500) ∧
    output_latch (ticks (fun _ => 0) 100 (gpios_init 4 state_timer_repeat)).hw pin_gpio4 = true := by
  have h := fun n => timer_repeat_autotrigger 4 state_timer_repeat (fun _ => 0) 4 pin_gpio4 n
    (by decide) (by decide) (by decide) (by decide) (by decide) (by decide) (by decide)
  obtain ⟨_, l0, g0, r0, d0⟩ := h 0
  obtain ⟨_, l50, g50, r50, d50⟩ := h 50
  obtain ⟨_, l100, _⟩ := h 100
  exact ⟨⟨l0.trans (by decide), g0, r0, d0.trans (by decide)⟩,
    ⟨l50.trans (by decide), g50, r50, d50.trans (by decide)⟩, l100.trans (by decide)⟩

theorem timer_one_shot_witness :
    (gpios_trigger_output (gpios_init 4 state_timer_once) (pin_timer_started.index : Int)).1
      = true ∧
    output_latch (ticks (fun _ => 0) 49 (gpios_trigger_output (gpios_init 4 state_timer_once)
      (pin_timer_started.index : Int)).2).hw pin_timer_started = true ∧
    output_latch (ticks (fun _ => 0) 50 (gpios_trigger_output (gpios_init 4 state_timer_once)
      (pin_timer_started.index : Int)).2).hw pin_timer_started = false ∧
    (output_latch (ticks (fun _ => 0) 1000 (gpios_trigger_output (gpios_init 4 state_timer_once)
        (pin_timer_started.index : Int)).2).hw pin_timer_started = false ∧
      ∃ g', (ticks (fun _ => 0) 1000 (gpios_trigger_output (gpios_init 4 state_timer_once)
          (pin_timer_started.index : Int)).2).gpios[4]? = some g' ∧
        g'.timer.delay = 0) := by
  have h := fun n => timer_one_shot (gpios_init 4 state_timer_once) (fun _ => 0) 4
    pin_timer_started n
    (by decide) (by decide) (by decide) (by decide) (by decide) (by decide) (by decide) (by decide)
  obtain ⟨acc, _, _, _, _, l49⟩ := h 49
  obtain ⟨_, _, _, _, _, l50⟩ := h 50
  obtain ⟨_, _, g', r', d', l1000⟩ := h 1000
  exact ⟨acc, l49.trans (by decide), l50.trans (by decide), l1000.trans (by decide), g', r',
    d'.trans (by decide)⟩

theorem periodic_debounce_witness :
    ∃ g', (gpios_periodic state_counting 0).gpios[2]? = some g' ∧
      g'.counter.debounce = 20 ∧ g'.counter.count = 41 ∧
      arm_calls (gpios_periodic state_counting 0).hw pin_counting
        = arm_calls state_counting.hw pin_counting + (if g'.counter.debounce = 0 then 1 else 0) ∧
      counter_armed (gpios_periodic state_counting 0).hw pin_counting
        = (counter_armed state_counting.hw pin_counting || decide (g'.counter.debounce = 0)) := by
  obtain ⟨g', h1, h2, h3, h4, h5⟩ :=
    periodic_debounce state_counting 0 2 pin_counting (by decide) (by decide) (by decide)
      (by decide)
  exact ⟨g', h1, h2.trans (by decide), h3, h4, h5⟩

theorem pwm_min_duty_rejected_witness :
    ((70000 : Int) < 0 ∨ (65535 : Int) < 70000) ∧
    (application_function_gpio_mode state_pwm args_mode_pwm).1 = app_action_error ∧
    (application_function_gpio_mode state_pwm args_mode_pwm).2.config = state_pwm.config ∧
    (application_function_gpio_mode state_pwm args_mode_pwm).2.flash = state_pwm.flash ∧
    (application_function_gpio_mode state_pwm args_mode_pwm).2.gpios = state_pwm.gpios ∧
    application_function_gpio_set state_pwm args_set_pwm = (app_action_error, state_pwm) := by
  obtain ⟨hm, _⟩ := pwm_min_duty_rejected state_pwm args_mode_pwm 5 70000 (by decide) (by decide)
  obtain ⟨_, hs⟩ := pwm_min_duty_rejected state_pwm args_set_pwm 5 70000 (by decide) (by decide)
  obtain ⟨he, staged, hst⟩ := hm (by decide) (by decide)
  refine ⟨by decide, he, ?_, ?_, ?_, hs 5 pin_gpio5 (by decide) (by decide) (by decide)⟩
  · rw [hst]
  · rw [hst]
  · rw [hst]

/-! ## Mode-set command -/

/-- The mode-set command touches nothing but the staged snapshot and the
persisted configuration. -/
theorem gpio_mode_frame (s : state_t) (src : List arg_t) :
    ∃ staged stored, (application_function_gpio_mode s src).2 =
      { s with tmpconfig := staged, flash := stored } := by
  unfold application_function_gpio_mode
  split
  · exact ⟨s.tmpconfig, s.flash, rfl⟩
  · split
    · exact ⟨s.tmpconfig, s.flash, rfl⟩
    · split
      · exact ⟨s.tmpconfig, s.flash, rfl⟩
      · simp only []
        split_ifs with hm
        · exact ⟨s.tmpconfig, s.flash, rfl⟩
        · split
          · exact ⟨s.flash, s.flash, rfl⟩
          · simp only [config_write, set_tmp_entry, config_read]
            split_ifs
            · exact ⟨_, _, rfl⟩
            · exact ⟨_, _, rfl⟩

/-- The mode-set command in closed form once the pin and the mode name are
known. -/
theorem gpio_mode_eq (s : state_t) (src : List arg_t) (gpio_index : Int) (current : Nat)
    (gpio : gpio_t) (name : String)
    (hpin : parse_int 1 src = some gpio_index)
    (hfind : find_gpio s.gpios gpio_index = some (current, gpio))
    (hname : parse_string 2 src = some name)
    (hmode : gpio_mode_from_string name ≠ gpio_mode_error) :
    application_function_gpio_mode s src =
      match gpio_mode_arguments (gpio_mode_from_string name) gpio src
          (s.flash.gpios.entry.getD gpio.id gpio_config_init) with
      | none => (app_action_error, { s with tmpconfig := s.flash })
      | some e =>
        (app_action_normal,
          { s with
            tmpconfig := config_with s.flash gpio.id { e with mode := gpio_mode_from_string name },
            flash := if s.flash_writable then
                config_with s.flash gpio.id { e with mode := gpio_mode_from_string name }
              else s.flash }) := by
  unfold application_function_gpio_mode
  simp only [hpin, hfind, hname, hmode, if_false, config_read]
  cases gpio_mode_arguments (gpio_mode_from_string name) gpio src
      (s.flash.gpios.entry.getD gpio.id gpio_config_init) with
  | none => rfl
  | some e =>
    simp only [config_write, set_tmp_entry, config_with]
    split_ifs <;> rfl

/-- C11: a mode-set command that addresses a registered pin, names a mode and
succeeds leaves the whole state as it was (live configuration, every pin's
runtime members, flags, sampler and hardware) except for the staged snapshot
and the persisted configuration: the staged snapshot becomes the previously
persisted configuration with the entry of the addressed pin replaced by an
entry of the requested mode, every other entry and the settings outside the
pin entries being those previously persisted, and this snapshot is what is
persisted (when the store can be written). -/
theorem gpio_mode_stages_one_entry (s : state_t) (src : List arg_t) (gpio_index : Int)
    (current : Nat) (gpio : gpio_t) (name : String)
    (hpin : parse_int 1 src = some gpio_index)
    (hfind : find_gpio s.gpios gpio_index = some (current, gpio))
    (hname : parse_string 2 src = some name)
    (hok : (application_function_gpio_mode s src).1 = app_action_normal) :
    ∃ e, e.mode = gpio_mode_from_string name ∧
      (application_function_gpio_mode s src).2 =
        { s with
          tmpconfig := config_with s.flash gpio.id e,
          flash := if s.flash_writable then config_with s.flash gpio.id e else s.flash } ∧
      (∀ j : Nat, j ≠ gpio.id →
        (config_with s.flash gpio.id e).gpios.entry[j]? = s.flash.gpios.entry[j]?) ∧
      (config_with s.flash gpio.id e).stat_trigger_gpio = s.flash.stat_trigger_gpio ∧
      (config_with s.flash gpio.id e).i2c_delay = s.flash.i2c_delay := by
  by_cases hmode : gpio_mode_from_string name = gpio_mode_error
  · exfalso
    unfold application_function_gpio_mode at hok
    simp [hpin, hfind, hname, hmode] at hok
  · rw [gpio_mode_eq s src gpio_index current gpio name hpin hfind hname hmode] at hok ⊢
    cases hargs : gpio_mode_arguments (gpio_mode_from_string name) gpio src
        (s.flash.gpios.entry.getD gpio.id gpio_config_init) with
    | none =>
      rw [hargs] at hok
      simp at hok
    | some e =>
      refine ⟨{ e with mode := gpio_mode_from_string name }, rfl, rfl, ?_, rfl, rfl⟩
      intro j hj
      simp only [config_with]
      exact List.getElem?_set_ne (fun h => hj h.symm)

theorem gpio_mode_stages_one_entry_witness :
    (application_function_gpio_mode state_pwm args_mode_pwm_valid).1 = app_action_normal ∧
    ∃ e, e.mode = gpio_pwm ∧
      (application_function_gpio_mode state_pwm args_mode_pwm_valid).2 =
        { state_pwm with
          tmpconfig := config_with state_pwm.flash pin_gpio5.id e,
          flash := if state_pwm.flash_writable then config_with state_pwm.flash pin_gpio5.id e
            else state_pwm.flash } := by
  obtain ⟨e, h1, h2, _⟩ := gpio_mode_stages_one_entry state_pwm args_mode_pwm_valid 5 5
    pin_gpio5 "pwm" (by decide) (by decide) (by decide) (by decide)
  exact ⟨by decide, e, h1.trans (by decide), h2⟩

/-- C12 (the code at the failing input): with a store that cannot be written,
the valid command `gpio-mode 5 pwm 100 1000 1` returns normal output although
nothing is persisted, while the `config-write` command reports the failed
write as an error in the same state. -/
theorem gpio_mode_ignores_write_failure :
    config_write_ok (application_function_gpio_mode state_pwm_write_fails
      args_mode_pwm_valid).2 = false ∧
    (application_function_gpio_mode state_pwm_write_fails args_mode_pwm_valid).1
      = app_action_normal ∧
    (application_function_gpio_mode state_pwm_write_fails args_mode_pwm_valid).2.flash
      = state_pwm_write_fails.flash ∧
    (application_function_config_write state_pwm_write_fails).1 = app_action_error := by
  decide

/-- C15 (the code at the failing input): the command `gpio-mode 5 pwm 0 -1 0`,
with the negative `max_duty` -1, returns normal output and persists
`max_duty` 65535 for the pin, while `gpio-set 5 0 -1 0` rejects the same
value with an error result and no change. -/
theorem gpio_mode_accepts_negative_max_duty :
    (application_function_gpio_mode state_pwm args_mode_pwm_negative_max).1
      = app_action_normal ∧
    ((application_function_gpio_mode state_pwm args_mode_pwm_negative_max).2.flash.gpios.entry.getD
      5 gpio_config_init).pwm.max_duty = 65535 ∧
    (application_function_gpio_mode state_pwm args_mode_pwm_negative_max).2.flash
      ≠ state_pwm.flash ∧
    application_function_gpio_set state_pwm args_set_pwm_negative_max
      = (app_action_error, state_pwm) := by
  decide

/-! ## The pin on the special register -/

theorem gpio_mode_from_string_names :
    gpio_mode_from_string "disabled" = gpio_disabled ∧
    gpio_mode_from_string "input" = gpio_input ∧
    gpio_mode_from_string "counter" = gpio_counter ∧
    gpio_mode_from_string "output" = gpio_output ∧
    gpio_mode_from_string "timer" = gpio_timer ∧
    gpio_mode_from_string "pwm" = gpio_pwm ∧
    gpio_mode_from_string "i2c" = gpio_i2c := by
  decide

/-- C13 (as stated, refuted): the command `gpio-mode 16 timer up 500 1 1` on
gpio16, the pin with the rtc flag, returns normal output and persists the
timer mode for that pin. -/
theorem gpio16_timer_counterexample :
    find_gpio (state_boot config_default).gpios 16 = some (10, pin_gpio16) ∧
    pin_gpio16.rtc_gpio = true ∧
    (application_function_gpio_mode (state_boot config_default) args_mode_timer_gpio16).1
      = app_action_normal ∧
    ((application_function_gpio_mode (state_boot config_default)
      args_mode_timer_gpio16).2.flash.gpios.entry.getD 10 gpio_config_init).mode = gpio_timer ∧
    ((state_boot config_default).flash.gpios.entry.getD 10 gpio_config_init).mode
      = gpio_disabled := by
  decide

/-- C13 (amended): gpio16 is the only row of the static table with the rtc
flag, and for a pin with the rtc flag a mode-set command that requests
counter, pwm or i2c returns an error result and persists nothing, whereas a
request for disabled or input succeeds, and so does a request for output with
a startup value and a request for timer with well-formed arguments (direction
up or down, delay of at least 10 ms, repeat, autotrigger): timer mode is not
refused on this pin. -/
theorem gpio_mode_rtc_pin (s : state_t) (src : List arg_t) (gpio_index : Int)
    (current : Nat) (gpio : gpio_t) (name : String)
    (hpin : parse_int 1 src = some gpio_index)
    (hfind : find_gpio s.gpios gpio_index = some (current, gpio))
    (hrtc : gpio.rtc_gpio = true)
    (hname : parse_string 2 src = some name) :
    (∀ g ∈ gpios, g.rtc_gpio = true ↔ g.index = 16) ∧
    (gpio_mode_from_string name = gpio_counter ∨ gpio_mode_from_string name = gpio_pwm ∨
        gpio_mode_from_string name = gpio_i2c →
      (application_function_gpio_mode s src).1 = app_action_error ∧
      (application_function_gpio_mode s src).2.flash = s.flash) ∧
    (gpio_mode_from_string name = gpio_disabled ∨ gpio_mode_from_string name = gpio_input →
      (application_function_gpio_mode s src).1 = app_action_normal) ∧
    (gpio_mode_from_string name = gpio_output → parse_int 3 src ≠ none →
      (application_function_gpio_mode s src).1 = app_action_normal) ∧
    (gpio_mode_from_string name = gpio_timer →
      ∀ (dir : String) (delay repeat_ autotrigger : Int),
        parse_string 3 src = some dir → dir = "up" ∨ dir = "down" →
        parse_int 4 src = some delay → parse_int 5 src = some repeat_ →
        parse_int 6 src = some autotrigger → 10 ≤ delay →
        (application_function_gpio_mode s src).1 = app_action_normal) := by
  refine ⟨by decide, ?_, ?_, ?_, ?_⟩
  · intro hm
    have hne : gpio_mode_from_string name ≠ gpio_mode_error := by
      rcases hm with h | h | h <;> rw [h] <;> decide
    rw [gpio_mode_eq s src gpio_index current gpio name hpin hfind hname hne]
    have hargs : gpio_mode_arguments (gpio_mode_from_string name) gpio src
        (s.flash.gpios.entry.getD gpio.id gpio_config_init) = none := by
      rcases hm with h | h | h <;> rw [h] <;> simp [gpio_mode_arguments, hrtc]
    rw [hargs]
    exact ⟨rfl, rfl⟩
  · intro hm
    have hne : gpio_mode_from_string name ≠ gpio_mode_error := by
      rcases hm with h | h <;> rw [h] <;> decide
    rw [gpio_mode_eq s src gpio_index current gpio name hpin hfind hname hne]
    rcases hm with h | h <;> rw [h] <;> rfl
  · intro hm harg
    have hne : gpio_mode_from_string name ≠ gpio_mode_error := by
      rw [hm]
      decide
    rw [gpio_mode_eq s src gpio_index current gpio name hpin hfind hname hne, hm]
    cases h3 : parse_int 3 src with
    | none => exact absurd h3 harg
    | some v => simp [gpio_mode_arguments, h3]
  · intro hm dir delay repeat_ autotrigger h3 hdir h4 h5 h6 hdelay
    have hne : gpio_mode_from_string name ≠ gpio_mode_error := by
      rw [hm]
      decide
    rw [gpio_mode_eq s src gpio_index current gpio name hpin hfind hname hne, hm]
    have hlt : ¬ delay < 10 := by omega
    simp [gpio_mode_arguments, h3, hdir, h4, h5, h6, hlt]

theorem gpio_mode_rtc_pin_witness :
    ((application_function_gpio_mode (state_boot config_default) args_mode_counter_gpio16).1
        = app_action_error ∧
      (application_function_gpio_mode (state_boot config_default) args_mode_counter_gpio16).2.flash
        = (state_boot config_default).flash) ∧
    (application_function_gpio_mode (state_boot config_default) args_mode_timer_gpio16).1
      = app_action_normal := by
  obtain ⟨_, hc, _⟩ := gpio_mode_rtc_pin (state_boot config_default) args_mode_counter_gpio16
    16 10 pin_gpio16 "counter" (by decide) (by decide) (by decide) (by decide)
  obtain ⟨_, _, _, _, ht⟩ := gpio_mode_rtc_pin (state_boot config_default)
    args_mode_timer_gpio16 16 10 pin_gpio16 "timer" (by decide) (by decide) (by decide)
    (by decide)
  exact ⟨hc (by decide), ht (by decide) "up" 500 1 1 (by decide) (by decide) (by decide)
    (by decide) (by decide) (by decide)⟩

/-! ## Rejected writes and unknown pins -/

/-- C16: a write command addressed to a registered pin whose configured mode
is disabled, input or i2c returns an error result and leaves the whole state
unchanged (every pin's runtime members and all hardware registers, hence
every output level), whatever the further arguments are. -/
theorem gpio_set_rejects_mode (s : state_t) (src : List arg_t) (gpio_index : Int)
    (current : Nat) (gpio : gpio_t)
    (hpin : parse_int 1 src = some gpio_index)
    (hfind : find_gpio s.gpios gpio_index = some (current, gpio))
    (hmode : (get_config s.config gpio).mode = gpio_disabled ∨
      (get_config s.config gpio).mode = gpio_input ∨
      (get_config s.config gpio).mode = gpio_i2c) :
    application_function_gpio_set s src = (app_action_error, s) := by
  unfold application_function_gpio_set
  rcases hmode with h | h | h <;> simp [hpin, hfind, h]

theorem gpio_set_rejects_mode_witness :
    application_function_gpio_set (state_boot config_default) args_set_gpio4
      = (app_action_error, state_boot config_default) :=
  gpio_set_rejects_mode (state_boot config_default) args_set_gpio4 4 4 pin_gpio4
    (by decide) (by decide) (by decide)

/-- The indices of a table that carries the registry constants. -/
theorem registry_indices (l : List gpio_t) (hreg : registry_ok l) :
    l.map (fun g => (g.index : Int)) = [0, 1, 2, 3, 4, 5, 12, 13, 14, 15, 16] := by
  have h : (l.map descriptor).map (fun d => (d.2.1 : Int))
      = (gpios.map descriptor).map (fun d => (d.2.1 : Int)) := by
    rw [hreg]
  rw [List.map_map] at h
  exact h.trans (by decide)

theorem find_gpio_from_none (index : Int) (l : List gpio_t) :
    ∀ c0, (∀ g ∈ l, (g.index : Int) ≠ index) → find_gpio_from index c0 l = none := by
  induction l with
  | nil => intro c0 _; rfl
  | cons x xs ih =>
    intro c0 h
    have hx : ¬ (x.index : Int) = index := h x (List.mem_cons_self _ _)
    simp only [find_gpio_from, hx, if_false]
    exact ih (c0 + 1) (fun g hg => h g (List.mem_cons_of_mem _ hg))

/-- C17: in a table that carries the registry constants, `find_gpio i` finds
a pin exactly when `i` is one of 0, 1, 2, 3, 4, 5, 12, 13, 14, 15, 16; what it
returns is a row of the table with index `i`, and no other row has that
index; and for an integer `i` that it does not find, the read, the write and
the mode-set command addressed to `i` return an error result and leave the
whole state unchanged. -/
theorem find_gpio_registered (s : state_t) (src : List arg_t) (i : Int)
    (hreg : registry_ok s.gpios) (hpin : parse_int 1 src = some i) :
    ((find_gpio s.gpios i).isSome = true ↔
      i ∈ ([0, 1, 2, 3, 4, 5, 12, 13, 14, 15, 16] : List Int)) ∧
    (∀ (current : Nat) (gpio : gpio_t), find_gpio s.gpios i = some (current, gpio) →
      s.gpios[current]? = some gpio ∧ (gpio.index : Int) = i ∧
      ∀ (other : Nat) (g : gpio_t), s.gpios[other]? = some g → (g.index : Int) = i →
        other = current) ∧
    (find_gpio s.gpios i = none →
      application_function_gpio_get s src = (app_action_error, s) ∧
      application_function_gpio_set s src = (app_action_error, s) ∧
      application_function_gpio_mode s src = (app_action_error, s)) := by
  have hidx := registry_indices s.gpios hreg
  refine ⟨⟨fun h => ?_, fun h => ?_⟩, fun current gpio hf => ?_, fun hf => ?_⟩
  · cases hf : find_gpio s.gpios i with
    | none => rw [hf] at h; cases h
    | some p =>
      obtain ⟨current, gpio⟩ := p
      obtain ⟨hrow, hi⟩ := find_gpio_some _ _ _ _ hf
      have hmem : gpio ∈ s.gpios := List.getElem?_mem hrow
      rw [← hidx, ← hi]
      exact List.mem_map_of_mem _ hmem
  · rw [← hidx] at h
    obtain ⟨g, hg, hgi⟩ := List.mem_map.1 h
    obtain ⟨c, hc⟩ := List.getElem?_of_mem hg
    have := find_gpio_registry s.gpios hreg c g hc
    rw [hgi] at this
    rw [this]
    rfl
  · obtain ⟨hrow, hi⟩ := find_gpio_some _ _ _ _ hf
    refine ⟨hrow, hi, fun other g hg hgi => ?_⟩
    by_contra hne
    have hap := registry_apart s.gpios hreg other current g gpio hg hrow hne
    apply hap.1
    have : (g.index : Int) = (gpio.index : Int) := hgi.trans hi.symm
    exact_mod_cast this
  · refine ⟨?_, ?_, ?_⟩
    · simp [application_function_gpio_get, hpin, hf]
    · simp [application_function_gpio_set, hpin, hf]
    · simp [application_function_gpio_mode, hpin, hf]

theorem find_gpio_registered_witness :
    (find_gpio (state_boot config_default).gpios 16).isSome = true ∧
    find_gpio (state_boot config_default).gpios 7 = none ∧
    application_function_gpio_get (state_boot config_default) args_gpio7
      = (app_action_error, state_boot config_default) ∧
    application_function_gpio_set (state_boot config_default) args_gpio7
      = (app_action_error, state_boot config_default) ∧
    application_function_gpio_mode (state_boot config_default) args_gpio7
      = (app_action_error, state_boot config_default) := by
  obtain ⟨h16, _, _⟩ := find_gpio_registered (state_boot config_default)
    args_mode_counter_gpio16 16 (by decide) (by decide)
  obtain ⟨_, _, h7⟩ := find_gpio_registered (state_boot config_default) args_gpio7 7
    (by decide) (by decide)
  exact ⟨h16.2 (by decide), by decide, h7 (by decide)⟩

/-! ## Mode names -/

theorem gpio_mode_from_string_in_unknown (name : String) (l : List (gpio_mode_t × String))
    (h : name ∉ l.map Prod.snd) : gpio_mode_from_string_in name l = gpio_mode_error := by
  induction l with
  | nil => rfl
  | cons x xs ih =>
    simp only [List.map_cons, List.mem_cons, not_or] at h
    simp only [gpio_mode_from_string_in, h.1, if_false]
    exact ih h.2

/-- C18: `gpio_mode_from_string` maps the name of each of the seven modes of
the trait table (disabled, input, counter, output, timer, pwm, i2c, pairwise
distinct names) back to that mode, and maps every string that is not one of
these names to `gpio_mode_error`; a mode-set command with such a mode name
returns an error result and leaves the whole state unchanged, so nothing is
persisted. -/
theorem gpio_mode_from_string_roundtrip (s : state_t) (src : List arg_t) (gpio_index : Int)
    (name : String)
    (hpin : parse_int 1 src = some gpio_index) (hname : parse_string 2 src = some name)
    (hunknown : name ∉ ["disabled", "input", "counter", "output", "timer", "pwm", "i2c"]) :
    gpio_mode_trait.map Prod.fst = [gpio_disabled, gpio_input, gpio_counter, gpio_output,
      gpio_timer, gpio_pwm, gpio_i2c] ∧
    gpio_mode_trait.map Prod.snd
      = ["disabled", "input", "counter", "output", "timer", "pwm", "i2c"] ∧
    (gpio_mode_trait.map Prod.snd).Nodup ∧
    (∀ entry ∈ gpio_mode_trait, gpio_mode_from_string entry.2 = entry.1) ∧
    gpio_mode_from_string name = gpio_mode_error ∧
    application_function_gpio_mode s src = (app_action_error, s) := by
  have herr : gpio_mode_from_string name = gpio_mode_error :=
    gpio_mode_from_string_in_unknown name gpio_mode_trait hunknown
  refine ⟨rfl, rfl, by decide, by decide, herr, ?_⟩
  unfold application_function_gpio_mode
  simp only [hpin, hname]
  cases find_gpio s.gpios gpio_index with
  | none => rfl
  | some p => simp [herr]

theorem gpio_mode_from_string_roundtrip_witness :
    gpio_mode_from_string "timer" = gpio_timer ∧
    gpio_mode_from_string "servo" = gpio_mode_error ∧
    application_function_gpio_mode state_pwm args_mode_servo = (app_action_error, state_pwm) := by
  obtain ⟨_, _, _, hall, herr, hcmd⟩ := gpio_mode_from_string_roundtrip state_pwm
    args_mode_servo 5 "servo" (by decide) (by decide) (by decide)
  exact ⟨hall (gpio_timer, "timer") (by decide), herr, hcmd⟩

/-! ## Countdown fields over a tick -/

/-- The three per-tick counters of a row after the loop body, whatever the
hardware is. -/
theorem periodic_pin_fields (config : config_t) (g : gpio_t) (a : hw_t × Bool) :
    (periodic_pin config g a).1.counter.debounce =
      (if (get_config config g).mode = gpio_counter ∧ g.counter.debounce ≠ 0 then
        (if g.counter.debounce ≥ 10 then g.counter.debounce - 10 else 0)
      else g.counter.debounce) ∧
    (periodic_pin config g a).1.timer.delay =
      (if (get_config config g).mode = gpio_timer ∧ g.timer.delay > 0 then
        (if g.timer.delay > 10 then g.timer.delay - 10
         else if (get_config config g).timer.repeat_ = true then
           wrap32 (get_config config g).timer.delay
         else 0)
      else g.timer.delay) ∧
    (periodic_pin config g a).1.pwm.delay_current =
      (if (get_config config g).mode = gpio_pwm ∧ g.pwm.delay_top > 0 then
        (if wrap32 (g.pwm.delay_current + 1) > g.pwm.delay_top then 0
         else wrap32 (g.pwm.delay_current + 1))
      else g.pwm.delay_current) ∧
    (periodic_pin config g a).1.pwm.delay_top = g.pwm.delay_top ∧
    descriptor (periodic_pin config g a).1 = descriptor g := by
  obtain ⟨_, ct, cp, _⟩ := periodic_counter_effect (get_config config g) g a.1
  obtain ⟨_, tc, tp, _⟩ := periodic_timer_effect (get_config config g)
    (periodic_counter (get_config config g) g a.1).1
    (periodic_counter (get_config config g) g a.1).2
  obtain ⟨_, pc, pt, _⟩ := periodic_pwm_effect (get_config config g)
    (periodic_timer (get_config config g) (periodic_counter (get_config config g) g a.1).1
      (periodic_counter (get_config config g) g a.1).2).1
    ((periodic_timer (get_config config g) (periodic_counter (get_config config g) g a.1).1
      (periodic_counter (get_config config g) g a.1).2).2, a.2)
  have hc : (periodic_counter (get_config config g) g a.1).1.counter.debounce =
      (if (get_config config g).mode = gpio_counter ∧ g.counter.debounce ≠ 0 then
        (if g.counter.debounce ≥ 10 then g.counter.debounce - 10 else 0)
      else g.counter.debounce) := by
    simp only [periodic_counter]
    split_ifs <;> rfl
  have ht : ∀ (x : gpio_t) (hw : hw_t), (periodic_timer (get_config config g) x hw).1.timer.delay =
      (if (get_config config g).mode = gpio_timer ∧ x.timer.delay > 0 then
        (if x.timer.delay > 10 then x.timer.delay - 10
         else if (get_config config g).timer.repeat_ = true then
           wrap32 (get_config config g).timer.delay
         else 0)
      else x.timer.delay) := by
    intro x hw
    by_cases hm : (get_config config g).mode = gpio_timer ∧ x.timer.delay > 0
    · by_cases h10 : x.timer.delay > 10
      · have hge : x.timer.delay ≥ 10 := by omega
        have hnz : ¬ x.timer.delay - 10 = 0 := by omega
        simp only [periodic_timer, hm, and_self, if_true, hge, hnz, if_false, h10]
      · have hz : (if x.timer.delay ≥ 10 then { x with timer.delay := x.timer.delay - 10 }
            else { x with timer.delay := 0 }) = { x with timer.delay := 0 } := by
          split_ifs with hge
          · have : x.timer.delay - 10 = 0 := by omega
            rw [this]
          · rfl
        simp only [periodic_timer, hm, and_self, if_true, hz, h10, if_false]
        split_ifs <;> rfl
    · simp only [periodic_timer, hm, if_false]
  have hp : ∀ (x : gpio_t) (b : hw_t × Bool),
      (periodic_pwm (get_config config g) x b).1.pwm.delay_current =
        (if (get_config config g).mode = gpio_pwm ∧ x.pwm.delay_top > 0 then
          (if wrap32 (x.pwm.delay_current + 1) > x.pwm.delay_top then 0
           else wrap32 (x.pwm.delay_current + 1))
        else x.pwm.delay_current) ∧
      (periodic_pwm (get_config config g) x b).1.pwm.delay_top = x.pwm.delay_top := by
    intro x b
    simp only [periodic_pwm]
    split_ifs
    · simp only [pwm_ramp_step]
      split_ifs <;> exact ⟨rfl, rfl⟩
    · exact ⟨rfl, rfl⟩
    · exact ⟨rfl, rfl⟩
  unfold periodic_pin
  simp only []
  refine ⟨?_, ?_, ?_, ?_, periodic_pin_descriptor config g a⟩
  · rw [pc, tc, hc]
  · rw [pt, ht, ct]
  · rw [(hp _ _).1, tp, cp]
  · rw [(hp _ _).2, tp, cp]

/-- Row `i` after the scheduler loop is the loop body applied to row `i`. -/
theorem periodic_pins_row_any (s : state_t) (i : Nat) (g : gpio_t) (hg : s.gpios[i]? = some g) :
    ∃ a' : hw_t × Bool, (periodic_pins s).gpios[i]? = some (periodic_pin s.config g a').1 := by
  obtain ⟨a', _, hrow, _⟩ := for_each_gpio_at (fun _ => periodic_pin s.config)
    (fun _ : hw_t × Bool => ()) s.gpios i g hg (fun _ _ _ _ _ _ => rfl) 0 (s.hw, false)
  exact ⟨a', by simpa [periodic_pins] using hrow⟩

/-- The trigger operation either keeps a row's delay-remaining or, for a timer
row, loads the configured delay. -/
theorem gpios_trigger_output_delay (s : state_t) (gpio_name : Int) (i : Nat) (g : gpio_t)
    (hg : s.gpios[i]? = some g) :
    ∃ g', (gpios_trigger_output s gpio_name).2.gpios[i]? = some g' ∧
      g'.counter = g.counter ∧ g'.pwm = g.pwm ∧
      (g'.timer.delay = g.timer.delay ∨
        ((get_config s.config g).mode = gpio_timer ∧
          g'.timer.delay = wrap32 (get_config s.config g).timer.delay)) := by
  unfold gpios_trigger_output
  cases hf : find_gpio s.gpios gpio_name with
  | none => exact ⟨g, hg, rfl, rfl, Or.inl rfl⟩
  | some p =>
    obtain ⟨current, gpio⟩ := p
    obtain ⟨hrow, _⟩ := find_gpio_some _ _ _ _ hf
    cases hm : (get_config s.config gpio).mode <;> simp only [hm]
    case gpio_timer =>
      by_cases hi : current = i
      · subst hi
        rw [hrow] at hg
        simp only [Option.some.injEq] at hg
        subst hg
        have hlt : current < s.gpios.length := (List.getElem?_eq_some.1 hrow).1
        refine ⟨(trigger_timer s.config gpio s.hw true).1, by simp [List.getElem?_set, hlt],
          rfl, rfl, Or.inr ⟨hm, rfl⟩⟩
      · exact ⟨g, by simp [List.getElem?_set, hi, hg], rfl, rfl, Or.inl rfl⟩
    all_goals exact ⟨g, hg, rfl, rfl, Or.inl rfl⟩

theorem periodic_status_trigger_delay (s : state_t) (i : Nat) (g : gpio_t)
    (hg : s.gpios[i]? = some g) :
    ∃ g', (periodic_status_trigger s).gpios[i]? = some g' ∧
      g'.counter = g.counter ∧ g'.pwm = g.pwm ∧
      (g'.timer.delay = g.timer.delay ∨
        ((get_config s.config g).mode = gpio_timer ∧
          g'.timer.delay = wrap32 (get_config s.config g).timer.delay ∧
          s.gpio_flags.counter_triggered = true)) := by
  unfold periodic_status_trigger
  by_cases h1 : s.gpio_flags.counter_triggered = true
  · by_cases h2 : s.config.stat_trigger_gpio ≥ 0
    · simp only [h1, h2, if_true]
      obtain ⟨g', r, c, p, d⟩ := gpios_trigger_output_delay
        { s with gpio_flags.counter_triggered := false } s.config.stat_trigger_gpio i g hg
      refine ⟨g', r, c, p, ?_⟩
      rcases d with d | ⟨dm, dd⟩
      · exact Or.inl d
      · exact Or.inr ⟨dm, dd, trivial⟩
    · simp only [h1, h2, if_true, if_false]
      exact ⟨g, hg, rfl, rfl, Or.inl rfl⟩
  · simp only [h1]
    exact ⟨g, hg, rfl, rfl, Or.inl rfl⟩

/-- C14 (as stated, refuted): for the pwm pin gpio5 with ramp delay 5, right
after initialisation, one scheduler tick takes the ramp-delay counter from 0
to 1. -/
theorem countdown_counterexample :
    (state_ramping.gpios.getD 5 pin_gpio5).pwm.delay_current = 0 ∧
    ((gpios_periodic state_ramping 0).gpios.getD 5 pin_gpio5).pwm.delay_current = 1 := by
  decide

/-- C14 (amended): for every scheduler tick and every pin (row `i`): a
debounce-remaining that is not negative is after the tick no larger than
before and not negative; a delay-remaining that is not negative is after the
tick no larger than before and not negative, unless the pin is a timer whose
delay-remaining was reloaded with the configured delay on that tick, which
happens when a repeating timer expires or when a counted edge was pending for
the status trigger; and the pwm ramp-delay counter is not a countdown: on a
pwm pin with a positive ramp delay it goes up by one per tick and is reset to
0 when it would exceed the ramp delay, and on any other pin it is unchanged,
so a counter within `[0, ramp delay]` stays there. -/
theorem periodic_countdowns (s : state_t) (adc i : Nat) (g : gpio_t)
    (hg : s.gpios[i]? = some g) :
    ∃ g', (gpios_periodic s adc).gpios[i]? = some g' ∧
      (0 ≤ g.counter.debounce →
        0 ≤ g'.counter.debounce ∧ g'.counter.debounce ≤ g.counter.debounce) ∧
      (0 ≤ g.timer.delay →
        (0 ≤ g'.timer.delay ∧ g'.timer.delay ≤ g.timer.delay) ∨
        ((get_config s.config g).mode = gpio_timer ∧
          g'.timer.delay = wrap32 (get_config s.config g).timer.delay ∧
          (((get_config s.config g).timer.repeat_ = true ∧ 0 < g.timer.delay ∧
              g.timer.delay ≤ 10) ∨
            s.gpio_flags.counter_triggered = true))) ∧
      g'.pwm.delay_current =
        (if (get_config s.config g).mode = gpio_pwm ∧ g.pwm.delay_top > 0 then
          (if wrap32 (g.pwm.delay_current + 1) > g.pwm.delay_top then 0
           else wrap32 (g.pwm.delay_current + 1))
        else g.pwm.delay_current) ∧
      (0 ≤ g.pwm.delay_current → g.pwm.delay_current ≤ g.pwm.delay_top →
        g.pwm.delay_top < INT_MAX →
        0 ≤ g'.pwm.delay_current ∧ g'.pwm.delay_current ≤ g.pwm.delay_top) := by
  obtain ⟨fc, ff, fg, fh⟩ := analog_sample_frame s adc
  obtain ⟨pc, pf, _⟩ := periodic_pins_frame (analog_sample s adc)
  obtain ⟨a', hrow⟩ := periodic_pins_row_any (analog_sample s adc) i g (by rw [fg]; exact hg)
  rw [fc] at hrow
  obtain ⟨hdeb, hdel, hcur, _, hdesc⟩ := periodic_pin_fields s.config g a'
  obtain ⟨g', hg', hc, hp, hd⟩ :=
    periodic_status_trigger_delay (periodic_pins (analog_sample s adc)) i _ hrow
  rw [pc, fc, get_config_congr _ _ g hdesc, pf, ff] at hd
  have hcur' : g'.pwm.delay_current =
      (if (get_config s.config g).mode = gpio_pwm ∧ g.pwm.delay_top > 0 then
        (if wrap32 (g.pwm.delay_current + 1) > g.pwm.delay_top then 0
         else wrap32 (g.pwm.delay_current + 1))
      else g.pwm.delay_current) := by
    rw [hp, hcur]
  refine ⟨g', hg', ?_, ?_, hcur', ?_⟩
  · intro h0
    rw [hc, hdeb]
    split_ifs <;> omega
  · intro h0
    rcases hd with hd | ⟨hm, hd, hflag⟩
    · rw [hd, hdel]
      by_cases hm : (get_config s.config g).mode = gpio_timer ∧ g.timer.delay > 0
      · rw [if_pos hm]
        by_cases h10 : g.timer.delay > 10
        · rw [if_pos h10]
          left
          omega
        · rw [if_neg h10]
          by_cases hrep : (get_config s.config g).timer.repeat_ = true
          · rw [if_pos hrep]
            right
            exact ⟨hm.1, rfl, Or.inl ⟨hrep, hm.2, by omega⟩⟩
          · rw [if_neg hrep]
            left
            omega
      · rw [if_neg hm]
        left
        omega
    · right
      exact ⟨hm, hd, Or.inr hflag⟩
  · intro h0 h1 h2
    unfold INT_MAX at h2
    rw [hcur']
    have hw : wrap32 (g.pwm.delay_current + 1) = g.pwm.delay_current + 1 :=
      wrap32_of_range _ (by omega) (by omega)
    rw [hw]
    split_ifs <;> omega

theorem periodic_countdowns_witness :
    ∃ g', (gpios_periodic state_counting 0).gpios[2]? = some g' ∧
      (0 ≤ g'.counter.debounce ∧ g'.counter.debounce ≤ 30) ∧
      g'.pwm.delay_current = 0 := by
  obtain ⟨g', h1, h2, _, h3, _⟩ := periodic_countdowns state_counting 0 2 pin_counting
    (by decide)
  exact ⟨g', h1, h2 (by decide), h3.trans (by decide)⟩

/-! ## PWM channel assignment at boot -/

/-- One iteration of the first loop of `gpios_init`, seen from the channel
bookkeeping. -/
theorem gpios_init_scan_step (config : config_t) (B : Nat) (g : gpio_t) (a : init_scan_t) :
    (gpios_init_scan config B g a).2.pwmchannel =
      (if is_pwm config g = true ∧ a.pwmchannel < B then a.pwmchannel + 1 else a.pwmchannel) ∧
    (gpios_init_scan config B g a).2.pwm_duty_init =
      (if is_pwm config g = true ∧ a.pwmchannel < B then
        a.pwm_duty_init ++ [(get_config config g).pwm.min_duty] else a.pwm_duty_init) ∧
    (gpios_init_scan config B g a).1.pwm.channel =
      (if is_pwm config g = true ∧ a.pwmchannel < B then (a.pwmchannel : Int)
       else g.pwm.channel) := by
  simp only [gpios_init_scan, is_pwm, decide_eq_true_eq]
  split_ifs <;> simp_all

theorem pwm_rank_zero (config : config_t) (l : List gpio_t) : pwm_rank config l 0 = 0 := by
  simp [pwm_rank, pwm_pins]

theorem pwm_rank_succ (config : config_t) (x : gpio_t) (xs : List gpio_t) (i : Nat) :
    pwm_rank config (x :: xs) (i + 1) =
      (if is_pwm config x = true then 1 else 0) + pwm_rank config xs i := by
  simp only [pwm_rank, pwm_pins, List.take_succ_cons, List.filter_cons]
  split_ifs
  · simp
    omega
  · simp

/-- The first loop of `gpios_init` started with `a.pwmchannel` channels
already handed out. -/
theorem gpios_init_scan_channels (config : config_t) (B : Nat) :
    ∀ (l : List gpio_t) (c : Nat) (a : init_scan_t), a.pwmchannel ≤ B →
      (for_each_gpio (fun _ => gpios_init_scan config B) c l a).2.pwmchannel =
        min (a.pwmchannel + (pwm_pins config l).length) B ∧
      (for_each_gpio (fun _ => gpios_init_scan config B) c l a).2.pwm_duty_init =
        a.pwm_duty_init ++ ((pwm_pins config l).take (B - a.pwmchannel)).map
          (fun g => (get_config config g).pwm.min_duty) ∧
      ∀ (i : Nat) (g : gpio_t), l[i]? = some g →
        ∃ g', (for_each_gpio (fun _ => gpios_init_scan config B) c l a).1[i]? = some g' ∧
          descriptor g' = descriptor g ∧
          g'.pwm.channel =
            (if is_pwm config g = true ∧ a.pwmchannel + pwm_rank config l i < B then
              ((a.pwmchannel + pwm_rank config l i : Nat) : Int)
             else g.pwm.channel) := by
  intro l
  induction l with
  | nil =>
    intro c a ha
    refine ⟨?_, ?_, ?_⟩
    · simp [for_each_gpio, pwm_pins, ha]
    · simp [for_each_gpio, pwm_pins]
    · intro i g hg
      simp at hg
  | cons x xs ih =>
    intro c a ha
    obtain ⟨s1, s2, s3⟩ := gpios_init_scan_step config B x a
    have ha' : (gpios_init_scan config B x a).2.pwmchannel ≤ B := by
      rw [s1]
      split_ifs with h
      · omega
      · exact ha
    obtain ⟨i1, i2, i3⟩ := ih (c + 1) (gpios_init_scan config B x a).2 ha'
    simp only [for_each_gpio]
    refine ⟨?_, ?_, ?_⟩
    · rw [i1, s1]
      by_cases hp : is_pwm config x = true
      · by_cases hb : a.pwmchannel < B
        · simp only [hp, hb, and_self, if_true, pwm_pins, List.filter_cons, List.length_cons]
          congr 1
          omega
        · have hB : a.pwmchannel = B := by omega
          simp only [hp, hb, and_false, if_false, pwm_pins, List.filter_cons, if_true,
            List.length_cons]
          omega
      · simp only [hp, false_and, if_false, pwm_pins, List.filter_cons]
        simp
    · rw [i2, s2, s1]
      by_cases hp : is_pwm config x = true
      · by_cases hb : a.pwmchannel < B
        · have hB : B - a.pwmchannel = (B - (a.pwmchannel + 1)) + 1 := by omega
          simp only [hp, hb, and_self, if_true, pwm_pins, List.filter_cons]
          rw [hB, List.take_succ_cons, List.map_cons, List.append_assoc]
          rfl
        · have hB : B - a.pwmchannel = 0 := by omega
          simp only [hp, hb, and_false, if_false, hB, List.take_zero]
      · simp only [hp, false_and, if_false, pwm_pins, List.filter_cons]
        simp
    · intro i g hg
      cases i with
      | zero =>
        simp only [List.getElem?_cons_zero, Option.some.injEq] at hg
        subst hg
        refine ⟨_, by simp, gpios_init_scan_descriptor config B x a, ?_⟩
        rw [s3, pwm_rank_zero]
        simp
      | succ j =>
        simp only [List.getElem?_cons_succ] at hg
        obtain ⟨g', r1, r2, r3⟩ := i3 j g hg
        refine ⟨g', by simpa using r1, r2, ?_⟩
        rw [r3, s1, pwm_rank_succ]
        by_cases hp : is_pwm config x = true
        · by_cases hb : a.pwmchannel < B
          · simp only [hp, hb, and_self, if_true]
            have e : a.pwmchannel + 1 + pwm_rank config xs j
                = a.pwmchannel + (1 + pwm_rank config xs j) := by omega
            rw [e]
          · simp only [hp, hb, and_false, if_false, if_true]
            have n1 : ¬ (a.pwmchannel + pwm_rank config xs j < B) := by omega
            have n2 : ¬ (a.pwmchannel + (1 + pwm_rank config xs j) < B) := by omega
            simp only [n1, n2, and_false, if_false]
        · simp only [hp, false_and, if_false, Bool.false_eq_true, zero_add]

/-- The per-mode initialisation keeps a pin's channel and every duty
register. -/
theorem init_fn_pwm (config : config_t) (mode : gpio_mode_t) (g : gpio_t) (hw : hw_t) :
    (init_fn config mode g hw).1.pwm.channel = g.pwm.channel ∧
    (init_fn config mode g hw).2.pwm_duty = hw.pwm_duty := by
  cases mode <;>
    simp only [init_fn, gpio_init_disabled, gpio_init_input, gpio_init_counter, gpio_init_output,
      gpio_init_timer, gpio_init_pwm, gpio_init_i2c, trigger_timer, set_output, gpio_output_set,
      arm_counter] <;>
    (try split_ifs) <;> first | exact ⟨rfl, rfl⟩ | exact ⟨trivial, rfl⟩ | exact ⟨rfl, trivial⟩ | exact ⟨trivial, trivial⟩

/-- The channel of row `i` after `gpios_init`. -/
theorem gpios_init_channel_row (B : Nat) (s : state_t) (i : Nat) (g : gpio_t)
    (hg : s.gpios[i]? = some g) :
    ∃ g', (gpios_init B s).gpios[i]? = some g' ∧ descriptor g' = descriptor g ∧
      g'.pwm.channel =
        (if is_pwm s.config g = true ∧ pwm_rank s.config s.gpios i < B then
          ((pwm_rank s.config s.gpios i : Nat) : Int)
         else g.pwm.channel) := by
  obtain ⟨_, _, hrows⟩ := gpios_init_scan_channels s.config B s.gpios 0 init_scan_start
    (Nat.zero_le B)
  obtain ⟨g1, r1, r2, r3⟩ := hrows i g hg
  obtain ⟨a', _, hrow, _⟩ := for_each_gpio_at
    (fun current gpio hw =>
      init_fn s.config (s.config.gpios.entry.getD current gpio_config_init).mode gpio hw)
    (fun _ : hw_t => ())
    (for_each_gpio (fun _ => gpios_init_scan s.config B) 0 s.gpios init_scan_start).1
    i g1 r1 (fun _ _ _ _ _ _ => rfl) 0
    (gpios_init_subsystems
      (for_each_gpio (fun _ => gpios_init_scan s.config B) 0 s.gpios init_scan_start).2 s.hw)
  refine ⟨_, hrow, ?_, ?_⟩
  · rw [init_fn_descriptor, r2]
  · rw [(init_fn_pwm _ _ _ _).1, r3]
    simp [init_scan_start]

/-- The duty registers after `gpios_init`. -/
theorem gpios_init_pwm_duty (B : Nat) (s : state_t) :
    (gpios_init B s).hw.pwm_duty =
      (if 0 < min (pwm_pins s.config s.gpios).length B then
        ((pwm_pins s.config s.gpios).take B).map (fun g => (get_config s.config g).pwm.min_duty)
       else s.hw.pwm_duty) := by
  obtain ⟨h1, h2, _⟩ := gpios_init_scan_channels s.config B s.gpios 0 init_scan_start
    (Nat.zero_le B)
  have hloop := for_each_gpio_preserve
    (fun current gpio hw =>
      init_fn s.config (s.config.gpios.entry.getD current gpio_config_init).mode gpio hw)
    (fun hw : hw_t => hw.pwm_duty)
    (for_each_gpio (fun _ => gpios_init_scan s.config B) 0 s.gpios init_scan_start).1
    (fun _ _ _ c a => (init_fn_pwm _ _ _ a).2) 0
    (gpios_init_subsystems
      (for_each_gpio (fun _ => gpios_init_scan s.config B) 0 s.gpios init_scan_start).2 s.hw)
  have hi2c : ∀ a hw, (gpios_init_i2c a hw).pwm_duty = hw.pwm_duty := by
    intro a hw
    simp only [gpios_init_i2c, i2c_init]
    split_ifs <;> rfl
  have hsub : ∀ a hw, (gpios_init_subsystems a hw).pwm_duty =
      (if a.pwmchannel > 0 then a.pwm_duty_init else hw.pwm_duty) := by
    intro a hw
    simp only [gpios_init_subsystems, pwm_init]
    split_ifs <;> rfl
  show (gpios_init_i2c _ _).pwm_duty = _
  rw [hi2c]
  simp only at hloop
  rw [hloop, hsub, h1, h2]
  simp [init_scan_start]

theorem pwm_pins_rank (config : config_t) :
    ∀ (l : List gpio_t) (i : Nat) (g : gpio_t), l[i]? = some g → is_pwm config g = true →
      (pwm_pins config l)[pwm_rank config l i]? = some g := by
  intro l
  induction l with
  | nil => intro i g hg; simp at hg
  | cons x xs ih =>
    intro i g hg hp
    cases i with
    | zero =>
      simp only [List.getElem?_cons_zero, Option.some.injEq] at hg
      subst hg
      simp [pwm_rank_zero, pwm_pins, List.filter_cons, hp]
    | succ j =>
      simp only [List.getElem?_cons_succ] at hg
      have h := ih j g hg hp
      rw [pwm_rank_succ]
      by_cases hx : is_pwm config x = true
      · simp only [pwm_pins, List.filter_cons, hx, if_true]
        rw [Nat.add_comm, List.getElem?_cons_succ]
        exact h
      · simp only [pwm_pins, List.filter_cons, hx, if_false, Bool.false_eq_true, zero_add]
        exact h

theorem pwm_rank_lt (config : config_t) :
    ∀ (l : List gpio_t) (i k : Nat) (g : gpio_t), l[i]? = some g → is_pwm config g = true →
      i < k → pwm_rank config l i < pwm_rank config l k := by
  intro l
  induction l with
  | nil => intro i k g hg; simp at hg
  | cons x xs ih =>
    intro i k g hg hp hik
    obtain ⟨k', rfl⟩ : ∃ k', k = k' + 1 := ⟨k - 1, by omega⟩
    cases i with
    | zero =>
      simp only [List.getElem?_cons_zero, Option.some.injEq] at hg
      subst hg
      rw [pwm_rank_zero, pwm_rank_succ, if_pos hp]
      omega
    | succ j =>
      simp only [List.getElem?_cons_succ] at hg
      have h := ih j k' g hg hp (by omega)
      rw [pwm_rank_succ, pwm_rank_succ]
      omega

/-- C19: after `gpios_init` with channel budget `B`, a pwm-mode pin whose
rank `j` among the pwm-mode pins in registry order (counted from 0) is below
`B` has channel `j`, which is below `B` and differs from the channel of every
other such pin, and duty register `j` holds that pin's configured `min_duty`;
every other pin keeps the channel field it had; the number of duty registers
initialised is min(number of pwm-mode pins, `B`) when that is positive, and
when it is 0 the PWM subsystem is not initialised at all. -/
theorem gpios_init_assigns_channels (B : Nat) (s : state_t) :
    (∀ (i : Nat) (g : gpio_t), s.gpios[i]? = some g →
      (get_config s.config g).mode = gpio_pwm → pwm_rank s.config s.gpios i < B →
      ∃ g', (gpios_init B s).gpios[i]? = some g' ∧ descriptor g' = descriptor g ∧
        g'.pwm.channel = ((pwm_rank s.config s.gpios i : Nat) : Int) ∧
        g'.pwm.channel < (B : Int) ∧
        (gpios_init B s).hw.pwm_duty[pwm_rank s.config s.gpios i]? =
          some (get_config s.config g).pwm.min_duty ∧
        ∀ (k : Nat) (h : gpio_t), k ≠ i → s.gpios[k]? = some h →
          (get_config s.config h).mode = gpio_pwm → pwm_rank s.config s.gpios k < B →
          ∃ h', (gpios_init B s).gpios[k]? = some h' ∧ h'.pwm.channel ≠ g'.pwm.channel) ∧
    (∀ (i : Nat) (g : gpio_t), s.gpios[i]? = some g →
      ¬ ((get_config s.config g).mode = gpio_pwm ∧ pwm_rank s.config s.gpios i < B) →
      ∃ g', (gpios_init B s).gpios[i]? = some g' ∧ g'.pwm.channel = g.pwm.channel) ∧
    (0 < min (pwm_pins s.config s.gpios).length B →
      (gpios_init B s).hw.pwm_duty.length = min (pwm_pins s.config s.gpios).length B ∧
      (gpios_init B s).hw.pwm_duty =
        ((pwm_pins s.config s.gpios).take B).map
          (fun g => (get_config s.config g).pwm.min_duty)) ∧
    (min (pwm_pins s.config s.gpios).length B = 0 →
      (gpios_init B s).hw.pwm_duty = s.hw.pwm_duty) := by
  have hduty := gpios_init_pwm_duty B s
  have hassigned : ∀ (i : Nat) (g : gpio_t), s.gpios[i]? = some g →
      (get_config s.config g).mode = gpio_pwm → pwm_rank s.config s.gpios i < B →
      ∃ g', (gpios_init B s).gpios[i]? = some g' ∧ descriptor g' = descriptor g ∧
        g'.pwm.channel = ((pwm_rank s.config s.gpios i : Nat) : Int) := by
    intro i g hg hm hr
    obtain ⟨g', r1, r2, r3⟩ := gpios_init_channel_row B s i g hg
    have hp : is_pwm s.config g = true := by simp [is_pwm, hm]
    rw [if_pos ⟨hp, hr⟩] at r3
    exact ⟨g', r1, r2, r3⟩
  refine ⟨?_, ?_, ?_, ?_⟩
  · intro i g hg hm hr
    obtain ⟨g', r1, r2, r3⟩ := hassigned i g hg hm hr
    have hp : is_pwm s.config g = true := by simp [is_pwm, hm]
    have hmem := pwm_pins_rank s.config s.gpios i g hg hp
    have hlen : pwm_rank s.config s.gpios i < (pwm_pins s.config s.gpios).length :=
      (List.getElem?_eq_some.1 hmem).1
    refine ⟨g', r1, r2, r3, by rw [r3]; exact_mod_cast hr, ?_, ?_⟩
    · rw [hduty, if_pos (by omega), List.getElem?_map, List.getElem?_take_of_lt hr, hmem]
      rfl
    · intro k h hk hh hmh hrh
      obtain ⟨h', q1, _, q3⟩ := hassigned k h hh hmh hrh
      refine ⟨h', q1, ?_⟩
      rw [q3, r3]
      have hph : is_pwm s.config h = true := by simp [is_pwm, hmh]
      rcases Nat.lt_or_gt_of_ne hk with hlt | hgt
      · have := pwm_rank_lt s.config s.gpios k i h hh hph hlt
        exact_mod_cast Nat.ne_of_lt this
      · have := pwm_rank_lt s.config s.gpios i k g hg hp hgt
        exact_mod_cast Nat.ne_of_gt this
  · intro i g hg hn
    obtain ⟨g', r1, _, r3⟩ := gpios_init_channel_row B s i g hg
    have hn' : ¬ (is_pwm s.config g = true ∧ pwm_rank s.config s.gpios i < B) := by
      simpa [is_pwm] using hn
    rw [if_neg hn'] at r3
    exact ⟨g', r1, r3⟩
  · intro hpos
    rw [hduty, if_pos hpos]
    refine ⟨?_, rfl⟩
    rw [List.length_map, List.length_take]
    exact Nat.min_comm _ _
  · intro hzero
    rw [hduty, if_neg (by omega)]

theorem gpios_init_assigns_channels_witness :
    (∃ g', state_two_pwm.gpios[4]? = some g' ∧ g'.pwm.channel = 0 ∧
      state_two_pwm.hw.pwm_duty[0]? = some 200) ∧
    (∃ g', state_two_pwm.gpios[5]? = some g' ∧ g'.pwm.channel = pin_gpio5.pwm.channel) ∧
    state_two_pwm.hw.pwm_duty.length = 1 := by
  obtain ⟨h1, h2, h3, _⟩ := gpios_init_assigns_channels 1 (state_boot config_two_pwm)
  obtain ⟨g', r1, _, r3, _, r5, _⟩ := h1 4 pin_gpio4 (by decide) (by decide) (by decide)
  obtain ⟨g5, q1, q2⟩ := h2 5 pin_gpio5 (by decide) (by decide)
  exact ⟨⟨g', r1, r3.trans (by decide), r5.trans (by decide)⟩, ⟨g5, q1, q2⟩,
    (h3 (by decide)).1.trans (by decide)⟩

/-! ## A pwm pin beyond the channel budget -/

/-- C20 (evaluation of the code at the failing input): with a budget of one
channel and the pwm pins gpio4 (no ramp, `min_duty` 200) and gpio5 (ramp
delay 1), gpio4 owns channel 0 and gpio5, of rank 1, is assigned nothing and
keeps the channel field 0 of the static table.  Two scheduler ticks later the
ramp step of gpio5 has rewritten the duty of channel 0 from 200 to 230, while
with gpio5 left disabled it stays 200; and `gpios_trigger_output` on gpio5
succeeds and sets the duty of channel 0 to 65535. -/
theorem pwm_over_budget_uses_channel_zero :
    pwm_rank config_two_pwm gpios 4 = 0 ∧ pwm_rank config_two_pwm gpios 5 = 1 ∧
    (state_two_pwm.gpios.getD 4 pin_gpio4).pwm.channel = 0 ∧
    (state_two_pwm.gpios.getD 5 pin_gpio5).pwm.channel = 0 ∧
    state_two_pwm.hw.pwm_duty = [200] ∧
    (gpios_periodic (gpios_periodic state_two_pwm 0) 0).hw.pwm_duty = [230] ∧
    (gpios_periodic (gpios_periodic state_one_pwm 0) 0).hw.pwm_duty = [200] ∧
    gpios_trigger_output state_two_pwm 5 =
      (true, { state_two_pwm with
        hw := { state_two_pwm.hw with pwm_duty := [65535], pwm_starts := 1 } }) := by
  decide

/-! ## Dump -/

theorem string_format_append (a b fmt : String) (args : List format_arg_t) :
    string_format (a ++ b) fmt args = a ++ string_format b fmt args := by
  simp only [string_format, String.append_assoc]

theorem string_cat_append (a b text : String) :
    string_cat (a ++ b) text = a ++ string_cat b text := by
  simp only [string_cat, String.append_assoc]

/-- The text of a mode does not depend on what the buffer holds already. -/
theorem dump_mode_append (s : state_t) (cfg : gpio_config_entry_t) (gpio : gpio_t) (html : Bool)
    (a b : String) :
    dump_mode s cfg gpio html (a ++ b) = (dump_mode s cfg gpio html b).map (fun t => a ++ t) := by
  unfold dump_mode
  cases cfg.mode <;> simp only [string_format_append, string_cat_append, Option.map_some']
  split_ifs <;> simp only [string_format_append, string_cat_append, Option.map_some',
    Option.map_none']

theorem dump_pin_append (s : state_t) (cfgs : gpio_config_t) (gpio_in : Option gpio_t)
    (html : Bool) (current : Nat) (gpio : gpio_t) (a : String) (x : Option String) :
    dump_pin s cfgs gpio_in html current gpio (x.map (fun t => a ++ t)) =
      ((dump_pin s cfgs gpio_in html current gpio x).1,
        (dump_pin s cfgs gpio_in html current gpio x).2.map (fun t => a ++ t)) := by
  cases x with
  | none => rfl
  | some b =>
    simp only [dump_pin, Option.map_some', string_format_append, dump_mode_append]
    split_ifs
    · cases dump_mode s (cfgs.entry.getD current gpio_config_init) gpio html
          (string_format (string_format b (dump_strings html ds_id_preline)
            [format_arg_t.int (gpio.index : Int), format_arg_t.str gpio.name])
            (dump_strings html ds_id_gpio)
            [format_arg_t.int (gpio.index : Int), format_arg_t.str gpio.name]) with
      | none => rfl
      | some t => simp only [Option.map_some', string_cat_append]
    · rfl

theorem dump_pin_row (s : state_t) (cfgs : gpio_config_t) (gpio_in : Option gpio_t)
    (html : Bool) (current : Nat) (gpio : gpio_t) (x : Option String) :
    (dump_pin s cfgs gpio_in html current gpio x).1 = gpio := by
  unfold dump_pin
  cases x with
  | none => rfl
  | some b =>
    simp only
    split_ifs
    · split <;> rfl
    · rfl

theorem dump_loop_append (s : state_t) (cfgs : gpio_config_t) (gpio_in : Option gpio_t)
    (html : Bool) (a : String) :
    ∀ (l : List gpio_t) (c : Nat) (x : Option String),
      (for_each_gpio (dump_pin s cfgs gpio_in html) c l (x.map (fun t => a ++ t))).2 =
        (for_each_gpio (dump_pin s cfgs gpio_in html) c l x).2.map (fun t => a ++ t) := by
  intro l
  induction l with
  | nil => intro c x; rfl
  | cons g rest ih =>
    intro c x
    simp only [for_each_gpio]
    rw [dump_pin_append]
    exact ih (c + 1) _

theorem dump_loop_rows (s : state_t) (cfgs : gpio_config_t) (gpio_in : Option gpio_t)
    (html : Bool) :
    ∀ (l : List gpio_t) (c : Nat) (x : Option String),
      (for_each_gpio (dump_pin s cfgs gpio_in html) c l x).1 = l := by
  intro l
  induction l with
  | nil => intro c x; rfl
  | cons g rest ih =>
    intro c x
    simp only [for_each_gpio, dump_pin_row, ih]

/-- The buffer after a dump is the buffer before it followed by a text that
does not depend on the buffer. -/
theorem dump_append (s : state_t) (cfgs : gpio_config_t) (gpio_in : Option gpio_t)
    (html : Bool) (a b : String) :
    dump s (a ++ b) cfgs gpio_in html = (dump s b cfgs gpio_in html).map (fun t => a ++ t) := by
  simp only [dump, string_cat_append]
  have h := dump_loop_append s cfgs gpio_in html a s.gpios 0
    (some (string_cat b (dump_strings html ds_id_header)))
  simp only [Option.map_some'] at h
  rw [h]
  cases (for_each_gpio (dump_pin s cfgs gpio_in html) 0 s.gpios
      (some (string_cat b (dump_strings html ds_id_header)))).2 with
  | none => rfl
  | some t => simp only [Option.map_some', string_cat_append]

theorem dump_mode_some (s : state_t) (cfg : gpio_config_entry_t) (gpio : gpio_t) (html : Bool)
    (dst : String)
    (hperiod : s.gpio_flags.pwm_subsystem_active = true → pwm_get_period s.hw ≠ 0) :
    (dump_mode s cfg gpio html dst).isSome = true := by
  unfold dump_mode
  cases cfg.mode <;> simp only [Option.isSome_some]
  by_cases hact : s.gpio_flags.pwm_subsystem_active = true
  · simp only [hact, if_true, if_neg (hperiod hact), Option.isSome_some]
  · simp only [hact, Bool.false_eq_true, if_false, Option.isSome_some]

theorem dump_loop_some (s : state_t) (cfgs : gpio_config_t) (gpio_in : Option gpio_t)
    (html : Bool)
    (hperiod : s.gpio_flags.pwm_subsystem_active = true → pwm_get_period s.hw ≠ 0) :
    ∀ (l : List gpio_t) (c : Nat) (dst : String),
      (for_each_gpio (dump_pin s cfgs gpio_in html) c l (some dst)).2.isSome = true := by
  intro l
  induction l with
  | nil => intro c dst; rfl
  | cons g rest ih =>
    intro c dst
    simp only [for_each_gpio]
    have hp : ∃ t, (dump_pin s cfgs gpio_in html c g (some dst)).2 = some t := by
      simp only [dump_pin]
      split_ifs
      · have hm := dump_mode_some s (cfgs.entry.getD c gpio_config_init) g html
          (string_format (string_format dst (dump_strings html ds_id_preline)
            [format_arg_t.int (g.index : Int), format_arg_t.str g.name])
            (dump_strings html ds_id_gpio)
            [format_arg_t.int (g.index : Int), format_arg_t.str g.name]) hperiod
        obtain ⟨t, ht⟩ := Option.isSome_iff_exists.1 hm
        rw [ht]
        exact ⟨_, rfl⟩
      · exact ⟨_, rfl⟩
    obtain ⟨t, ht⟩ := hp
    rw [ht]
    exact ih (c + 1) t

theorem dump_some (s : state_t) (dst : String) (cfgs : gpio_config_t) (gpio_in : Option gpio_t)
    (html : Bool)
    (hperiod : s.gpio_flags.pwm_subsystem_active = true → pwm_get_period s.hw ≠ 0) :
    (dump s dst cfgs gpio_in html).isSome = true := by
  simp only [dump]
  obtain ⟨t, ht⟩ := Option.isSome_iff_exists.1
    (dump_loop_some s cfgs gpio_in html hperiod s.gpios 0
      (string_cat dst (dump_strings html ds_id_header)))
  rw [ht]
  rfl

/-- The dump reads a state only through the pin table, the flag of the PWM
subsystem and the hardware readings. -/
theorem dump_reads (s s2 : state_t) (dst : String) (cfgs : gpio_config_t)
    (gpio_in : Option gpio_t) (html : Bool)
    (hrows : s2.gpios = s.gpios)
    (hflag : s2.gpio_flags.pwm_subsystem_active = s.gpio_flags.pwm_subsystem_active)
    (hin : ∀ g, get_input s2.hw g = get_input s.hw g)
    (hperiod : pwm_get_period s2.hw = pwm_get_period s.hw)
    (hduty : ∀ ch, pwm_get_duty s2.hw ch = pwm_get_duty s.hw ch) :
    dump s2 dst cfgs gpio_in html = dump s dst cfgs gpio_in html := by
  have hmode : ∀ cfg gpio d, dump_mode s2 cfg gpio html d = dump_mode s cfg gpio html d := by
    intro cfg gpio d
    unfold dump_mode
    cases cfg.mode <;> simp only [hin, hflag, hperiod, hduty]
  have hpin : dump_pin s2 cfgs gpio_in html = dump_pin s cfgs gpio_in html := by
    funext c g x
    cases x with
    | none => rfl
    | some d => simp only [dump_pin, hmode]
  simp only [dump, hpin, hrows]

/-- C21: `dump` and the `gpio-dump` command leave the state as it is (the
configuration and every pin's runtime members; the loop hands back the rows
it was given); the buffer after a dump is the buffer before it followed by a
text that does not depend on the buffer, so a second dump of the same kind
right after the first appends the same text again; the dump returns a text
whenever the PWM period is not 0 while the PWM subsystem is active (the one
place where the source divides); and the text is a function of the
configuration passed in, the pin table, the flag of the PWM subsystem and the
hardware readings (pin levels, PWM period and duties) only. -/
theorem dump_idempotent (s : state_t) (src : List arg_t) (dst : String) (cfgs : gpio_config_t)
    (gpio_in : Option gpio_t) (html : Bool) :
    (application_function_gpio_dump s src dst).2.1 = s ∧
    (for_each_gpio (dump_pin s cfgs gpio_in html) 0 s.gpios (some dst)).1 = s.gpios ∧
    dump s dst cfgs gpio_in html = (dump s "" cfgs gpio_in html).map (fun t => dst ++ t) ∧
    (∀ t, dump s "" cfgs gpio_in html = some t →
      dump s dst cfgs gpio_in html = some (dst ++ t) ∧
      dump s (dst ++ t) cfgs gpio_in html = some (dst ++ t ++ t)) ∧
    ((s.gpio_flags.pwm_subsystem_active = true → pwm_get_period s.hw ≠ 0) →
      ∃ t, dump s "" cfgs gpio_in html = some t) ∧
    (∀ s2 : state_t, s2.gpios = s.gpios →
      s2.gpio_flags.pwm_subsystem_active = s.gpio_flags.pwm_subsystem_active →
      (∀ g, get_input s2.hw g = get_input s.hw g) →
      pwm_get_period s2.hw = pwm_get_period s.hw →
      (∀ ch, pwm_get_duty s2.hw ch = pwm_get_duty s.hw ch) →
      dump s2 dst cfgs gpio_in html = dump s dst cfgs gpio_in html) := by
  have happ : ∀ a : String, dump s a cfgs gpio_in html
      = (dump s "" cfgs gpio_in html).map (fun t => a ++ t) := by
    intro a
    have h := dump_append s cfgs gpio_in html a ""
    rwa [String.append_empty] at h
  refine ⟨rfl, dump_loop_rows s cfgs gpio_in html s.gpios 0 (some dst), happ dst, ?_, ?_, ?_⟩
  · intro t ht
    rw [happ dst, happ (dst ++ t), ht]
    exact ⟨rfl, rfl⟩
  · intro hperiod
    exact Option.isSome_iff_exists.1 (dump_some s "" cfgs gpio_in html hperiod)
  · intro s2 h1 h2 h3 h4 h5
    exact dump_reads s s2 dst cfgs gpio_in html h1 h2 h3 h4 h5

theorem dump_idempotent_witness :
    dump state_counting "" state_counting.config.gpios (some pin_counting) false
      = some text_counting ∧
    dump state_counting text_counting state_counting.config.gpios (some pin_counting) false
      = some (text_counting ++ text_counting) := by
  obtain ⟨_, _, _, h, _⟩ := dump_idempotent state_counting [] "" state_counting.config.gpios
    (some pin_counting) false
  have h2 := (h text_counting (by decide)).2
  rw [String.empty_append] at h2
  exact ⟨by decide, h2⟩

/-! ## The ramp step against its reference definition -/

/-- C22: for a current duty `c` and bounds `min_duty`, `max_duty` in
[0, 65535], one ramp step of the code equals the reference definition: the
pin afterwards is the pin before with the direction of the reference and the
duty written is the duty of the reference; and neither product, 115 times
max(c, min_duty, 16) on the up leg and 100 times min(c, max_duty) on the down
leg, leaves the range of a 32-bit `int`. -/
theorem pwm_ramp_step_refines (g : gpio_t) (c : Int)
    (hc0 : 0 ≤ c) (hc1 : c ≤ 65535)
    (hmin0 : 0 ≤ g.pwm.min_duty) (hmin1 : g.pwm.min_duty ≤ 65535)
    (hmax0 : 0 ≤ g.pwm.max_duty) (hmax1 : g.pwm.max_duty ≤ 65535) :
    pwm_ramp_step g c =
      ({ g with pwm.direction :=
          (ramp_reference g.pwm.direction c g.pwm.min_duty g.pwm.max_duty).1 },
        (ramp_reference g.pwm.direction c g.pwm.min_duty g.pwm.max_duty).2) ∧
    wrap32 (max (max c g.pwm.min_duty) 16 * 115) = max (max c g.pwm.min_duty) 16 * 115 ∧
    wrap32 (min c g.pwm.max_duty * 100) = min c g.pwm.max_duty * 100 := by
  refine ⟨?_, wrap32_of_range _ (by omega) (by omega), wrap32_of_range _ (by omega) (by omega)⟩
  cases hdir : g.pwm.direction with
  | gpio_up =>
    rw [pwm_ramp_step_up g c hdir hc0 hc1 hmin0 hmin1]
    have e : max c (max g.pwm.min_duty 16) * 115 / 100
        = 115 * max (max c g.pwm.min_duty) 16 / 100 := by
      rw [max_assoc, mul_comm]
    simp only [ramp_reference, e, ge_iff_le]
    split_ifs
    · rfl
    · obtain ⟨id, name, index, rtc, counter, timer, ⟨ch, lo, hi, dc, dt, d⟩⟩ := g
      simp only at hdir
      subst hdir
      rfl
  | gpio_down =>
    rw [pwm_ramp_step_down g c hdir hc0 hc1 hmax0 hmax1]
    have e : min c g.pwm.max_duty * 100 / 115 = 100 * min c g.pwm.max_duty / 115 := by
      rw [mul_comm]
    simp only [ramp_reference, e]
    split_ifs
    · rfl
    · obtain ⟨id, name, index, rtc, counter, timer, ⟨ch, lo, hi, dc, dt, d⟩⟩ := g
      simp only at hdir
      subst hdir
      rfl

theorem pwm_ramp_step_refines_witness :
    pwm_ramp_step example_pwm_pin 900 =
      ({ example_pwm_pin with pwm.direction :=
          (ramp_reference example_pwm_pin.pwm.direction 900 example_pwm_pin.pwm.min_duty
            example_pwm_pin.pwm.max_duty).1 },
        (ramp_reference example_pwm_pin.pwm.direction 900 example_pwm_pin.pwm.min_duty
          example_pwm_pin.pwm.max_duty).2) ∧
    (ramp_reference gpio_up 900 100 1000) = (gpio_down, 1000) :=
  ⟨(pwm_ramp_step_refines example_pwm_pin 900 (by decide) (by decide) (by decide) (by decide)
    (by decide) (by decide)).1, by decide⟩

/-! ## The interrupt handler and the configured mode -/

/-- C24 (as stated, refuted): with every pin disabled, the bitmask with bit 4
set makes `pc_int_handler` count an edge on gpio4 and load its debounce,
although gpio4 is not in counter mode. -/
theorem pc_int_handler_mode_counterexample :
    (get_config (state_boot config_default).config pin_gpio4).mode = gpio_disabled ∧
    (state_boot config_default).gpios[4]? = some pin_gpio4 ∧
    pin_gpio4.counter = { count := 0, debounce := 0 } ∧
    ((pc_int_handler (state_boot config_default) 16).gpios[4]?).map gpio_t.counter
      = some { count := 1, debounce := 100 } := by
  decide

/-- C24 (amended): the bitmask alone decides which pins `pc_int_handler`
touches, the configured mode is not consulted: a pin whose bit is set gets
its count raised by one (as a 32-bit `int`) and its debounce-remaining loaded
with the configured debounce, in counter mode or not, and a pin whose bit is
clear is left as it is; no pin's constants, timer or pwm members change. -/
theorem pc_int_handler_by_bitmask (s : state_t) (pc i : Nat) (g : gpio_t)
    (hg : s.gpios[i]? = some g) :
    ∃ g', (pc_int_handler s pc).gpios[i]? = some g' ∧
      g'.counter =
        (if pc.testBit g.index = true then
          { count := wrap32 (g.counter.count + 1),
            debounce := (get_config s.config g).counter.debounce }
         else g.counter) ∧
      (pc.testBit g.index = false → g' = g) ∧
      descriptor g' = descriptor g ∧ g'.timer = g.timer ∧ g'.pwm = g.pwm := by
  refine ⟨pc_int_pin s.config pc g, ?_, ?_, ?_, ?_⟩
  · simp [pc_int_handler, List.getElem?_map, hg]
  · by_cases hb : pc.testBit g.index = true
    · rw [pc_int_pin_set _ _ _ hb, if_pos hb]
    · have hb' : pc.testBit g.index = false := by simpa using hb
      rw [pc_int_pin_clear _ _ _ hb', if_neg hb]
  · intro hb
    exact pc_int_pin_clear _ _ _ hb
  · by_cases hb : pc.testBit g.index = true
    · rw [pc_int_pin_set _ _ _ hb]
      exact ⟨rfl, rfl, rfl⟩
    · have hb' : pc.testBit g.index = false := by simpa using hb
      rw [pc_int_pin_clear _ _ _ hb']
      exact ⟨rfl, rfl, rfl⟩

theorem pc_int_handler_by_bitmask_witness :
    ∃ g', (pc_int_handler (state_boot config_default) 16).gpios[4]? = some g' ∧
      g'.counter = { count := 1, debounce := 100 } := by
  obtain ⟨g', h1, h2, _⟩ :=
    pc_int_handler_by_bitmask (state_boot config_default) 16 4 pin_gpio4 (by decide)
  exact ⟨g', h1, h2.trans (by decide)⟩

/-! ## Trigger on a timer pin: last write wins -/

theorem clear_bits_set_idem (x s c : Nat) :
    clear_bits (clear_bits (x ||| s) c ||| s) c = clear_bits (x ||| s) c := by
  apply Nat.eq_of_testBit_eq
  intro i
  simp only [testBit_clear_bits, Nat.testBit_or]
  cases x.testBit i <;> cases s.testBit i <;> cases c.testBit i <;> rfl

/-- Writing the same level to the same pin twice is writing it once. -/
theorem set_output_idem (hw : hw_t) (g : gpio_t) (b : Bool) :
    set_output (set_output hw g b) g b = set_output hw g b := by
  unfold set_output
  by_cases hr : g.rtc_gpio = true
  · simp only [hr, if_true, rtcgpio_output_set]
  · simp only [hr, if_false, Bool.false_eq_true, gpio_output_set, clear_bits_set_idem]

/-- The trigger operation on a timer pin, in closed form. -/
theorem gpios_trigger_output_timer_eq (s : state_t) (i : Nat) (g : gpio_t)
    (hreg : registry_ok s.gpios) (hg : s.gpios[i]? = some g)
    (hmode : (get_config s.config g).mode = gpio_timer) :
    gpios_trigger_output s (g.index : Int) =
      (true, { s with
        gpios := s.gpios.set i { g with timer.delay := wrap32 (get_config s.config g).timer.delay },
        hw := set_output s.hw g (decide ((get_config s.config g).timer.direction = gpio_up)) }) := by
  simp only [gpios_trigger_output, find_gpio_registry s.gpios hreg i g hg, hmode, trigger_timer,
    if_true]

/-- C25: for a timer-mode pin, whatever its delay-remaining and the hardware
state are, `gpios_trigger_output` succeeds, leaves the output latch of the
pin at the configured active level (high exactly when the direction is up)
and the delay-remaining at the configured delay (read as a 32-bit `int`, so
the configured delay itself when it is in the `int` range), every other
member of the pin as it was; neither result mentions the previous
delay-remaining or level, and triggering again right away returns the same
result and the same state as triggering once. -/
theorem gpios_trigger_output_last_write_wins (s : state_t) (i : Nat) (g : gpio_t)
    (hreg : registry_ok s.gpios) (hg : s.gpios[i]? = some g)
    (hmode : (get_config s.config g).mode = gpio_timer) :
    (gpios_trigger_output s (g.index : Int)).1 = true ∧
    output_latch (gpios_trigger_output s (g.index : Int)).2.hw g
      = decide ((get_config s.config g).timer.direction = gpio_up) ∧
    (gpios_trigger_output s (g.index : Int)).2.gpios[i]?
      = some { g with timer.delay := wrap32 (get_config s.config g).timer.delay } ∧
    (0 ≤ (get_config s.config g).timer.delay → (get_config s.config g).timer.delay ≤ INT_MAX →
      wrap32 (get_config s.config g).timer.delay = (get_config s.config g).timer.delay) ∧
    gpios_trigger_output (gpios_trigger_output s (g.index : Int)).2 (g.index : Int)
      = gpios_trigger_output s (g.index : Int) := by
  have hlt : i < s.gpios.length := (List.getElem?_eq_some.1 hg).1
  have e1 := gpios_trigger_output_timer_eq s i g hreg hg hmode
  refine ⟨by rw [e1], ?_, ?_, ?_, ?_⟩
  · rw [e1]
    exact output_latch_set_output _ _ _
  · rw [e1]
    simp [List.getElem?_set, hlt]
  · intro h0 h1
    unfold INT_MAX at h1
    exact wrap32_of_range _ (by omega) (by omega)
  · rw [e1]
    have hreg' : registry_ok
        (s.gpios.set i { g with timer.delay := wrap32 (get_config s.config g).timer.delay }) :=
      registry_ok_set _ hreg i g _ hg rfl
    have hg' : (s.gpios.set i
        { g with timer.delay := wrap32 (get_config s.config g).timer.delay })[i]?
        = some { g with timer.delay := wrap32 (get_config s.config g).timer.delay } := by
      simp [List.getElem?_set, hlt]
    have e2 := gpios_trigger_output_timer_eq
      { s with
        gpios := s.gpios.set i { g with timer.delay := wrap32 (get_config s.config g).timer.delay },
        hw := set_output s.hw g (decide ((get_config s.config g).timer.direction = gpio_up)) }
      i { g with timer.delay := wrap32 (get_config s.config g).timer.delay } hreg' hg' hmode
    simp only at e2
    rw [e2]
    have hset : set_output
        (set_output s.hw g (decide ((get_config s.config g).timer.direction = gpio_up)))
        { g with timer.delay := wrap32 (get_config s.config g).timer.delay }
        (decide ((get_config s.config
          { g with timer.delay := wrap32 (get_config s.config g).timer.delay }).timer.direction
            = gpio_up))
        = set_output s.hw g (decide ((get_config s.config g).timer.direction = gpio_up)) :=
      set_output_idem s.hw g _
    rw [hset]
    simp only [List.set_set]
    rfl

theorem gpios_trigger_output_last_write_wins_witness :
    (gpios_trigger_output state_timer_once (pin_gpio4.index : Int)).1 = true ∧
    gpios_trigger_output (gpios_trigger_output state_timer_once (pin_gpio4.index : Int)).2
        (pin_gpio4.index : Int)
      = gpios_trigger_output state_timer_once (pin_gpio4.index : Int) := by
  obtain ⟨h1, _, _, _, h5⟩ := gpios_trigger_output_last_write_wins state_timer_once 4 pin_gpio4
    (by decide) (by decide) (by decide)
  exact ⟨h1, h5⟩

/-! ## The analog sampling window -/

/-- One tick of the sampler, for a sample counter below 256. -/
theorem analog_sample_step (s : state_t) (adc : Nat) (hc : s.analog_sampling_current < 256) :
    (gpios_periodic s adc).analog_sampling_current = (s.analog_sampling_current + 1) % 256 ∧
    (s.analog_sampling_current + 1 < 256 →
      (gpios_periodic s adc).analog_sampling_value = s.analog_sampling_value) ∧
    (s.analog_sampling_current + 1 = 256 →
      (gpios_periodic s adc).analog_sampling_total = 0 ∧
      ((gpios_periodic s adc).analog_sampling_value = 0 ∨
        (256 ≤ (gpios_periodic s adc).analog_sampling_value ∧
          (gpios_periodic s adc).analog_sampling_value ≤ 65535))) := by
  obtain ⟨pc, pt, pv⟩ := gpios_periodic_sampler s adc
  rw [pc, pt, pv]
  by_cases h : s.analog_sampling_current + 1 < 256
  · have hlt : ¬ (s.analog_sampling_current + 1) % 4294967296 ≥ 256 := by omega
    simp only [analog_sample, if_neg hlt]
    exact ⟨by omega, fun _ => trivial, fun h' => by omega⟩
  · have hge : (s.analog_sampling_current + 1) % 4294967296 ≥ 256 := by omega
    simp only [analog_sample, if_pos hge]
    refine ⟨by omega, fun h' => by omega, fun _ => ⟨trivial, ?_⟩⟩
    split_ifs <;> omega

theorem sample_sum_saturated (adc : Nat → Nat) (n : Nat) (h : ∀ k, k < n → adc k = 1023) :
    sample_sum adc n = n * 1024 := by
  induction n with
  | zero => rfl
  | succ n ih =>
    have e : sample_sum adc (n + 1) = sample_sum adc n + (if adc n = 1023 then 1024 else adc n) :=
      rfl
    rw [e, ih (fun k hk => h k (by omega)), if_pos (h n (by omega))]
    ring

/-- C26: from an empty accumulator and for every sequence of samples in
[0, 1023], after `n` ticks the sample counter is `n mod 256`, below 256; the
tick `n + 1` leaves the published reading as it was unless it completes a
window (`n + 1` a multiple of 256), and a tick that completes a window resets
counter and accumulator to 0 and publishes 0 or a value in [256, 65535]; and
if the 256 samples of the window are all the saturated reading 1023, the
value published is 65535. -/
theorem analog_window (adc : Nat → Nat) (s : state_t)
    (hc : s.analog_sampling_current = 0) (ht : s.analog_sampling_total = 0)
    (hadc : ∀ k, adc k ≤ 1023) (n : Nat) :
    (ticks adc n s).analog_sampling_current = n % 256 ∧
    (ticks adc n s).analog_sampling_current < 256 ∧
    ((n + 1) % 256 ≠ 0 →
      (ticks adc (n + 1) s).analog_sampling_value = (ticks adc n s).analog_sampling_value) ∧
    ((n + 1) % 256 = 0 →
      (ticks adc (n + 1) s).analog_sampling_current = 0 ∧
      (ticks adc (n + 1) s).analog_sampling_total = 0 ∧
      ((ticks adc (n + 1) s).analog_sampling_value = 0 ∨
        (256 ≤ (ticks adc (n + 1) s).analog_sampling_value ∧
          (ticks adc (n + 1) s).analog_sampling_value ≤ 65535))) ∧
    ((∀ k, k < 256 → adc k = 1023) → (ticks adc 256 s).analog_sampling_value = 65535) := by
  have hcount : ∀ m, (ticks adc m s).analog_sampling_current = m % 256 := by
    intro m
    induction m with
    | zero => exact hc
    | succ m ih =>
      have h := (analog_sample_step (ticks adc m s) (adc m) (by omega)).1
      show (gpios_periodic (ticks adc m s) (adc m)).analog_sampling_current = _
      rw [h, ih]
      omega
  have hn := hcount n
  obtain ⟨s1, s2, s3⟩ := analog_sample_step (ticks adc n s) (adc n) (by omega)
  refine ⟨hn, by omega, ?_, ?_, ?_⟩
  · intro h
    exact s2 (by omega)
  · intro h
    obtain ⟨t0, v⟩ := s3 (by omega)
    exact ⟨by rw [hcount (n + 1)]; exact h, t0, v⟩
  · intro hsat
    rw [ticks_publish adc s hc ht (fun i _ => by have := hadc i; omega),
      sample_sum_saturated adc 256 hsat]
    decide

theorem analog_window_witness :
    (ticks (fun _ => 1023) 255 (state_boot config_default)).analog_sampling_current = 255 % 256 ∧
    (ticks (fun _ => 1023) 256 (state_boot config_default)).analog_sampling_value = 65535 := by
  obtain ⟨h1, _, _, _, h5⟩ := analog_window (fun _ => 1023) (state_boot config_default) rfl rfl
    (fun _ => le_refl 1023) 255
  exact ⟨h1, h5 (fun _ _ => rfl)⟩

/-! ## Read command on a counter pin -/

/-- C27: the read command on a registered pin in counter mode returns normal
output; the text it leaves in the buffer carries the count the pin has before
the command (with the pin's name and level); afterwards the count is 0 if
`reset_on_get` is configured and unchanged otherwise, the debounce-remaining
is 0 in both cases, the pin's other members are as before, and every other
row of the pin table, the configuration and the hardware are unchanged. -/
theorem gpio_get_counter (s : state_t) (src : List arg_t) (dst : String) (gpio_index : Int)
    (current : Nat) (gpio : gpio_t)
    (hpin : parse_int 1 src = some gpio_index)
    (hfind : find_gpio s.gpios gpio_index = some (current, gpio))
    (hmode : (get_config s.config gpio).mode = gpio_counter) :
    application_function_gpio_get s src =
      (app_action_normal,
        { s with
          gpios := s.gpios.set current
            { gpio with
              counter.count :=
                if (get_config s.config gpio).counter.reset_on_get = true then 0
                else gpio.counter.count,
              counter.debounce := 0 } }) ∧
    gpio_get_dst s src dst =
      some (string_format dst "gpio-get: gpio %s is %d (state: %s)\n"
        [format_arg_t.str gpio.name, format_arg_t.int gpio.counter.count,
          format_arg_t.str (onoff (get_input s.hw gpio))]) ∧
    (∀ j : Nat, j ≠ current →
      (application_function_gpio_get s src).2.gpios[j]? = s.gpios[j]?) := by
  have e : application_function_gpio_get s src =
      (app_action_normal,
        { s with
          gpios := s.gpios.set current
            { gpio with
              counter.count :=
                if (get_config s.config gpio).counter.reset_on_get = true then 0
                else gpio.counter.count,
              counter.debounce := 0 } }) := by
    simp only [application_function_gpio_get, hpin, hfind, hmode]
    split_ifs <;> rfl
  refine ⟨e, ?_, ?_⟩
  · simp only [gpio_get_dst, hpin, hfind, hmode]
  · intro j hj
    rw [e]
    exact List.getElem?_set_ne (fun h => hj h.symm)

theorem gpio_get_counter_witness :
    application_function_gpio_get state_counting args_get_gpio2 =
      (app_action_normal,
        { state_counting with
          gpios := state_counting.gpios.set 2 { pin_counting with counter.debounce := 0 } }) ∧
    gpio_get_dst state_counting args_get_gpio2 ""
      = some "gpio-get: gpio gpio2 is 41 (state: off)\n" := by
  obtain ⟨h1, h2, _⟩ := gpio_get_counter state_counting args_get_gpio2 "" 2 2 pin_counting
    (by decide) (by decide) (by decide)
  exact ⟨h1.trans (by decide), h2.trans (by decide)⟩

/-! ## Period of the ramp steps -/

theorem gpios_periodic_config (s : state_t) (adc : Nat) :
    (gpios_periodic s adc).config = s.config := by
  unfold gpios_periodic
  obtain ⟨table, hw, flags, e⟩ := periodic_status_trigger_frame (periodic_pins (analog_sample s adc))
  rw [e]
  exact ((periodic_pins_frame _).1).trans (analog_sample_frame s adc).1

theorem ticks_config (adc : Nat → Nat) (s : state_t) (n : Nat) :
    (ticks adc n s).config = s.config := by
  induction n with
  | zero => rfl
  | succ n ih => exact (gpios_periodic_config _ _).trans ih

/-- The trigger operation replaces a row only if the row is a timer pin. -/
theorem gpios_trigger_output_keeps_row (s : state_t) (gpio_name : Int) (i : Nat) (g : gpio_t)
    (hg : s.gpios[i]? = some g) (hmode : (get_config s.config g).mode ≠ gpio_timer) :
    (gpios_trigger_output s gpio_name).2.gpios[i]? = some g := by
  unfold gpios_trigger_output
  cases hf : find_gpio s.gpios gpio_name with
  | none => exact hg
  | some p =>
    obtain ⟨current, gpio⟩ := p
    obtain ⟨hrow, _⟩ := find_gpio_some _ _ _ _ hf
    cases hm : (get_config s.config gpio).mode <;> simp only [hm]
    case gpio_timer =>
      by_cases hi : current = i
      · subst hi
        rw [hrow] at hg
        simp only [Option.some.injEq] at hg
        subst hg
        exact absurd hm hmode
      · simp [List.getElem?_set, hi, hg]
    all_goals exact hg

theorem periodic_status_trigger_keeps_row (s : state_t) (i : Nat) (g : gpio_t)
    (hg : s.gpios[i]? = some g) (hmode : (get_config s.config g).mode ≠ gpio_timer) :
    (periodic_status_trigger s).gpios[i]? = some g := by
  unfold periodic_status_trigger
  by_cases h1 : s.gpio_flags.counter_triggered = true
  · by_cases h2 : s.config.stat_trigger_gpio ≥ 0
    · simp only [h1, h2, if_true]
      exact gpios_trigger_output_keeps_row
        { s with gpio_flags.counter_triggered := false } s.config.stat_trigger_gpio i g hg hmode
    · simp only [h1, h2, if_true, if_false]
      exact hg
  · simp only [h1]
    exact hg

/-- On a pwm pin the loop body of the scheduler is its pwm block. -/
theorem periodic_pin_pwm (config : config_t) (g : gpio_t) (a : hw_t × Bool)
    (hmode : (get_config config g).mode = gpio_pwm) :
    periodic_pin config g a = periodic_pwm (get_config config g) g a := by
  simp [periodic_pin, periodic_counter, periodic_timer, hmode]

/-- One tick, seen from a pwm pin: its row afterwards is the result of the
pwm block of the scheduler. -/
theorem tick_pwm_row (s : state_t) (adc i : Nat) (g : gpio_t)
    (hg : s.gpios[i]? = some g) (hmode : (get_config s.config g).mode = gpio_pwm) :
    ∃ a : hw_t × Bool,
      (gpios_periodic s adc).gpios[i]? = some (periodic_pwm (get_config s.config g) g a).1 := by
  obtain ⟨fc, ff, fg, fh⟩ := analog_sample_frame s adc
  obtain ⟨pc, pf, _⟩ := periodic_pins_frame (analog_sample s adc)
  obtain ⟨a', hrow⟩ := periodic_pins_row_any (analog_sample s adc) i g (by rw [fg]; exact hg)
  rw [fc, periodic_pin_pwm s.config g a' hmode] at hrow
  refine ⟨a', ?_⟩
  unfold gpios_periodic
  apply periodic_status_trigger_keeps_row _ i _ hrow
  rw [pc, fc, get_config_congr _ _ g (periodic_pwm_effect _ _ _).1, hmode]
  decide

theorem pwm_ramp_step_delay (g : gpio_t) (duty : Int) :
    (pwm_ramp_step g duty).1.pwm.delay_top = g.pwm.delay_top ∧
    (pwm_ramp_step g duty).1.pwm.delay_current = g.pwm.delay_current ∧
    (pwm_ramp_step g duty).1.pwm.channel = g.pwm.channel := by
  simp only [pwm_ramp_step]
  split_ifs <;> exact ⟨rfl, rfl, rfl⟩

/-- The pwm block of the scheduler for a ramp-delay counter `k` within
`[0, d]`, `d` the ramp delay: nothing for `d = 0`, a ramp step with the
counter back at 0 for `k = d > 0`, the counter raised by one otherwise. -/
theorem periodic_pwm_period (cfg : gpio_config_entry_t) (g : gpio_t) (a : hw_t × Bool)
    (d k : Nat) (hmode : cfg.mode = gpio_pwm) (htop : g.pwm.delay_top = (d : Int))
    (hcur : g.pwm.delay_current = (k : Int)) (hk : k ≤ d) (hmax : (d : Int) < INT_MAX) :
    periodic_pwm cfg g a =
      (if 0 < d ∧ k = d then
        ((pwm_ramp_step { g with pwm.delay_current := 0 } (pwm_get_duty a.1 g.pwm.channel)).1,
          (pwm_set_duty a.1
            (pwm_ramp_step { g with pwm.delay_current := 0 } (pwm_get_duty a.1 g.pwm.channel)).2
            (pwm_ramp_step { g with pwm.delay_current := 0 }
              (pwm_get_duty a.1 g.pwm.channel)).1.pwm.channel, true))
       else if 0 < d then ({ g with pwm.delay_current := g.pwm.delay_current + 1 }, a)
       else (g, a)) := by
  unfold INT_MAX at hmax
  have hw : wrap32 (g.pwm.delay_current + 1) = g.pwm.delay_current + 1 :=
    wrap32_of_range _ (by omega) (by omega)
  by_cases hd : 0 < d
  · have hpos : cfg.mode = gpio_pwm ∧ g.pwm.delay_top > 0 := ⟨hmode, by omega⟩
    by_cases hkd : k = d
    · have hgt : g.pwm.delay_current + 1 > g.pwm.delay_top := by omega
      simp only [periodic_pwm, hpos, and_self, if_true, hw, hgt, hd, hkd]
    · have hle : ¬ g.pwm.delay_current + 1 > g.pwm.delay_top := by omega
      simp only [periodic_pwm, hpos, and_self, if_true, hw, hle, if_false, hd, hkd, and_false]
  · have hneg : ¬ (cfg.mode = gpio_pwm ∧ g.pwm.delay_top > 0) := by
      intro h
      omega
    simp only [periodic_pwm, hneg, if_false, hd, false_and]

/-- C23 (as stated, refuted): gpio5 is a pwm pin with ramp delay 1 and duty
100 after initialisation.  The first tick applies no ramp step, the second
does, the third does not, the fourth does: the steps are 2 ticks apart, not
1. -/
theorem ramp_period_counterexample :
    (get_config state_ramp_one.config pin_gpio5).pwm.delay = 1 ∧
    state_ramp_one.gpios[5]? = some pin_ramp_one ∧
    state_ramp_one.hw.pwm_duty = [100] ∧
    (ticks (fun _ => 0) 1 state_ramp_one).hw.pwm_duty = [100] ∧
    (ticks (fun _ => 0) 2 state_ramp_one).hw.pwm_duty = [115] ∧
    (ticks (fun _ => 0) 3 state_ramp_one).hw.pwm_duty = [115] ∧
    (ticks (fun _ => 0) 4 state_ramp_one).hw.pwm_duty = [132] := by
  decide

/-- C23 (amended): for a pwm pin (row `i`) with ramp delay `d` and
ramp-delay counter 0, after `n` ticks the counter is `n mod (d + 1)` and the
ramp delay is still `d`; tick `n + 1` turns the row into the result of the pwm
block of the scheduler, which applies a ramp step (reading and writing the
duty of the pin's channel, counter back to 0) exactly when `d > 0` and
`n + 1` is a multiple of `d + 1`, only raises the counter on the other ticks
when `d > 0`, and does nothing at all when `d = 0`.  So the first step comes
with tick `d + 1`, consecutive steps are `d + 1` ticks apart, and a pin with
ramp delay 0 is never ramped. -/
theorem pwm_ramp_period (s : state_t) (adc : Nat → Nat) (i : Nat) (g : gpio_t) (d : Nat)
    (hg : s.gpios[i]? = some g) (hmode : (get_config s.config g).mode = gpio_pwm)
    (htop : g.pwm.delay_top = (d : Int)) (hmax : (d : Int) < INT_MAX)
    (h0 : g.pwm.delay_current = 0) (n : Nat) :
    ∃ g_n : gpio_t,
      (ticks adc n s).gpios[i]? = some g_n ∧
      descriptor g_n = descriptor g ∧
      g_n.pwm.delay_top = (d : Int) ∧
      g_n.pwm.delay_current = ((n % (d + 1) : Nat) : Int) ∧
      (∀ a : hw_t × Bool, periodic_pwm (get_config s.config g) g_n a =
        (if 0 < d ∧ (n + 1) % (d + 1) = 0 then
          ((pwm_ramp_step { g_n with pwm.delay_current := 0 }
              (pwm_get_duty a.1 g_n.pwm.channel)).1,
            (pwm_set_duty a.1
              (pwm_ramp_step { g_n with pwm.delay_current := 0 }
                (pwm_get_duty a.1 g_n.pwm.channel)).2
              (pwm_ramp_step { g_n with pwm.delay_current := 0 }
                (pwm_get_duty a.1 g_n.pwm.channel)).1.pwm.channel, true))
         else if 0 < d then ({ g_n with pwm.delay_current := g_n.pwm.delay_current + 1 }, a)
         else (g_n, a))) ∧
      ∃ a : hw_t × Bool,
        (ticks adc (n + 1) s).gpios[i]? = some (periodic_pwm (get_config s.config g) g_n a).1 := by
  have hmod : ∀ m : Nat, m % (d + 1) ≤ d := fun m => by
    have := Nat.mod_lt m (by omega : d + 1 > 0)
    omega
  have hnext : ∀ m : Nat, (m + 1) % (d + 1) = if m % (d + 1) = d then 0 else m % (d + 1) + 1 := by
    intro m
    have h1 := hmod m
    by_cases hd : d = 0
    · subst hd
      simp [Nat.mod_one]
    · have hone : 1 % (d + 1) = 1 := Nat.mod_eq_of_lt (by omega)
      by_cases h : m % (d + 1) = d
      · rw [if_pos h, Nat.add_mod, h, hone, Nat.mod_self]
      · rw [if_neg h, Nat.add_mod, hone]
        exact Nat.mod_eq_of_lt (by omega)
  have hdue : ∀ m : Nat, (m % (d + 1) = d ↔ (m + 1) % (d + 1) = 0) := by
    intro m
    rw [hnext m]
    by_cases h : m % (d + 1) = d
    · simp [h]
    · simp [h]
  induction n with
  | zero =>
    refine ⟨g, hg, rfl, htop, by simpa using h0, ?_, ?_⟩
    · intro a
      rw [periodic_pwm_period _ g a d 0 hmode htop (by simpa using h0) (Nat.zero_le d) hmax]
      by_cases hd : 0 < d
      · have h1 : ¬ (0 = d) := by omega
        have h2 : ¬ ((0 + 1) % (d + 1) = 0) := by
          rw [Nat.mod_eq_of_lt (by omega)]
          omega
        simp only [hd, h1, h2, and_false, if_false, if_true]
      · simp only [hd, false_and, if_false]
    · exact tick_pwm_row s (adc 0) i g hg hmode
  | succ n ih =>
    obtain ⟨g_n, r1, r2, r3, r4, r5, a, r6⟩ := ih
    have hcfg : get_config (ticks adc (n + 1) s).config
        (periodic_pwm (get_config s.config g) g_n a).1 = get_config s.config g := by
      rw [ticks_config]
      exact get_config_congr _ _ _ (((periodic_pwm_effect _ _ _).1).trans r2)
    have hstep := r5 a
    have hrow : (periodic_pwm (get_config s.config g) g_n a).1.pwm.delay_top = (d : Int) ∧
        (periodic_pwm (get_config s.config g) g_n a).1.pwm.delay_current
          = (((n + 1) % (d + 1) : Nat) : Int) := by
      rw [hstep]
      by_cases hd : 0 < d
      · by_cases hz : (n + 1) % (d + 1) = 0
        · simp only [hd, hz, and_self, if_true]
          obtain ⟨p1, p2, _⟩ := pwm_ramp_step_delay { g_n with pwm.delay_current := 0 }
            (pwm_get_duty a.1 g_n.pwm.channel)
          rw [p1, p2]
          exact ⟨r3, by simp⟩
        · simp only [hd, hz, and_false, if_false, if_true]
          refine ⟨r3, ?_⟩
          rw [r4]
          have hne : n % (d + 1) ≠ d := fun h => hz ((hdue n).1 h)
          have hlt := hmod n
          have e : (n + 1) % (d + 1) = n % (d + 1) + 1 := by
            rw [hnext n, if_neg hne]
          rw [e]
          push_cast
          rfl
      · have hd0 : d = 0 := by omega
        subst hd0
        simp only [hd, false_and, if_false]
        refine ⟨r3, ?_⟩
        rw [r4]
        simp
    obtain ⟨t1, t2⟩ := hrow
    refine ⟨_, r6, ((periodic_pwm_effect _ _ _).1).trans r2, t1, t2, ?_, ?_⟩
    · intro a2
      rw [periodic_pwm_period _ _ a2 d ((n + 1) % (d + 1)) hmode t1 t2 (hmod _) hmax]
      by_cases hd : 0 < d
      · by_cases hz : (n + 1 + 1) % (d + 1) = 0
        · have hk := (hdue (n + 1)).2 hz
          simp only [hd, hk, hz, and_self, if_true]
        · have hk : ¬ ((n + 1) % (d + 1) = d) := fun h => hz ((hdue (n + 1)).1 h)
          simp only [hd, hk, hz, and_false, if_false, if_true]
      · simp only [hd, false_and, if_false]
    · have h := tick_pwm_row (ticks adc (n + 1) s) (adc (n + 1)) i _ r6 (by rw [hcfg]; exact hmode)
      rw [hcfg] at h
      exact h

theorem pwm_ramp_period_witness :
    ∃ g_n : gpio_t,
      (ticks (fun _ => 0) 1 state_ramp_one).gpios[5]? = some g_n ∧
      g_n.pwm.delay_top = 1 ∧ g_n.pwm.delay_current = 1 := by
  obtain ⟨g_n, h1, _, h3, h4, _⟩ := pwm_ramp_period state_ramp_one (fun _ => 0) 5 pin_ramp_one 1
    (by decide) (by decide) (by decide) (by decide) (by decide) 1
  exact ⟨g_n, h1, h3, h4⟩

/-! ## Commands of `application.c` -/

/-- What the `i2c-read` command does check: a count above 32 is refused
before any transfer, every other parsed count (negative ones included) goes
to the transfer, and the print loop reads positions below 32 only. -/
theorem i2c_read_checks (i2c_address : Int) (i2c_receive : Int → Int → Bool) (start stop : Nat)
    (src : List arg_t) (size : Int) (h : parse_int 1 src = some size) :
    (size > 32 →
      application_function_i2c_read i2c_address i2c_receive start stop src
        = { action := app_action_error, transfers := [], indexed := [],
            divides_by_zero := false }) ∧
    (size ≤ 32 →
      (application_function_i2c_read i2c_address i2c_receive start stop src).transfers
        = [(i2c_address, size)]) ∧
    (∀ k ∈ (application_function_i2c_read i2c_address i2c_receive start stop src).indexed,
      k < 32) := by
  simp only [application_function_i2c_read, h]
  refine ⟨fun hgt => by rw [if_pos hgt], fun hle => ?_, ?_⟩
  · rw [if_neg (by omega)]
    split_ifs <;> rfl
  · intro k hk
    split_ifs at hk with h1 h2
    · simp at hk
    · simp at hk
    · simp only [List.mem_range] at hk
      omega

/-- C28 (evaluation of the code at the failing input): for the byte count
-1 the `i2c-read` command returns no error before the transfer: it calls
`i2c_receive` with the count -1 and, on a bus whose transfers succeed,
returns normal output; the count 33 on the other hand is refused before any
transfer. -/
theorem i2c_read_negative_count :
    parse_int 1 args_i2c_read_negative = some (-1) ∧
    (application_function_i2c_read 39 i2c_receive_ok 0 1000 args_i2c_read_negative).transfers
      = [(39, -1)] ∧
    (application_function_i2c_read 39 i2c_receive_ok 0 1000 args_i2c_read_negative).action
      = app_action_normal ∧
    application_function_i2c_read 39 i2c_receive_ok 0 1000 args_i2c_read_33
      = { action := app_action_error, transfers := [], indexed := [],
          divides_by_zero := false } := by
  decide

/-- C29 (evaluation of the code at the failing input): with io 4, which is
`io_id_size` and names no backend, and pin 2, both trigger set commands
return normal output and store the io id 4, while io 5 is refused with the
store unchanged. -/
theorem trigger_set_accepts_io_id_size :
    io_id_size = 4 ∧
    (application_function_gpio_status_set store_empty args_trigger_io4).1 = app_action_normal ∧
    config_get_int (application_function_gpio_status_set store_empty args_trigger_io4).2
      "trigger.status.io" (-1) (-1) = some 4 ∧
    (application_function_gpio_assoc_set store_empty args_trigger_io4).1 = app_action_normal ∧
    config_get_int (application_function_gpio_assoc_set store_empty args_trigger_io4).2
      "trigger.assoc.io" (-1) (-1) = some 4 ∧
    application_function_gpio_status_set store_empty args_trigger_io5
      = (app_action_error, store_empty) ∧
    application_function_gpio_assoc_set store_empty args_trigger_io5
      = (app_action_error, store_empty) := by
  decide

/-- C30 (evaluation of the code at the failing inputs): with factor 2000 and
offset 500 in the store for sensor 1 on bus 0, the command without new values
reports the integers 2000 and 2000, the offset being read from the factor
key; and the command with the factor 2.0 and the offset 0.5, which both
parse, stores nothing and reports the defaults 1000 and 0. -/
theorem calibrate_reads_factor_key_for_offset :
    config_get_int store_calibrated "i2s.%u.%u.offset" 0 1 = some 500 ∧
    application_function_i2c_sensor_calibrate 2 8 0 store_calibrated args_calibrate_query
      = (app_action_normal, store_calibrated, some (2000, 2000)) ∧
    (parse_float 3 args_calibrate_set).isSome = true ∧
    (parse_float 4 args_calibrate_set).isSome = true ∧
    application_function_i2c_sensor_calibrate 2 8 0 store_empty args_calibrate_set
      = (app_action_normal, store_empty, some (1000, 0)) := by
  decide

end Gpios
